import Mathlib

/-!
# ARM7TDMI core of the GBA emulator: embedding and verified properties

A shallow embedding of `src/arm7tdmi/ARM7TDMI.cpp` and `src/ArmOpcodeHandlers.cpp`.

* `uint32_t` values are natural numbers; every operation that can leave the
  32-bit range is reduced with an explicit `% 2 ^ 32`.
* The CPU object is the record `ARM7TDMI`; member functions take the record and
  return the updated one.
* `assert(c)` aborts the handler: handlers return `Option ARM7TDMI`, and `none`
  is a violated assertion.
* Declarations of the header `ARM7TDMI.h` and of the bus (`Bus.h`) are not part
  of the sources at hand; each such definition is marked as modelled.
-/

/-! ## Data model -/

/-- Modelled from the spec: the packed status record `ProgramStatusRegister`
(declared in the absent header) with the fields named in section 3: the mode
bits, the state bit `T`, the interrupt masks `F`, `I` and the four flags. -/
structure ProgramStatusRegister where
  Mode : Nat
  T : Bool
  F : Bool
  I : Bool
  V : Bool
  C : Bool
  Z : Bool
  N : Bool
deriving DecidableEq

/-- Modelled from the spec: the bus of section 6 (`Bus.h` is absent), a
byte-addressed little-endian memory together with the byte array
`iORegisters`. -/
structure Bus where
  mem : Nat → Nat
  iORegisters : Nat → Nat

namespace Bus

/-- Modelled from the spec: `read8(addr) → u8`. -/
def read8 (bus : Bus) (addr : Nat) : Nat :=
  bus.mem addr % 256

/-- Modelled from the spec: `read16(addr) → u16`, bit 0 of `addr` ignored. -/
def read16 (bus : Bus) (addr : Nat) : Nat :=
  bus.read8 (addr / 2 * 2) + 256 * bus.read8 (addr / 2 * 2 + 1)

/-- Modelled from the spec: `read32(addr) → u32`, the low two bits of `addr`
ignored. -/
def read32 (bus : Bus) (addr : Nat) : Nat :=
  bus.read8 (addr / 4 * 4) + 256 * bus.read8 (addr / 4 * 4 + 1)
    + 65536 * bus.read8 (addr / 4 * 4 + 2) + 16777216 * bus.read8 (addr / 4 * 4 + 3)

/-- Modelled from the spec: `write8(addr, u8)`. -/
def write8 (bus : Bus) (addr value : Nat) : Bus :=
  { bus with mem := fun a => if a = addr then value % 256 else bus.mem a }

/-- Modelled from the spec: `write16(addr, u16)`; the CPU passes an aligned
address. -/
def write16 (bus : Bus) (addr value : Nat) : Bus :=
  (bus.write8 addr (value % 256)).write8 (addr + 1) (value / 256 % 256)

/-- Modelled from the spec: `write32(addr, u32)`; the CPU passes an aligned
address. -/
def write32 (bus : Bus) (addr value : Nat) : Bus :=
  { bus with mem := fun a =>
      if a = addr then value % 256
      else if a = addr + 1 then value / 256 % 256
      else if a = addr + 2 then value / 65536 % 256
      else if a = addr + 3 then value / 16777216 % 256
      else bus.mem a }

end Bus

/-- Target of the pointer `currentSpsr`: the CPSR itself or one of the saved
status registers. -/
inductive PsrRef where
  | cpsr : PsrRef
  | spsr : Nat → PsrRef
deriving DecidableEq

/-- The CPU object. `registers` and `userRegisters` are the arrays of pointers
of the source: `registers i` is the physical cell that index `i` currently
designates, and `cells` holds the contents of the physical cells. -/
structure ARM7TDMI where
  cells : Nat → Nat
  registers : Nat → Nat
  userRegisters : Nat → Nat
  cpsr : ProgramStatusRegister
  spsrCells : Nat → ProgramStatusRegister
  currentSpsr : PsrRef
  currInstruction : Nat
  currInstrAddress : Nat
  bus : Bus

namespace ARM7TDMI

def PC_REGISTER : Nat := 15
def LINK_REGISTER : Nat := 14
def SP_REGISTER : Nat := 13

/-- 32-bit subtraction `a - b` of two `uint32_t`. -/
def sub32 (a b : Nat) : Nat := (a + (2 ^ 32 - b % 2 ^ 32)) % 2 ^ 32

/-- 32-bit complement `~a`. -/
def not32 (a : Nat) : Nat := 2 ^ 32 - 1 - a % 2 ^ 32

/-- `assert(c)`: a violated assertion aborts the handler. -/
def assert (c : Bool) : Option Unit := if c then some () else none

/-- `ARM7TDMI::getRegister`. -/
def getRegister (cpu : ARM7TDMI) (index : Nat) : Nat :=
  cpu.cells (cpu.registers index)

/-- `ARM7TDMI::getUserRegister`. -/
def getUserRegister (cpu : ARM7TDMI) (index : Nat) : Nat :=
  cpu.cells (cpu.userRegisters index)

/-- `ARM7TDMI::setRegister`. -/
def setRegister (cpu : ARM7TDMI) (index value : Nat) : ARM7TDMI :=
  { cpu with cells := fun c => if c = cpu.registers index then value else cpu.cells c }

/-- `ARM7TDMI::setUserRegister`. -/
def setUserRegister (cpu : ARM7TDMI) (index value : Nat) : ARM7TDMI :=
  { cpu with cells := fun c => if c = cpu.userRegisters index then value else cpu.cells c }

/-- `ARM7TDMI::getCurrentModeSpsr`, dereferenced. -/
def getCurrentModeSpsr (cpu : ARM7TDMI) : ProgramStatusRegister :=
  match cpu.currentSpsr with
  | PsrRef.cpsr => cpu.cpsr
  | PsrRef.spsr i => cpu.spsrCells i

/-- `ARM7TDMI::getOpcode`. -/
def getOpcode (instruction : Nat) : Nat :=
  (instruction &&& 0x01E00000) >>> 21

/-- `ARM7TDMI::sFlagSet`. -/
def sFlagSet (instruction : Nat) : Bool :=
  (instruction &&& 0x00100000) != 0

/-- Modelled from the spec: `getRd` (absent header), bits 15:12 of the opcode
format table. -/
def getRd (instruction : Nat) : Nat :=
  (instruction &&& 0x0000F000) >>> 12

/-- Modelled from the spec: `getRn` (absent header), bits 19:16. -/
def getRn (instruction : Nat) : Nat :=
  (instruction &&& 0x000F0000) >>> 16

/-- Modelled from the spec: `getRs` (absent header), bits 11:8. -/
def getRs (instruction : Nat) : Nat :=
  (instruction &&& 0x00000F00) >>> 8

/-- Modelled from the spec: `getRm` (absent header), bits 3:0. -/
def getRm (instruction : Nat) : Nat :=
  instruction &&& 0x0000000F

/-- Modelled from the spec: `dataTransGetP` (absent header), bit 24. -/
def dataTransGetP (instruction : Nat) : Bool :=
  (instruction &&& 0x01000000) != 0

/-- Modelled from the spec: `dataTransGetU` (absent header), bit 23. -/
def dataTransGetU (instruction : Nat) : Bool :=
  (instruction &&& 0x00800000) != 0

/-- Modelled from the spec: `dataTransGetB` (absent header), bit 22. -/
def dataTransGetB (instruction : Nat) : Bool :=
  (instruction &&& 0x00400000) != 0

/-- Modelled from the spec: `dataTransGetW` (absent header), bit 21. -/
def dataTransGetW (instruction : Nat) : Bool :=
  (instruction &&& 0x00200000) != 0

/-- Modelled from the spec: `dataTransGetL` (absent header), bit 20. -/
def dataTransGetL (instruction : Nat) : Bool :=
  (instruction &&& 0x00100000) != 0

/-! ## Shift primitives -/

/-- Modelled from the spec: `aluShiftLsl` (absent header): logical shift left
of a 32-bit value; an amount of 32 or more gives 0. -/
def aluShiftLsl (value shift : Nat) : Nat :=
  if shift ≥ 32 then 0 else (value <<< shift) % 2 ^ 32

/-- Modelled from the spec: `aluShiftLsr` (absent header): logical shift
right; an amount of 32 or more gives 0. -/
def aluShiftLsr (value shift : Nat) : Nat :=
  if shift ≥ 32 then 0 else value >>> shift

/-- Modelled from the spec: `aluShiftAsr` (absent header): arithmetic shift
right; an amount of 32 or more gives 32 copies of bit 31. -/
def aluShiftAsr (value shift : Nat) : Nat :=
  if value &&& 0x80000000 != 0 then
    if shift ≥ 32 then 0xFFFFFFFF
    else (value >>> shift) ||| (0xFFFFFFFF - (0xFFFFFFFF >>> shift))
  else
    if shift ≥ 32 then 0 else value >>> shift

/-- Modelled from the spec: `aluShiftRor` (absent header): rotation to the
right of a 32-bit value. -/
def aluShiftRor (value shift : Nat) : Nat :=
  ((value >>> (shift % 32)) ||| (value <<< (32 - shift % 32))) % 2 ^ 32

/-- Modelled from the spec: `aluShiftRrx` (absent header): rotate right by one
through the carry flag, `(input >> 1) | (CPSR.C << 31)`. -/
def aluShiftRrx (value : Nat) (_shift : Nat) (cpu : ARM7TDMI) : Nat :=
  (value >>> 1) ||| ((if cpu.cpsr.C then 1 else 0) <<< 31)

/-- Result record `AluShiftResult` of the shifter: the second operand and the
value assigned to the carry output. -/
structure AluShiftResult where
  op2 : Nat
  carry : Nat
deriving DecidableEq

/-- Flag value as the integer 0 or 1. -/
def flagBit (b : Bool) : Nat := if b then 1 else 0

/-- Modelled from the spec: the carry output of the shifter is a flag (section
4.2). The member `carryBit` that `aluShift` assigns is declared in the absent
header; the `carryBit` of `dataProcHandler` is a `bool`. An integer stored in
a `bool` becomes 1 when it is not 0. -/
def boolOfInt (value : Nat) : Nat := flagBit (value != 0)

/-- The operator `>>` of a `uint32_t` by a count held in a `uint32_t`. C++
leaves the result undefined for a count of 32 or more; the shift instruction
the operator compiles to takes the count modulo 32, and so does this
definition. -/
def shiftRight32 (value count : Nat) : Nat := value >>> (count % 32)

/-- `ARM7TDMI::aluShift`. The field `carry` of the result is the value the
source assigns to its carry output. The mask `rm & 0x80000000` of the ASR path
is stored through the conversion to `bool`; the other expressions assigned are
0 or 1 for a 32-bit operand and are kept as written. The count
`(shiftAmount % 32) - 1` of the ROR path is `0xFFFFFFFF` when the amount is a
multiple of 32 and is shifted by with `shiftRight32`; every other shift count
of the function lies in 0..31. -/
def aluShift (cpu : ARM7TDMI) (instruction : Nat) (i r : Bool) : Option AluShiftResult :=
  if i then
    -- shifted immediate value as 2nd operand
    let imm := instruction &&& 0x000000FF
    let is := (instruction &&& 0x00000F00) >>> 7
    let op2 := aluShiftRor imm (is % 32)
    -- carry out bit is the least significant discarded bit of rm
    let carryBit := if is > 0 then (imm >>> (is - 1)) &&& 0x1 else flagBit cpu.cpsr.C
    some { op2 := op2, carry := carryBit }
  else do
    -- shifted register value as 2nd operand
    let shiftType := (instruction &&& 0x00000060) >>> 5
    let rmIndex := instruction &&& 0x0000000F
    let rm := cpu.getRegister rmIndex
    let rm :=
      if rmIndex != PC_REGISTER then rm
      else if !i && r then (rm + 8) % 2 ^ 32
      else (rm + 4) % 2 ^ 32
    let rsIndex := (instruction &&& 0x00000F00) >>> 8
    if r then assert (rsIndex != 15)
    let shiftAmount :=
      if r then cpu.getRegister rsIndex &&& 0x000000FF
      else (instruction &&& 0x00000F80) >>> 7
    if r && shiftAmount == 0 then
      pure { op2 := rm, carry := flagBit cpu.cpsr.C }
    else
      let immOpIsZero := if r then false else shiftAmount == 0
      if shiftType == 0 then
        -- Logical Shift Left
        if !immOpIsZero then
          pure { op2 := aluShiftLsl rm shiftAmount
                 carry := if shiftAmount > 32 then 0 else (rm >>> (32 - shiftAmount)) &&& 1 }
        else
          pure { op2 := rm, carry := flagBit cpu.cpsr.C }
      else if shiftType == 1 then
        -- Logical Shift Right
        if !immOpIsZero then
          pure { op2 := aluShiftLsr rm shiftAmount
                 carry := if shiftAmount > 32 then 0 else (rm >>> (shiftAmount - 1)) &&& 1 }
        else
          pure { op2 := 0, carry := rm >>> 31 }
      else if shiftType == 2 then
        -- Arithmetic Shift Right
        if !immOpIsZero then
          pure { op2 := aluShiftAsr rm shiftAmount
                 carry := boolOfInt (if shiftAmount ≥ 32 then rm &&& 0x80000000
                                     else (rm >>> (shiftAmount - 1)) &&& 1) }
        else
          pure { op2 := aluShiftAsr rm 32, carry := rm >>> 31 }
      else
        -- Rotating Shift
        if !immOpIsZero then
          pure { op2 := aluShiftRor rm (shiftAmount % 32)
                 carry := (shiftRight32 rm (sub32 (shiftAmount % 32) 1)) &&& 1 }
        else
          pure { op2 := (rm >>> 1) ||| (flagBit cpu.cpsr.C <<< 31), carry := rm &&& 1 }

/-! ## Flag arithmetic -/

/-- Modelled from the spec: `aluSetsZeroBit` (absent header), Z = (result == 0). -/
def aluSetsZeroBit (result : Nat) : Bool := result == 0

/-- Modelled from the spec: `aluSetsSignBit` (absent header), N = bit 31 of the
result. -/
def aluSetsSignBit (result : Nat) : Bool := (result &&& 0x80000000) != 0

/-- Modelled from the spec: `aluAddSetsCarryBit` (absent header), C = `a + b`
overflows 32 bits. -/
def aluAddSetsCarryBit (a b : Nat) : Bool := decide (a + b ≥ 2 ^ 32)

/-- Modelled from the spec: `aluAddSetsOverflowBit` (absent header),
V = (sign(a) == sign(b)) and sign(r) != sign(a). -/
def aluAddSetsOverflowBit (a b result : Nat) : Bool :=
  (aluSetsSignBit a == aluSetsSignBit b) && (aluSetsSignBit result != aluSetsSignBit a)

/-- Modelled from the spec: `aluSubtractSetsCarryBit` (absent header),
C = (a >= b). -/
def aluSubtractSetsCarryBit (a b : Nat) : Bool := decide (a ≥ b)

/-- Modelled from the spec: `aluSubtractSetsOverflowBit` (absent header),
V = (sign(a) != sign(b)) and sign(r) != sign(a). -/
def aluSubtractSetsOverflowBit (a b result : Nat) : Bool :=
  (aluSetsSignBit a != aluSetsSignBit b) && (aluSetsSignBit result != aluSetsSignBit a)

/-- Modelled from the spec: `aluAddWithCarrySetsCarryBit` (absent header): the
carry-out of the 33-bit sum, bit 32 of the 64-bit argument. -/
def aluAddWithCarrySetsCarryBit (result : Nat) : Bool := (result >>> 32) % 2 == 1

/-- Modelled from the spec: `aluAddWithCarrySetsOverflowBit` (absent header):
the signed-overflow rule of addition on the 32-bit result. -/
def aluAddWithCarrySetsOverflowBit (a b result : Nat) (_cpu : ARM7TDMI) : Bool :=
  aluAddSetsOverflowBit a b result

/-- Modelled from the spec: `aluSubWithCarrySetsCarryBit` (absent header): the
carry-out of the 33-bit sum, bit 32 of the 64-bit argument. -/
def aluSubWithCarrySetsCarryBit (result : Nat) : Bool := (result >>> 32) % 2 == 1

/-- Modelled from the spec: `aluSubWithCarrySetsOverflowBit` (absent header):
the signed-overflow rule of subtraction on the 32-bit result. -/
def aluSubWithCarrySetsOverflowBit (a b result : Nat) (_cpu : ARM7TDMI) : Bool :=
  aluSubtractSetsOverflowBit a b result

/-! ## Data processing -/

namespace ArmOpcodeHandlers

/-- Local variables of `dataProcHandler` after its `switch`: the CPU together
with the four flag candidates. -/
structure DataProcLocals where
  cpu : ARM7TDMI
  carryBit : Bool
  overflowBit : Bool
  signBit : Bool
  zeroBit : Bool

/-- `ARM7TDMI::ArmOpcodeHandlers::dataProcHandler`. The opcodes are numbered as
in the table above the handler (0 = AND, ..., 15 = MVN). The local `rnValue`
(the biased first operand) is computed by the source but not used by it; the
`switch` reads `rnVal`. -/
def dataProcHandler (instruction : Nat) (cpu : ARM7TDMI) : Option ARM7TDMI := do
  -- shift op2
  let shiftResult ← cpu.aluShift instruction ((instruction &&& 0x02000000) != 0)
    ((instruction &&& 0x00000010) != 0)
  let rd := getRd instruction
  let rn := getRn instruction
  let opcode := getOpcode instruction
  let carryBit := cpu.cpsr.C
  let overflowBit := cpu.cpsr.V
  let signBit := cpu.cpsr.N
  let zeroBit := cpu.cpsr.Z
  let op2 := shiftResult.op2
  let rnVal := cpu.getRegister rn
  let cin := flagBit cpu.cpsr.C
  let flagsOld : DataProcLocals :=
    { cpu := cpu, carryBit := carryBit, overflowBit := overflowBit,
      signBit := signBit, zeroBit := zeroBit }
  let locals : DataProcLocals :=
    match opcode with
    | 0 => -- AND
      let result := rnVal &&& op2
      { flagsOld with cpu := cpu.setRegister rd result,
                      zeroBit := aluSetsZeroBit result, signBit := aluSetsSignBit result }
    | 1 => -- EOR
      let result := rnVal ^^^ op2
      { flagsOld with cpu := cpu.setRegister rd result,
                      zeroBit := aluSetsZeroBit result, signBit := aluSetsSignBit result }
    | 2 => -- SUB
      let result := sub32 rnVal op2
      { cpu := cpu.setRegister rd result,
        zeroBit := aluSetsZeroBit result, signBit := aluSetsSignBit result,
        carryBit := aluSubtractSetsCarryBit rnVal op2,
        overflowBit := aluSubtractSetsOverflowBit rnVal op2 result }
    | 3 => -- RSB
      let result := sub32 op2 rnVal
      { cpu := cpu.setRegister rd result,
        zeroBit := aluSetsZeroBit result, signBit := aluSetsSignBit result,
        carryBit := aluSubtractSetsCarryBit op2 rnVal,
        overflowBit := aluSubtractSetsOverflowBit op2 rnVal result }
    | 4 => -- ADD
      let result := (rnVal + op2) % 2 ^ 32
      { cpu := cpu.setRegister rd result,
        zeroBit := aluSetsZeroBit result, signBit := aluSetsSignBit result,
        carryBit := aluAddSetsCarryBit rnVal op2,
        overflowBit := aluAddSetsOverflowBit rnVal op2 result }
    | 5 => -- ADC: the sum is formed in 32 bits and then widened
      let result := (rnVal + op2 + cin) % 2 ^ 32
      { cpu := cpu.setRegister rd (result % 2 ^ 32),
        zeroBit := aluSetsZeroBit (result % 2 ^ 32),
        signBit := aluSetsSignBit (result % 2 ^ 32),
        carryBit := aluAddWithCarrySetsCarryBit result,
        overflowBit := aluAddWithCarrySetsOverflowBit rnVal op2 (result % 2 ^ 32) cpu }
    | 6 => -- SBC: the sum is formed in 32 bits and then widened
      let result := (rnVal + not32 op2 + cin) % 2 ^ 32
      { cpu := cpu.setRegister rd (result % 2 ^ 32),
        zeroBit := aluSetsZeroBit (result % 2 ^ 32),
        signBit := aluSetsSignBit (result % 2 ^ 32),
        carryBit := aluSubWithCarrySetsCarryBit result,
        overflowBit := aluSubWithCarrySetsOverflowBit rnVal op2 (result % 2 ^ 32) cpu }
    | 7 => -- RSC: the sum is formed in 32 bits and then widened
      let result := (op2 + not32 rnVal + cin) % 2 ^ 32
      { cpu := cpu.setRegister rd (result % 2 ^ 32),
        zeroBit := aluSetsZeroBit (result % 2 ^ 32),
        signBit := aluSetsSignBit (result % 2 ^ 32),
        carryBit := aluSubWithCarrySetsCarryBit result,
        overflowBit := aluSubWithCarrySetsOverflowBit op2 rnVal (result % 2 ^ 32) cpu }
    | 8 => -- TST
      let result := rnVal &&& op2
      { flagsOld with zeroBit := aluSetsZeroBit result, signBit := aluSetsSignBit result }
    | 9 => -- TEQ
      let result := rnVal ^^^ op2
      { flagsOld with zeroBit := aluSetsZeroBit result, signBit := aluSetsSignBit result }
    | 10 => -- CMP
      let result := sub32 rnVal op2
      { cpu := cpu,
        zeroBit := aluSetsZeroBit result, signBit := aluSetsSignBit result,
        carryBit := aluSubtractSetsCarryBit rnVal op2,
        overflowBit := aluSubtractSetsOverflowBit rnVal op2 result }
    | 11 => -- CMN
      let result := (rnVal + op2) % 2 ^ 32
      { cpu := cpu,
        zeroBit := aluSetsZeroBit result, signBit := aluSetsSignBit result,
        carryBit := aluAddSetsCarryBit rnVal op2,
        overflowBit := aluAddSetsOverflowBit rnVal op2 result }
    | 12 => -- ORR
      let result := rnVal ||| op2
      { flagsOld with cpu := cpu.setRegister rd result,
                      zeroBit := aluSetsZeroBit result, signBit := aluSetsSignBit result }
    | 13 => -- MOV
      let result := op2
      { flagsOld with cpu := cpu.setRegister rd result,
                      zeroBit := aluSetsZeroBit result, signBit := aluSetsSignBit result }
    | 14 => -- BIC
      let result := rnVal &&& not32 op2
      { flagsOld with cpu := cpu.setRegister rd result,
                      zeroBit := aluSetsZeroBit result, signBit := aluSetsSignBit result }
    | 15 => -- MVN
      let result := not32 op2
      { flagsOld with cpu := cpu.setRegister rd result,
                      zeroBit := aluSetsZeroBit result, signBit := aluSetsSignBit result }
    | _ => flagsOld
  let cpu := locals.cpu
  if rd != PC_REGISTER && sFlagSet instruction then
    pure { cpu with cpsr := { cpu.cpsr with C := locals.carryBit, Z := locals.zeroBit,
                                            N := locals.signBit, V := locals.overflowBit } }
  else if rd == PC_REGISTER && sFlagSet instruction then
    pure { cpu with cpsr := cpu.getCurrentModeSpsr }
  else
    pure cpu

end ArmOpcodeHandlers

/-! ## Single data transfer (LDR / STR) -/

namespace ArmOpcodeHandlers

/-- `ARM7TDMI::ArmOpcodeHandlers::singleDataTransHandler`.

The source leaves the local `offset` uninitialised when the shift type field
is 3 (its `switch` has the labels 0, 1, 2 and 4); `uninitOffset` stands for the
indeterminate value the variable then holds. -/
def singleDataTransHandler (instruction : Nat) (uninitOffset : Nat) (cpu : ARM7TDMI) :
    Option ARM7TDMI := do
  assert ((instruction &&& 0x0C000000) == (instruction &&& 0x04000000))
  let rd := getRd instruction
  let rdVal := if rd == 15 then (cpu.getRegister rd + 12) % 2 ^ 32 else cpu.getRegister rd
  let rn := getRn instruction
  let rnVal := if rn == 15 then (cpu.getRegister rn + 8) % 2 ^ 32 else cpu.getRegister rn
  let offset ←
    if (instruction &&& 0x02000000) != 0 then do
      -- Register shifted by Immediate as Offset
      assert ((instruction &&& 0x00000010) == 0)
      let rm := getRm instruction
      assert (rm != 15)
      let shiftAmount := (instruction &&& 0x00000F80) >>> 7
      match (instruction &&& 0x00000060) >>> 5 with
      | 0 => pure (if shiftAmount != 0 then aluShiftLsl (cpu.getRegister rm) shiftAmount
                   else cpu.getRegister rm)
      | 1 => pure (if shiftAmount != 0 then aluShiftLsr (cpu.getRegister rm) shiftAmount
                   else 0)
      | 2 => pure (if shiftAmount != 0 then aluShiftAsr (cpu.getRegister rm) shiftAmount
                   else aluShiftAsr (cpu.getRegister rm) 32)
      | 4 => pure (if shiftAmount != 0 then aluShiftRor (cpu.getRegister rm) (shiftAmount % 32)
                   else aluShiftRrx (cpu.getRegister rm) 1 cpu)
      | _ => pure uninitOffset
    else
      -- immediate as offset (12 bit offset)
      pure (instruction &&& 0x00000FFF)
  let address := rnVal
  let u := dataTransGetU instruction
  let p := dataTransGetP instruction
  -- add offset before transfer
  let address := if p then (if u then (address + offset) % 2 ^ 32 else sub32 address offset)
                 else address
  let cpu := if p && dataTransGetW instruction then cpu.setRegister rn address else cpu
  let b := dataTransGetB instruction
  let cpu :=
    if dataTransGetL instruction then
      if b then
        cpu.setRegister rd (cpu.bus.read8 address)
      else if (address &&& 0x00000003) != 0 && (address &&& 0x00000001) == 0 then
        -- aligned to half-word but not word
        let low := cpu.bus.read16 (address &&& 0xFFFFFFFE)
        let hi := cpu.bus.read16 ((sub32 address 2) &&& 0xFFFFFFFE)
        let full := ((hi <<< 16) % 2 ^ 32) ||| low
        cpu.setRegister rd
          (aluShiftRor (cpu.bus.read32 (full &&& 0xFFFFFFFC)) ((full &&& 3) * 8))
      else
        -- aligned to word
        cpu.setRegister rd
          (aluShiftRor (cpu.bus.read32 (address &&& 0xFFFFFFFC)) ((address &&& 3) * 8))
    else
      if b then
        { cpu with bus := cpu.bus.write8 address (rdVal % 256) }
      else
        { cpu with bus := cpu.bus.write32 (address &&& 0xFFFFFFFC) rdVal }
  -- add offset after transfer and always write back
  let cpu := if !p then
      cpu.setRegister rn (if u then (address + offset) % 2 ^ 32 else sub32 address offset)
    else cpu
  pure cpu

end ArmOpcodeHandlers

/-! ## Block data transfer (LDM / STM) -/

/-- Modelled from the spec: the mode USER of the enumeration `Mode` (absent
header), with its architectural encoding in `M[4:0]`. -/
def USER : Nat := 0x10

/-- Modelled from the spec: the mode IRQ of the enumeration `Mode` (absent
header), with its architectural encoding in `M[4:0]`. -/
def IRQ : Nat := 0x12

namespace ArmOpcodeHandlers

/-- Locals of `blockDataTransHandler` that its loops update, with the CPU. -/
structure BlockLocals where
  rnVal : Nat
  addressRnStoredAt : Nat
  cpu : ARM7TDMI

/-- Body of `if (regList & ...)` in both loops of `blockDataTransHandler`, up to
the update of `rnVal`: one register is loaded or stored at `rnVal & ~3`. -/
def blockTransferRegister (l s : Bool) (rn reg : Nat) (st : BlockLocals) : BlockLocals :=
  if l then
    -- LDM{cond}{amod} Rn{!},<Rlist>{^}  ;Load  (Pop)
    let data := st.cpu.bus.read32 (st.rnVal &&& 0xFFFFFFFC)
    { st with cpu := if !s then st.cpu.setRegister reg data
                     else st.cpu.setUserRegister reg data }
  else
    -- STM{cond}{amod} Rn{!},<Rlist>{^}  ;Store (Push)
    let addressRnStoredAt := if reg == rn then st.rnVal else st.addressRnStoredAt
    let data := if !s then st.cpu.getRegister reg else st.cpu.getUserRegister reg
    let data := if reg == 15 then (data + 12) % 2 ^ 32 else data
    { st with addressRnStoredAt := addressRnStoredAt,
              cpu := { st.cpu with bus := st.cpu.bus.write32 (st.rnVal &&& 0xFFFFFFFC) data } }

/-- The loop `for (int reg = 0; reg < 16; reg++)` of the up direction, with
`count` iterations left, the next one for register `reg`. -/
def blockTransferUp (l s : Bool) (rn : Nat) :
    (count : Nat) → (reg regList : Nat) → BlockLocals → BlockLocals
  | 0, _, _, st => st
  | count + 1, reg, regList, st =>
    let st :=
      if (regList &&& 1) != 0 then
        let st := blockTransferRegister l s rn reg st
        { st with rnVal := (st.rnVal + 4) % 2 ^ 32 }
      else st
    blockTransferUp l s rn count (reg + 1) (regList >>> 1) st

/-- The loop `for (int reg = 15; reg >= 0; reg--)` of the down direction; the
first argument is `reg + 1`. The 16-bit `regList` is shifted left in place. -/
def blockTransferDown (l s : Bool) (rn : Nat) :
    (regSucc : Nat) → (regList : Nat) → BlockLocals → BlockLocals
  | 0, _, st => st
  | reg + 1, regList, st =>
    let st :=
      if (regList &&& 0x8000) != 0 then
        let st := blockTransferRegister l s rn reg st
        { st with rnVal := sub32 st.rnVal 4 }
      else st
    blockTransferDown l s rn reg ((regList <<< 1) % 2 ^ 16) st

/-- The statement `if (u) { ... } else { ... }` of `blockDataTransHandler`
(lines 613 to 680): both transfer loops with the adjustment of `rnVal` for
pre-indexing before and after. -/
def blockTransferLoops (p u l s : Bool) (rn regList : Nat) (st : BlockLocals) : BlockLocals :=
  if u then
    -- up, add offset to base
    let st := if p then { st with rnVal := (st.rnVal + 4) % 2 ^ 32 } else st
    let st := blockTransferUp l s rn 16 0 regList st
    if p then { st with rnVal := sub32 st.rnVal 4 } else st
  else
    -- down, subtract offset from base
    let st := if p then { st with rnVal := sub32 st.rnVal 4 } else st
    let st := blockTransferDown l s rn 16 regList st
    if p then { st with rnVal := (st.rnVal + 4) % 2 ^ 32 } else st

/-- `ARM7TDMI::ArmOpcodeHandlers::blockDataTransHandler`. In the test of the
base rewrite the operand `(uint16_t)instruction` is promoted to `int` before
the shift, so the shifted value keeps the bits above bit 15. -/
def blockDataTransHandler (instruction : Nat) (cpu : ARM7TDMI) : Option ARM7TDMI := do
  assert ((instruction &&& 0x0E000000) == 0x08000000)
  -- base register
  let rn := getRn instruction
  let rnVal := cpu.getRegister rn
  assert (rn != 15)
  let p := dataTransGetP instruction
  let u := dataTransGetU instruction
  let l := dataTransGetL instruction
  let w := dataTransGetW instruction
  -- special case for block transfer, s = what is usually b
  let s := dataTransGetB instruction
  if s then assert (cpu.cpsr.Mode != USER)
  let regList := instruction % 2 ^ 16
  let st := blockTransferLoops p u l s rn regList
    { rnVal := rnVal, addressRnStoredAt := 0, cpu := cpu }
  let rnVal := st.rnVal
  let cpu := st.cpu
  let cpu ←
    if w then do
      let cpu ←
        if (decide (((instruction % 2 ^ 16) <<< (15 - rn)) > 0x8000)) && !l then do
          assert (st.addressRnStoredAt != 0)
          pure { cpu with bus := cpu.bus.write32 (st.addressRnStoredAt &&& 0xFFFFFFFC) rnVal }
        else pure cpu
      pure (cpu.setRegister rn rnVal)
    else pure cpu
  if s && l && ((instruction &&& 0x00008000) != 0) then
    pure { cpu with cpsr := cpu.getCurrentModeSpsr }
  else
    pure cpu

/-! ## Branches -/

/-- `ARM7TDMI::ArmOpcodeHandlers::branchHandler`. -/
def branchHandler (instruction : Nat) (cpu : ARM7TDMI) : Option ARM7TDMI := do
  assert ((instruction &&& 0x0E000000) == 0x0A000000)
  let offset := ((instruction &&& 0x00FFFFFF) <<< 2) % 2 ^ 32
  let branchAddress := (cpu.getRegister PC_REGISTER + offset + 8) % 2 ^ 32
  let branchAddress := branchAddress &&& 0xFFFFFFFC
  let cpu :=
    match (instruction &&& 0x01000000) >>> 24 with
    | 0 => cpu  -- B
    | 1 => cpu.setRegister 14 ((cpu.getRegister PC_REGISTER + 4) % 2 ^ 32)  -- BL LR=PC+4
    | _ => cpu
  pure (cpu.setRegister PC_REGISTER branchAddress)

/-- `ARM7TDMI::ArmOpcodeHandlers::branchAndExchangeHandler`. The `switch` has
no `break`: the label `0x1` (BX) runs into the statement of the label `0x3`
(BLX). -/
def branchAndExchangeHandler (instruction : Nat) (cpu : ARM7TDMI) : Option ARM7TDMI := do
  assert (((instruction &&& 0x0FFFFF00) >>> 8) == 0b00010010111111111111)
  -- for this op rn is where rm usually is
  let rn := getRm instruction
  assert (rn != PC_REGISTER)
  let rnVal := cpu.getRegister rn
  let cpu :=
    match (instruction &&& 0x000000F0) >>> 4 with
    | 1 => cpu.setRegister 14 ((cpu.getRegister PC_REGISTER + 4) % 2 ^ 32)
    | 3 => cpu.setRegister 14 ((cpu.getRegister PC_REGISTER + 4) % 2 ^ 32)
    | _ => cpu
  let t := (rnVal &&& 0x1) != 0
  let cpu := { cpu with cpsr := { cpu.cpsr with T := t } }
  let rnVal := if t then rnVal &&& 0xFFFFFFFE else rnVal &&& 0xFFFFFFFC
  pure (cpu.setRegister PC_REGISTER rnVal)

end ArmOpcodeHandlers

/-! ## Multiply -/

/-- Value of a 32-bit word read as `int32_t` (the union `BitPreservedInt32`). -/
def toSigned32 (x : Nat) : Int :=
  if x % 2 ^ 32 < 2 ^ 31 then (x % 2 ^ 32 : Nat) else ((x % 2 ^ 32 : Nat) : Int) - 2 ^ 32

/-- Value of a 64-bit word read as `int64_t` (the union `BitPreservedInt64`). -/
def toSigned64 (x : Nat) : Int :=
  if x % 2 ^ 64 < 2 ^ 63 then (x % 2 ^ 64 : Nat) else ((x % 2 ^ 64 : Nat) : Int) - 2 ^ 64

/-- The 64-bit word that holds the `int64_t` value `z`; a value outside the
range of `int64_t` is reduced modulo `2 ^ 64`. -/
def ofSigned64 (z : Int) : Nat := (z % 2 ^ 64).toNat

namespace ArmOpcodeHandlers

/-- Locals of `multiplyHandler` after its `switch`. -/
structure MultiplyLocals where
  cpu : ARM7TDMI
  result : Nat
  longResult : Nat

/-- `ARM7TDMI::ArmOpcodeHandlers::multiplyHandler`. The locals `result` and
`longResult` are declared without initial value; `uninit` stands for what they
hold when the `switch` does not assign them. -/
def multiplyHandler (instruction : Nat) (uninit : Nat) (cpu : ARM7TDMI) : Option ARM7TDMI := do
  let opcode := getOpcode instruction
  -- rd is different for multiply
  let rd := (instruction &&& 0x000F0000) >>> 16
  let rm := getRm instruction
  let rs := getRs instruction
  assert (rd != rm && (rd != PC_REGISTER && rm != PC_REGISTER && rs != PC_REGISTER))
  assert ((instruction &&& 0x000000F0) == 0x00000090)
  let start : MultiplyLocals := { cpu := cpu, result := uninit, longResult := uninit }
  let locals : MultiplyLocals ←
    match opcode with
    | 0 => -- MUL
      let result := (cpu.getRegister rm * cpu.getRegister rs) % 2 ^ 64
      pure { start with cpu := cpu.setRegister rd (result % 2 ^ 32), result := result }
    | 1 => do -- MLA
      -- rn is different for multiply
      let rn := (instruction &&& 0x0000F000) >>> 12
      assert (rn != PC_REGISTER)
      let result :=
        (cpu.getRegister rm * cpu.getRegister rs + cpu.getRegister rn) % 2 ^ 64
      pure { start with cpu := cpu.setRegister rd (result % 2 ^ 32), result := result }
    | 4 => -- UMULL{cond}{S} RdLo,RdHi,Rm,Rs ;RdHiLo=Rm*Rs
      let rdhi := rd
      let rdlo := (instruction &&& 0x0000F000) >>> 12
      let longResult := (cpu.getRegister rm * cpu.getRegister rs) % 2 ^ 64
      -- high destination reg
      let cpu := cpu.setRegister rdhi ((longResult >>> 32) % 2 ^ 32)
      let cpu := cpu.setRegister rdlo (longResult % 2 ^ 32)
      pure { start with cpu := cpu, longResult := longResult }
    | 5 => -- UMLAL {cond}{S} RdLo,RdHi,Rm,Rs ;RdHiLo=Rm*Rs+RdHiLo
      let rdhi := rd
      let rdlo := (instruction &&& 0x0000F000) >>> 12
      let longResult :=
        (cpu.getRegister rm * cpu.getRegister rs
          + (((cpu.getRegister rdhi <<< 32) % 2 ^ 64) ||| cpu.getRegister rdlo)) % 2 ^ 64
      -- high destination reg
      let cpu := cpu.setRegister rdhi ((longResult >>> 32) % 2 ^ 32)
      let cpu := cpu.setRegister rdlo (longResult % 2 ^ 32)
      pure { start with cpu := cpu, longResult := longResult }
    | 6 => -- SMULL {cond}{S} RdLo,RdHi,Rm,Rs ;RdHiLo=Rm*Rs
      let rdhi := rd
      let rdlo := (instruction &&& 0x0000F000) >>> 12
      let longResult :=
        ofSigned64 (toSigned32 (cpu.getRegister rm) * toSigned32 (cpu.getRegister rs))
      -- high destination reg
      let cpu := cpu.setRegister rdhi ((longResult >>> 32) % 2 ^ 32)
      let cpu := cpu.setRegister rdlo (longResult % 2 ^ 32)
      pure { start with cpu := cpu, longResult := longResult }
    | 7 => -- SMLAL{cond}{S} RdLo,RdHi,Rm,Rs ;RdHiLo=Rm*Rs+RdHiLo
      let rdhi := rd
      let rdlo := (instruction &&& 0x0000F000) >>> 12
      let accum := ((cpu.getRegister rdhi <<< 32) % 2 ^ 64) ||| cpu.getRegister rdlo
      let longResult :=
        ofSigned64 (toSigned32 (cpu.getRegister rm) * toSigned32 (cpu.getRegister rs)
          + toSigned64 accum)
      -- high destination reg
      let cpu := cpu.setRegister rdhi ((longResult >>> 32) % 2 ^ 32)
      let cpu := cpu.setRegister rdlo (longResult % 2 ^ 32)
      pure { start with cpu := cpu, longResult := longResult }
    | _ => pure start
  let cpu := locals.cpu
  if sFlagSet instruction then
    let cpu :=
      if (opcode &&& 0b0100) == 0 then
        -- regular mult opcode
        { cpu with cpsr := { cpu.cpsr with Z := aluSetsZeroBit (locals.result % 2 ^ 32),
                                            N := aluSetsSignBit (locals.result % 2 ^ 32) } }
      else
        { cpu with cpsr := { cpu.cpsr with Z := locals.longResult == 0,
                                            N := (locals.longResult >>> 63) % 2 == 1 } }
    pure { cpu with cpsr := { cpu.cpsr with C := false } }
  else
    pure cpu

end ArmOpcodeHandlers

/-! ## PSR transfer (MRS, MSR) -/

/-- Modelled from the spec: `psrToInt` (absent header), the packed 32-bit
status word of section 3: N, Z, C, V in bits 31 to 28, I and F in bits 7 and 6,
T in bit 5 and the mode in bits 4 to 0. -/
def psrToInt (psr : ProgramStatusRegister) : Nat :=
  flagBit psr.N * 2 ^ 31 + flagBit psr.Z * 2 ^ 30 + flagBit psr.C * 2 ^ 29
    + flagBit psr.V * 2 ^ 28 + flagBit psr.I * 2 ^ 7 + flagBit psr.F * 2 ^ 6
    + flagBit psr.T * 2 ^ 5 + psr.Mode % 32

namespace ArmOpcodeHandlers

/-- `ARM7TDMI::ArmOpcodeHandlers::psrHandler`. The member `transferToPsr` is
not in the sources at hand; it is the argument `transferToPsr value fscx psr`,
with the pointer `psr` given as a `PsrRef`. -/
def psrHandler (transferToPsr : Nat → Nat → PsrRef → ARM7TDMI → ARM7TDMI)
    (instruction : Nat) (cpu : ARM7TDMI) : Option ARM7TDMI := do
  assert ((instruction &&& 0x0C000000) == 0)
  assert (!sFlagSet instruction)
  -- bit 25: I - Immediate Operand Flag
  let immediate := (instruction &&& 0x02000000) != 0
  -- bit 22: Psr - Source/Destination PSR (0=CPSR, 1=SPSR_<current mode>)
  let psrSource := (instruction &&& 0x00400000) != 0
  -- bit 21: special opcode for PSR
  match (instruction &&& 0x00200000) >>> 21 with
  | 0 => do -- MRS{cond} Rd,Psr ; Rd = Psr
    assert (!immediate)
    assert (getRn instruction == 0xF)
    assert ((instruction &&& 0x00000FFF) == 0)
    let rd := getRd instruction
    if psrSource then
      pure (cpu.setRegister rd (psrToInt cpu.cpsr))
    else
      pure (cpu.setRegister rd (psrToInt cpu.getCurrentModeSpsr))
  | 1 => do -- MSR{cond} Psr{_field},Op  ;Psr[field] = Op
    assert ((instruction &&& 0x0000F000) == 0x0000F000)
    let fscx := (instruction &&& 0x000F0000) >>> 16
    let psr := if psrSource then PsrRef.cpsr else cpu.currentSpsr
    if immediate then
      let immValue := instruction &&& 0x000000FF
      let shift := (instruction &&& 0x00000F00) >>> 7
      pure (transferToPsr (aluShiftRor immValue shift) fscx psr cpu)
    else do
      -- register
      assert ((instruction &&& 0x00000FF0) == 0)
      assert (getRm instruction != PC_REGISTER)
      pure (transferToPsr (cpu.getRegister (getRm instruction)) fscx psr cpu)
  | _ => pure cpu

end ArmOpcodeHandlers

/-! ## Halfword and signed data transfer -/

namespace ArmOpcodeHandlers

/-- The statements under the labels `case 2` and `case 3` of the opcode switch
of `halfWordDataTransHandler`; the two labels carry the same statements. -/
def loadSignedByteCase (l : Bool) (rd address : Nat) (cpu : ARM7TDMI) : Option ARM7TDMI := do
  assert l
  let val := cpu.bus.read8 address
  if (val &&& 0x00000080) != 0 then
    pure (cpu.setRegister rd (0xFFFFFF00 ||| val))
  else
    pure (cpu.setRegister rd val)

/-- `ARM7TDMI::ArmOpcodeHandlers::halfWordDataTransHandler`. The opcode
`switch` has no `break`: control entering at the label 1 runs on through the
statements of the labels 2 and 3, and control entering at 2 through those of
3. The label 0 is `assert(false)`. The function ends without a `return`; its
result is not part of the state. -/
def halfWordDataTransHandler (instruction : Nat) (cpu : ARM7TDMI) : Option ARM7TDMI := do
  assert ((instruction &&& 0x0E000000) == 0)
  let rd := getRd instruction
  let rdVal := if rd == 15 then (cpu.getRegister rd + 12) % 2 ^ 32 else cpu.getRegister rd
  let rn := getRn instruction
  let rnVal := if rn == 15 then (cpu.getRegister rn + 8) % 2 ^ 32 else cpu.getRegister rn
  let l := dataTransGetL instruction
  let offset ←
    if (instruction &&& 0x00400000) != 0 then
      -- immediate as offset
      pure (((instruction &&& 0x00000F00) >>> 4) ||| getRm instruction)
    else do
      -- register as offset
      assert ((instruction &&& 0x00000F00) == 0)
      assert (getRm instruction != 15)
      pure (cpu.getRegister (getRm instruction))
  assert ((instruction &&& 0x00000080) != 0)
  assert ((instruction &&& 0x00000010) != 0)
  let address := rnVal
  let p := dataTransGetP instruction
  let u := dataTransGetU instruction
  -- pre-indexing offset
  let address := if p then (if u then (address + offset) % 2 ^ 32 else sub32 address offset)
                 else address
  let cpu := if p && dataTransGetW instruction then cpu.setRegister rn address else cpu
  -- post-indexing offset
  if !p then assert (dataTransGetW instruction == false)
  let opcode := (instruction &&& 0x00000060) >>> 5
  let cpu ←
    match opcode with
    | 0 => none -- Reserved for SWP instruction: assert(false)
    | 1 => do -- STRH or LDRH (depending on l)
      let cpu :=
        if l then
          cpu.setRegister rd
            (aluShiftRor (cpu.bus.read16 (address &&& 0xFFFFFFFE)) ((address &&& 1) * 8))
        else
          { cpu with bus := cpu.bus.write16 (address &&& 0xFFFFFFFE) (rdVal % 65536) }
      let cpu ← loadSignedByteCase l rd address cpu
      loadSignedByteCase l rd address cpu
    | 2 => do -- LDRSB
      let cpu ← loadSignedByteCase l rd address cpu
      loadSignedByteCase l rd address cpu
    | 3 => -- LDRSH
      loadSignedByteCase l rd address cpu
    | _ => pure cpu
  -- add offset after transfer and always write back
  let cpu := if !p then
      cpu.setRegister rn (if u then (address + offset) % 2 ^ 32 else sub32 address offset)
    else cpu
  pure cpu

/-- `ARM7TDMI::ArmOpcodeHandlers::singleDataSwapHandler`. The function ends
without a `return`; its result is not part of the state. -/
def singleDataSwapHandler (instruction : Nat) (cpu : ARM7TDMI) : Option ARM7TDMI := do
  assert ((instruction &&& 0x0F800000) == 0x01000000)
  assert ((instruction &&& 0x00300000) == 0)
  assert ((instruction &&& 0x00000FF0) == 0x00000090)
  let b := dataTransGetB instruction
  let rn := getRn instruction
  let rd := getRd instruction
  let rm := getRm instruction
  assert ((rn != 15) && (rd != 15) && (rm != 15))
  -- SWP{cond}{B} Rd,Rm,[Rn]     ;Rd=[Rn], [Rn]=Rm
  if b then
    -- SWPB swap byte
    let rnVal := cpu.getRegister rn
    let data := cpu.bus.read8 rnVal
    let cpu := cpu.setRegister rd data
    let rmVal := cpu.getRegister rm % 256
    pure { cpu with bus := cpu.bus.write8 rnVal rmVal }
  else
    -- swap word
    let rnVal := cpu.getRegister rn
    let data := cpu.bus.read32 (aluShiftRor (rnVal &&& 0xFFFFFFFC) ((rnVal &&& 3) * 8))
    let cpu := cpu.setRegister rd data
    let rmVal := cpu.getRegister rm
    pure { cpu with bus := cpu.bus.write32 (rnVal &&& 0xFFFFFFFC) rmVal }

end ArmOpcodeHandlers

/-! ## Execution loop -/

/-- `ARM7TDMI::conditionalHolds`, with the condition codes numbered as in the
architecture (0 = EQ, ..., 14 = AL, 15 = NV; the enumeration `Condition` is in
the absent header). The `default` label is `assert(false)`. -/
def conditionalHolds (cpu : ARM7TDMI) (cond : Nat) : Option Bool :=
  match cond with
  | 0 => some cpu.cpsr.Z                                   -- EQ
  | 1 => some (!cpu.cpsr.Z)                                -- NE
  | 2 => some cpu.cpsr.C                                   -- CS
  | 3 => some (!cpu.cpsr.C)                                -- CC
  | 4 => some cpu.cpsr.N                                   -- MI
  | 5 => some (!cpu.cpsr.N)                                -- PL
  | 6 => some cpu.cpsr.V                                   -- VS
  | 7 => some (!cpu.cpsr.V)                                -- VC
  | 8 => some (cpu.cpsr.C && !cpu.cpsr.Z)                  -- HI
  | 9 => some (!cpu.cpsr.C || cpu.cpsr.Z)                  -- LS
  | 10 => some (cpu.cpsr.N == cpu.cpsr.V)                  -- GE
  | 11 => some (cpu.cpsr.N != cpu.cpsr.V)                  -- LT
  | 12 => some (!cpu.cpsr.Z && (cpu.cpsr.N == cpu.cpsr.V)) -- GT
  | 13 => some (cpu.cpsr.Z || (cpu.cpsr.N != cpu.cpsr.V))  -- LE
  | 14 => some true                                        -- AL
  | 15 => some false                                       -- NV
  | _ => none

/-- What `step()` and `irq()` use and the sources at hand do not define: the
indices `IME`, `IE`, `IF` of `Bus::IORegister`, the member `switchToMode`, and
the two decoders with their handlers (the THUMB handlers and `swiHandler` are
absent), given as the state transformation of one dispatched instruction. -/
structure Environment where
  IME : Nat
  IE : Nat
  IF : Nat
  switchToMode : Nat → ARM7TDMI → ARM7TDMI
  executeArmInstruction : Nat → ARM7TDMI → Option ARM7TDMI
  executeThumbInstruction : Nat → ARM7TDMI → Option ARM7TDMI

/-- `ARM7TDMI::getNextInstruction`. The access type passed in is not used by
the source. -/
def getNextInstruction (cpu : ARM7TDMI) : ARM7TDMI :=
  let currInstrAddress := cpu.getRegister PC_REGISTER
  if cpu.cpsr.T then
    { cpu with currInstrAddress := currInstrAddress,
               currInstruction := cpu.bus.read16 currInstrAddress }
  else
    { cpu with currInstrAddress := currInstrAddress,
               currInstruction := cpu.bus.read32 currInstrAddress }

/-- `ARM7TDMI::irq`. -/
def irq (env : Environment) (cpu : ARM7TDMI) : ARM7TDMI :=
  let returnAddr := (cpu.getRegister PC_REGISTER + 4) % 2 ^ 32
  let cpu := env.switchToMode IRQ cpu
  -- switch to ARM mode
  let cpu := { cpu with cpsr := { cpu.cpsr with T := false } }
  let cpu := { cpu with cpsr := { cpu.cpsr with I := true } }
  let cpu := cpu.setRegister PC_REGISTER 0x18
  let cpu := cpu.setRegister LINK_REGISTER returnAddr
  getNextInstruction cpu

/-- The test at the top of `step()` that decides whether `irq()` is entered. -/
def interruptTaken (env : Environment) (cpu : ARM7TDMI) : Bool :=
  ((cpu.bus.iORegisters env.IME &&& 0x1) != 0) &&
  (!cpu.cpsr.I) &&
  (((cpu.bus.iORegisters env.IE &&& cpu.bus.iORegisters env.IF) != 0) ||
   (((cpu.bus.iORegisters (env.IE + 1) &&& 0x3F) &&&
     (cpu.bus.iORegisters (env.IF + 1) &&& 0x3F)) != 0))

/-- `ARM7TDMI::step` without `COMPILE_TIME_LUT`. The cycle count it returns and
the access type `currentPcAccessType`, which no code at hand reads, are left
out of the state. -/
def step (env : Environment) (cpu : ARM7TDMI) : Option ARM7TDMI := do
  let cpu := if interruptTaken env cpu then irq env cpu else cpu
  let cpu ←
    if !cpu.cpsr.T then do
      -- check state bit, is CPU in ARM state?
      let cond := (cpu.currInstruction &&& 0xF0000000) >>> 28
      -- increment PC
      let cpu := cpu.setRegister PC_REGISTER ((cpu.getRegister PC_REGISTER + 4) % 2 ^ 32)
      if (← cpu.conditionalHolds cond) then
        env.executeArmInstruction cpu.currInstruction cpu
      else
        pure cpu
    else
      -- THUMB state
      let cpu := cpu.setRegister PC_REGISTER ((cpu.getRegister PC_REGISTER + 2) % 2 ^ 32)
      env.executeThumbInstruction cpu.currInstruction cpu
  pure (getNextInstruction cpu)

/-! ## ARM decoder -/

/-- The handlers `executeArmInstruction` returns through, as functions of the
instruction word into the result type `α`. -/
structure ArmHandlers (α : Type) where
  branchAndExchangeHandler : Nat → α
  singleDataSwapHandler : Nat → α
  psrHandler : Nat → α
  multiplyHandler : Nat → α
  halfWordDataTransHandler : Nat → α
  dataProcHandler : Nat → α
  blockDataTransHandler : Nat → α
  branchHandler : Nat → α
  swiHandler : Nat → α
  singleDataTransHandler : Nat → α
  undefinedOpHandler : Nat → α

/-- `ARM7TDMI::executeArmInstruction`: the cascade that selects the handler of
an instruction word and returns what that handler returns. -/
def executeArmInstruction {α : Type} (h : ArmHandlers α) (instruction : Nat) : α :=
  match (instruction &&& 0b00001110000000000000000000000000) >>> 25 with -- mask 1
  | 0b0 =>
    if (instruction &&& 0b00001111111111111111111111010000)
        == 0b00000001001011111111111100010000 then -- BX,BLX
      h.branchAndExchangeHandler instruction
    else if (instruction &&& 0b00001111101100000000111111110000)
        == 0b00000001000000000000000010010000 then -- TransSwp12
      h.singleDataSwapHandler instruction
    else if (instruction &&& 0b00001111100100000000111111110000)
        == 0b00000001000000000000000000000000 then -- PSR Reg
      h.psrHandler instruction
    else if (instruction &&& 0b00001111110000000000000011110000)
        == 0b00000000000000000000000010010000 then -- Multiply
      h.multiplyHandler instruction
    else if (instruction &&& 0b00001110010000000000111110010000)
        == 0b00000000000000000000000010010000 then -- TransReg10
      h.halfWordDataTransHandler instruction
    else if (instruction &&& 0b00001111100000000000000011110000)
        == 0b00000000100000000000000010010000 then -- MulLong
      h.multiplyHandler instruction
    else if (instruction &&& 0b00001110010000000000000010010000)
        == 0b00000000010000000000000010010000 then -- TransImm10
      h.halfWordDataTransHandler instruction
    else -- dataProc
      h.dataProcHandler instruction
  | 0b0000001 =>
    if (instruction &&& 0b00001111101100000000000000000000)
        == 0b00000011001000000000000000000000 then -- PSR Imm
      h.psrHandler instruction
    else -- DataProc
      h.dataProcHandler instruction
  | 0b0000100 => -- block transfer
    h.blockDataTransHandler instruction
  | 0b0000101 => -- B,BL,BLX
    h.branchHandler instruction
  | 0b0000111 => -- SWI
    h.swiHandler instruction
  | 0b0000010 => -- transImm9
    h.singleDataTransHandler instruction
  | 0b0000011 =>
    if (instruction &&& 0b00001110000000000000000000010000)
        == 0b00000110000000000000000000000000 then -- TransReg9
      h.singleDataTransHandler instruction
    else -- Undefined
      h.undefinedOpHandler instruction
  | _ => h.undefinedOpHandler instruction

/-- The index into `armLut` that `step()` computes under `COMPILE_TIME_LUT`:
bits 27:20 and bits 7:4 of the instruction. -/
def armLutIndex (instruction : Nat) : Nat :=
  ((instruction &&& 0x0FF00000) >>> 16) ||| ((instruction &&& 0x0F0) >>> 4)

/-! ## THUMB decoder -/

/-- The handlers `executeThumbInstruction` returns through, as functions of
the instruction word into the result type `α`. -/
structure ThumbHandlers (α : Type) where
  addSubHandler : Nat → α
  shiftHandler : Nat → α
  immHandler : Nat → α
  aluHandler : Nat → α
  bxHandler : Nat → α
  loadPcRelativeHandler : Nat → α
  loadStoreSignExtendedByteHalfwordHandler : Nat → α
  loadStoreRegOffsetHandler : Nat → α
  loadStoreImmediateOffsetHandler : Nat → α
  loadStoreSpRelativeHandler : Nat → α
  loadStoreHalfwordHandler : Nat → α
  multipleLoadStorePushPopHandler : Nat → α
  addOffsetToSpHandler : Nat → α
  getRelativeAddressHandler : Nat → α
  softwareInterruptHandler : Nat → α
  conditionalBranchHandler : Nat → α
  multipleLoadStoreHandler : Nat → α
  longBranchHandler : Nat → α
  unconditionalBranchHandler : Nat → α
  undefinedOpHandler : Nat → α

/-- `ARM7TDMI::executeThumbInstruction`: the nested switches that select the
handler of a 16-bit instruction word. A `break` leads to the final
`return undefinedOpHandler(instruction)`. -/
def executeThumbInstruction {α : Type} (h : ThumbHandlers α) (instruction : Nat) : α :=
  match (instruction &&& 0b1110000000000000) >>> 13 with -- mask 1
  | 0b0 => -- case 000
    if (instruction &&& 0b0001100000000000) == 0b0001100000000000 then
      -- 2: 00011xxxxxxxxxxx ADD/SUB
      h.addSubHandler instruction
    else
      -- 1: 000xxxxxxxxxxxxx Shifted
      h.shiftHandler instruction
  | 0b001 => -- case 001
    -- 3: 001xxxxxxxxxxxxx Immedi.
    h.immHandler instruction
  | 0b010 => -- case 010
    match instruction &&& 0b0001000000000000 with
    | 0b0000000000000000 =>
      match instruction &&& 0b0001110000000000 with
      | 0b0000000000000000 =>
        -- 4: 010000xxxxxxxxxx AluOp
        h.aluHandler instruction
      | 0b0000010000000000 =>
        -- 5: 010001xxxxxxxxxx HiReg/BX
        h.bxHandler instruction
      | _ =>
        -- 6: 01001xxxxxxxxxxx LDR PC
        h.loadPcRelativeHandler instruction
    | 0b0001000000000000 =>
      if (instruction &&& 0b0000001000000000) != 0 then
        -- 8: 0101xx1xxxxxxxxx ""H/SB/SH
        h.loadStoreSignExtendedByteHalfwordHandler instruction
      else
        -- 7: 0101xx0xxxxxxxxx LDR/STR
        h.loadStoreRegOffsetHandler instruction
    | _ => h.undefinedOpHandler instruction
  | 0b011 => -- case 011
    -- 9: 011xxxxxxxxxxxxx ""{B}
    h.loadStoreImmediateOffsetHandler instruction
  | 0b100 => -- case 100
    if (instruction &&& 0b0001000000000000) != 0 then
      -- 11: 1001xxxxxxxxxxxx "" SP
      h.loadStoreSpRelativeHandler instruction
    else
      -- 10: 1000xxxxxxxxxxxx "H
      h.loadStoreHalfwordHandler instruction
  | 0b101 => -- case 101
    if (instruction &&& 0b0001000000000000) != 0 then
      if (instruction &&& 0b0000010000000000) != 0 then
        -- 14: 1011x10xxxxxxxxx PUSH/POP
        h.multipleLoadStorePushPopHandler instruction
      else
        -- 13: 10110000xxxxxxxx ADD SP,nn
        h.addOffsetToSpHandler instruction
    else
      -- 12: 1010xxxxxxxxxxxx ADD PC/SP
      h.getRelativeAddressHandler instruction
  | 0b110 => -- case 110
    if (instruction &&& 0b0001000000000000) != 0 then
      if (instruction &&& 0b0001111100000000) == 0b0001111100000000 then
        -- 17: 11011111xxxxxxxx SWI
        h.softwareInterruptHandler instruction
      else
        -- 16: 1101xxxxxxxxxxxx B{cond}
        h.conditionalBranchHandler instruction
    else
      -- 15: 1100xxxxxxxxxxxx STM/LDM
      h.multipleLoadStoreHandler instruction
  | 0b111 => -- case 111
    if (instruction &&& 0b0001000000000000) != 0 then
      -- 19: 1111xxxxxxxxxxxx BL,BLX
      h.longBranchHandler instruction
    else
      -- 18: 11100xxxxxxxxxxx B
      h.unconditionalBranchHandler instruction
  | _ =>
    -- undefined opcode
    h.undefinedOpHandler instruction

/-! ## Mode switch -/

/-- Modelled from the spec: the mode FIQ of the enumeration `Mode`. -/
def FIQ : Nat := 0x11

/-- Modelled from the spec: the mode SUPERVISOR of the enumeration `Mode`. -/
def SUPERVISOR : Nat := 0x13

/-- Modelled from the spec: the mode ABORT of the enumeration `Mode`. -/
def ABORT : Nat := 0x17

/-- Modelled from the spec: the mode UNDEFINED of the enumeration `Mode`. -/
def UNDEFINED : Nat := 0x1B

/-- Modelled from the spec: the mode SYSTEM of the enumeration `Mode`. -/
def SYSTEM : Nat := 0x1F

/-- Modelled from the spec: the physical cell that the register index `index`
designates in the mode `mode`, after the table of section 3. The cells 0 to 15
are the shared general set, 16 to 22 are `r8_fiq` to `r14_fiq`, 23 and 24 are
`r13_svc` and `r14_svc`, 25 and 26 `r13_abt` and `r14_abt`, 27 and 28
`r13_irq` and `r14_irq`, 29 and 30 `r13_und` and `r14_und`. -/
def bankedCell (mode index : Nat) : Nat :=
  if mode = FIQ ∧ 8 ≤ index ∧ index ≤ 14 then 16 + (index - 8)
  else if mode = SUPERVISOR ∧ 13 ≤ index ∧ index ≤ 14 then 23 + (index - 13)
  else if mode = ABORT ∧ 13 ≤ index ∧ index ≤ 14 then 25 + (index - 13)
  else if mode = IRQ ∧ 13 ≤ index ∧ index ≤ 14 then 27 + (index - 13)
  else if mode = UNDEFINED ∧ 13 ≤ index ∧ index ≤ 14 then 29 + (index - 13)
  else index

/-- Modelled from the spec: the saved status register of the mode `mode`;
USER and SYSTEM have none and resolve to the CPSR. The saved registers are
numbered 0 `spsr_fiq`, 1 `spsr_svc`, 2 `spsr_abt`, 3 `spsr_irq`, 4 `spsr_und`. -/
def bankedSpsr (mode : Nat) : PsrRef :=
  if mode = FIQ then PsrRef.spsr 0
  else if mode = SUPERVISOR then PsrRef.spsr 1
  else if mode = ABORT then PsrRef.spsr 2
  else if mode = IRQ then PsrRef.spsr 3
  else if mode = UNDEFINED then PsrRef.spsr 4
  else PsrRef.cpsr

/-- Modelled from the spec: `switchToMode(m)` (absent from the sources at
hand) sets the mode bits and rewrites the sixteen slots, and the pointer to
the current saved status register, to the physical storage of the mode `m`
(sections 3 and 9). The spec does not say whether the function also stores a
status register; the properties proved with this definition are about the
mode bits, the slots and the registers only. -/
def switchToMode (mode : Nat) (cpu : ARM7TDMI) : ARM7TDMI :=
  { cpu with cpsr := { cpu.cpsr with Mode := mode }
             registers := bankedCell mode
             currentSpsr := bankedSpsr mode }

/-! ## Scenario states -/

/-- A register file whose sixteen indices designate the cells 0 to 15, with
the given contents, over the given memory bytes; flags clear, ARM state. -/
def mkCpu (regs : Nat → Nat) (mem : Nat → Nat) : ARM7TDMI :=
  { cells := regs
    registers := fun i => i
    userRegisters := fun i => i
    cpsr := { Mode := 0x1F, T := false, F := false, I := false,
              V := false, C := false, Z := false, N := false }
    spsrCells := fun _ => { Mode := 0x1F, T := false, F := false, I := false,
                            V := false, C := false, Z := false, N := false }
    currentSpsr := PsrRef.cpsr
    currInstruction := 0
    currInstrAddress := 0
    bus := { mem := mem, iORegisters := fun _ => 0 } }

/-- Scenario S3: `r1 = 0x03000002`, the word `0xDEADBEEF` at `0x03000000`,
and the word `0x11223344` at `0xBEEFDEAC`. -/
def ldrScenario : ARM7TDMI :=
  mkCpu (fun c => if c = 1 then 0x03000002 else 0)
    (fun a =>
      if a = 0x03000000 then 0xEF else if a = 0x03000001 then 0xBE
      else if a = 0x03000002 then 0xAD else if a = 0x03000003 then 0xDE
      else if a = 0xBEEFDEAC then 0x44 else if a = 0xBEEFDEAD then 0x33
      else if a = 0xBEEFDEAE then 0x22 else if a = 0xBEEFDEAF then 0x11
      else 0)

/-- Scenario S2: `r2 = 0x80000001`, all flags clear. -/
def movsScenario : ARM7TDMI :=
  mkCpu (fun c => if c = 2 then 0x80000001 else 0) (fun _ => 0)

/-- ADCS scenario: `r1 = 0xFFFFFFFF`, `r2 = 1`, carry clear. -/
def adcScenario : ARM7TDMI :=
  mkCpu (fun c => if c = 1 then 0xFFFFFFFF else if c = 2 then 1 else 0) (fun _ => 0)

/-- SBCS scenario: `r1 = 5`, `r2 = 3`, carry set. -/
def sbcScenario : ARM7TDMI :=
  let cpu := mkCpu (fun c => if c = 1 then 5 else if c = 2 then 3 else 0) (fun _ => 0)
  { cpu with cpsr := { cpu.cpsr with C := true } }

/-- LSL scenario: `r2 = 0x80000001`, `r3 = 1`. -/
def lslScenario : ARM7TDMI :=
  mkCpu (fun c => if c = 2 then 0x80000001 else if c = 3 then 1 else 0) (fun _ => 0)

/-- Scenario S5: `sp = 0x03007F00`, `r0 = 1`, `r1 = 2`, `lr = 3`, memory zero. -/
def stmdbScenario : ARM7TDMI :=
  mkCpu (fun c => if c = 13 then 0x03007F00 else if c = 0 then 1 else if c = 1 then 2
                  else if c = 14 then 3 else 0) (fun _ => 0)

/-- LDMIA scenario: `r0 = 0x03000000`, the words `0x11` at `0x03000000` and
`0x22` at `0x03000004`. -/
def ldmiaScenario : ARM7TDMI :=
  mkCpu (fun c => if c = 0 then 0x03000000 else 0)
    (fun a => if a = 0x03000000 then 0x11 else if a = 0x03000004 then 0x22 else 0)

/-- STMIA scenario: `r0 = 0x03000000`, `r1 = 7`, memory zero. -/
def stmiaScenario : ARM7TDMI :=
  mkCpu (fun c => if c = 0 then 0x03000000 else if c = 1 then 7 else 0) (fun _ => 0)

/-- Branch scenario: `r15 = 0x08000004` at handler entry. -/
def branchScenario : ARM7TDMI :=
  mkCpu (fun c => if c = 15 then 0x08000004 else 0) (fun _ => 0)

/-- BX scenario S4: `r0 = 0x08000001`, `r14 = 0x08000100`, `r15 = 0x08000204`. -/
def bxScenario : ARM7TDMI :=
  mkCpu (fun c => if c = 0 then 0x08000001 else if c = 14 then 0x08000100
                  else if c = 15 then 0x08000204 else 0) (fun _ => 0)

/-- The branch target as the specification words it: `r15 + 8` plus the 24-bit
offset field sign-extended to 32 bits and shifted left by 2, modulo `2 ^ 32`. -/
def branchTargetSpec (r15 instruction : Nat) : Nat :=
  let field := instruction &&& 0x00FFFFFF
  let extended := if field &&& 0x00800000 != 0 then field + 0xFF000000 else field
  (r15 + 8 + (extended <<< 2) % 2 ^ 32) % 2 ^ 32

/-- An environment of `step()` whose decoders execute nothing. -/
def idleEnvironment : Environment :=
  { IME := 0x208, IE := 0x200, IF := 0x202
    switchToMode := fun _ cpu => cpu
    executeArmInstruction := fun _ cpu => some cpu
    executeThumbInstruction := fun _ cpu => some cpu }

/-- Skipped-instruction scenario: `r15 = 0x08000004`, Z clear, the prefetched
word is `MOVEQ r0, #1` (`0x03A00001`), and the word `0xE1A00000` at
`0x08000008`. -/
def skipScenario : ARM7TDMI :=
  let cpu := mkCpu (fun c => if c = 15 then 0x08000004 else c)
    (fun a => if a = 0x0800000A then 0xA0 else if a = 0x0800000B then 0xE1 else 0)
  { cpu with currInstruction := 0x03A00001 }

/-- Shift-by-32 scenario: `r2 = 0x80000000`, `r3 = 32`, carry clear. -/
def shiftBy32Scenario : ARM7TDMI :=
  mkCpu (fun c => if c = 2 then 0x80000000 else if c = 3 then 32 else 0) (fun _ => 0)

/-- ADD-from-PC scenario: `r15 = 0x08000008` at handler entry. -/
def addPcScenario : ARM7TDMI :=
  mkCpu (fun c => if c = 15 then 0x08000008 else 0) (fun _ => 0)

/-- MRS scenario: IRQ mode with Z set in the CPSR (packed `0x40000012`), the
current-mode SPSR holding N set in user mode (packed `0x80000010`). -/
def mrsScenario : ARM7TDMI :=
  let cpu := mkCpu (fun _ => 0) (fun _ => 0)
  { cpu with
    cpsr := { Mode := 0x12, T := false, F := false, I := false,
              V := false, C := false, Z := true, N := false }
    spsrCells := fun _ => { Mode := 0x10, T := false, F := false, I := false,
                            V := false, C := false, Z := false, N := true }
    currentSpsr := PsrRef.spsr 0 }

/-! ## Notions used to state the properties -/

section Notions
open ArmOpcodeHandlers

/-- The register operand of the shifter: `Rm`, read with the bias of 8 when it
is r15 and the amount comes from a register. -/
def shifterRmByRegister (cpu : ARM7TDMI) (instruction : Nat) : Nat :=
  if (instruction &&& 0x0000000F) != PC_REGISTER then cpu.getRegister (instruction &&& 0x0000000F)
  else (cpu.getRegister (instruction &&& 0x0000000F) + 8) % 2 ^ 32

/-- Number of set bits of `R` among the `len` bits from bit `lo` upwards. -/
def countBits (R lo : Nat) : Nat → Nat
  | 0 => 0
  | len + 1 => countBits R lo len + flagBit (R.testBit (lo + len))

/-- The word `blockTransferRegister` stores for register `reg`. -/
def storedWord (cpu : ARM7TDMI) (reg : Nat) : Nat :=
  (if reg == 15 then (cpu.getRegister reg + 12) % 2 ^ 32 else cpu.getRegister reg) % 2 ^ 32

/-- Start of the transferred block for the four addressing modes, for base
`base` and `n` listed registers: `base` (IA), `base + 4` (IB),
`base - 4 (n - 1)` (DA), `base - 4 n` (DB), in 32-bit arithmetic. -/
def blockStart (p u : Bool) (base n : Nat) : Nat :=
  if u then (if p then (base + 4) % 2 ^ 32 else base % 2 ^ 32)
  else (if p then sub32 base (4 * n) else sub32 base (4 * (n - 1)))

/-- Address of the word of the listed register `reg`: the block start plus
four times the number of listed registers below `reg`. -/
def blockAddress (instruction : Nat) (cpu : ARM7TDMI) (reg : Nat) : Nat :=
  (blockStart (dataTransGetP instruction) (dataTransGetU instruction)
      (cpu.getRegister (getRn instruction)) (countBits (instruction % 2 ^ 16) 0 16)
    + 4 * countBits (instruction % 2 ^ 16) 0 reg) % 2 ^ 32

/-- Locals of `blockDataTransHandler` when its two loops are done (line 680). -/
def blockAfterLoops (instruction : Nat) (cpu : ARM7TDMI) : BlockLocals :=
  blockTransferLoops (dataTransGetP instruction) (dataTransGetU instruction)
    (dataTransGetL instruction) (dataTransGetB instruction) (getRn instruction)
    (instruction % 2 ^ 16)
    { rnVal := cpu.getRegister (getRn instruction), addressRnStoredAt := 0, cpu := cpu }

/-- The sixteen register indices designate sixteen different cells. -/
def RegistersDistinct (cpu : ARM7TDMI) : Prop :=
  ∀ i j, i < 16 → j < 16 → cpu.registers i = cpu.registers j → i = j

/-- LSL scenario with high bits in `Rs`: `r2 = 0x80000001`, `r3 = 0x101`. -/
def lslHighScenario : ARM7TDMI :=
  mkCpu (fun c => if c = 2 then 0x80000001 else if c = 3 then 0x101 else 0) (fun _ => 0)

/-- LSL scenario with a zero low byte in `Rs`: `r2 = 0x80000001`, `r3 = 0x100`. -/
def lslZeroScenario : ARM7TDMI :=
  mkCpu (fun c => if c = 2 then 0x80000001 else if c = 3 then 0x100 else 0) (fun _ => 0)

/-- The register operand of the shifter when the amount is an immediate: `Rm`,
read with the bias of 4 when it is r15. -/
def shifterRmByImmediate (cpu : ARM7TDMI) (instruction : Nat) : Nat :=
  if (instruction &&& 0x0000000F) != PC_REGISTER then cpu.getRegister (instruction &&& 0x0000000F)
  else (cpu.getRegister (instruction &&& 0x0000000F) + 4) % 2 ^ 32

/-- The result of the shifter for a register-specified amount, as a function
of the instruction, the `Rm` operand `x`, the low byte `n` of `Rs` and the
carry flag `c`. -/
def registerShiftedOperand (instruction x n : Nat) (c : Bool) : AluShiftResult :=
  if n = 0 then { op2 := x, carry := flagBit c }
  else if (instruction &&& 0x00000060) >>> 5 = 0 then
    { op2 := aluShiftLsl x n, carry := if n > 32 then 0 else (x >>> (32 - n)) &&& 1 }
  else if (instruction &&& 0x00000060) >>> 5 = 1 then
    { op2 := aluShiftLsr x n, carry := if n > 32 then 0 else (x >>> (n - 1)) &&& 1 }
  else if (instruction &&& 0x00000060) >>> 5 = 2 then
    { op2 := aluShiftAsr x n,
      carry := boolOfInt (if n ≥ 32 then x &&& 0x80000000 else (x >>> (n - 1)) &&& 1) }
  else
    { op2 := aluShiftRor x (n % 32), carry := (shiftRight32 x (sub32 (n % 32) 1)) &&& 1 }

/-- Every physical register cell holds a 32-bit value. -/
def Cells32 (cpu : ARM7TDMI) : Prop := ∀ c, cpu.cells c < 2 ^ 32

/-- The 64-bit value the long multiplies are specified to leave in
`RdHi:RdLo`: the unsigned product (UMULL), the two's-complement encoding of
the signed product (SMULL), and these products plus the previous `RdHi:RdLo`
modulo `2 ^ 64` (UMLAL, SMLAL). -/
def longMultiplySpec (instruction : Nat) (cpu : ARM7TDMI) : Nat :=
  let rmVal := cpu.getRegister (getRm instruction)
  let rsVal := cpu.getRegister (getRs instruction)
  let previous := cpu.getRegister ((instruction &&& 0x000F0000) >>> 16) * 2 ^ 32
    + cpu.getRegister ((instruction &&& 0x0000F000) >>> 12)
  match getOpcode instruction with
  | 4 => rmVal * rsVal
  | 5 => (rmVal * rsVal + previous) % 2 ^ 64
  | 6 => ((toSigned32 rmVal * toSigned32 rsVal) % 2 ^ 64).toNat
  | 7 => ((toSigned32 rmVal * toSigned32 rsVal + (previous : Int)) % 2 ^ 64).toNat
  | _ => 0

/-- The 64-bit value `longResult` that `multiplyHandler` computes for the long
multiplies, as the source forms it. -/
def longResultOf (instruction : Nat) (cpu : ARM7TDMI) : Nat :=
  let rmVal := cpu.getRegister (getRm instruction)
  let rsVal := cpu.getRegister (getRs instruction)
  let accum := ((cpu.getRegister ((instruction &&& 0x000F0000) >>> 16) <<< 32) % 2 ^ 64)
    ||| cpu.getRegister ((instruction &&& 0x0000F000) >>> 12)
  match getOpcode instruction with
  | 4 => (rmVal * rsVal) % 2 ^ 64
  | 5 => (rmVal * rsVal + accum) % 2 ^ 64
  | 6 => ofSigned64 (toSigned32 rmVal * toSigned32 rsVal)
  | 7 => ofSigned64 (toSigned32 rmVal * toSigned32 rsVal + toSigned64 accum)
  | _ => 0

/-- The state a long multiply with 64-bit value `L` leaves: high and low word
written, then the flags when S is set. -/
def afterLongMultiply (instruction : Nat) (cpu : ARM7TDMI) (L : Nat) : ARM7TDMI :=
  let cpu := cpu.setRegister ((instruction &&& 0x000F0000) >>> 16) ((L >>> 32) % 2 ^ 32)
  let cpu := cpu.setRegister ((instruction &&& 0x0000F000) >>> 12) (L % 2 ^ 32)
  if sFlagSet instruction then
    { cpu with cpsr := { cpu.cpsr with Z := L == 0, N := (L >>> 63) % 2 == 1, C := false } }
  else cpu

/-- UMULL scenario S6: `r2 = r3 = 0xFFFFFFFF`, the other registers 0. -/
def umullScenario : ARM7TDMI :=
  mkCpu (fun c => if c = 2 then 0xFFFFFFFF else if c = 3 then 0xFFFFFFFF else 0) (fun _ => 0)

/-- The 32-bit value MUL and MLA are specified to leave in `Rd`. -/
def multiplySpec (instruction : Nat) (cpu : ARM7TDMI) : Nat :=
  let rmVal := cpu.getRegister (getRm instruction)
  let rsVal := cpu.getRegister (getRs instruction)
  match getOpcode instruction with
  | 0 => (rmVal * rsVal) % 2 ^ 32
  | 1 => (rmVal * rsVal + cpu.getRegister ((instruction &&& 0x0000F000) >>> 12)) % 2 ^ 32
  | _ => 0

/-- The state MUL or MLA with 32-bit value `R` leaves: `Rd` written, then the
flags when S is set. -/
def afterShortMultiply (instruction : Nat) (cpu : ARM7TDMI) (R : Nat) : ARM7TDMI :=
  let cpu := cpu.setRegister ((instruction &&& 0x000F0000) >>> 16) R
  if sFlagSet instruction then
    { cpu with cpsr := { cpu.cpsr with Z := aluSetsZeroBit R, N := aluSetsSignBit R,
                                        C := false } }
  else cpu

/-- UMULLS scenario: as `umullScenario`, with C and V set beforehand. -/
def umullFlagsScenario : ARM7TDMI :=
  { umullScenario with cpsr := { umullScenario.cpsr with C := true, V := true } }

/-- SWP scenario: `r1 = 0x03000001`, `r2 = 0x55667788`, the word `0x11223344`
at `0x03000000` and the word `0xAABBCCDD` at `0x00030000`. -/
def swpScenario : ARM7TDMI :=
  mkCpu (fun c => if c = 1 then 0x03000001 else if c = 2 then 0x55667788 else 0)
    (fun a =>
      if a = 0x03000000 then 0x44 else if a = 0x03000001 then 0x33
      else if a = 0x03000002 then 0x22 else if a = 0x03000003 then 0x11
      else if a = 0x00030000 then 0xDD else if a = 0x00030001 then 0xCC
      else if a = 0x00030002 then 0xBB else if a = 0x00030003 then 0xAA
      else 0)

/-- LDRH scenario: `r1 = 0x03000000`, the halfword `0x1234` at `0x03000000`. -/
def ldrhScenario : ARM7TDMI :=
  mkCpu (fun c => if c = 1 then 0x03000000 else 0)
    (fun a => if a = 0x03000000 then 0x34 else if a = 0x03000001 then 0x12 else 0)

/-- LDRSH scenario: `r1 = 0x03000000`, the halfword `0x8001` at `0x03000000`. -/
def ldrshScenario : ARM7TDMI :=
  mkCpu (fun c => if c = 1 then 0x03000000 else 0)
    (fun a => if a = 0x03000000 then 0x01 else if a = 0x03000001 then 0x80 else 0)

/-- A byte sign-extended to 32 bits. -/
def signExtendByte (val : Nat) : Nat :=
  if (val &&& 0x00000080) != 0 then 0xFFFFFF00 ||| val else val

/-- A halfword sign-extended to 32 bits. -/
def signExtendHalfword (val : Nat) : Nat :=
  if (val &&& 0x00008000) != 0 then 0xFFFF0000 ||| val else val

/-- MOV-to-PC scenario: `r0 = 1`, `r15 = 0x08000008`, ARM state. -/
def movPcScenario : ARM7TDMI :=
  mkCpu (fun c => if c = 0 then 1 else if c = 15 then 0x08000008 else 0) (fun _ => 0)

/-- LDR-to-PC scenario: `r1 = 0x03000000`, the word `0x08000002` at
`0x03000000`, ARM state. -/
def ldrPcScenario : ARM7TDMI :=
  mkCpu (fun c => if c = 1 then 0x03000000 else 0)
    (fun a => if a = 0x03000000 then 0x02 else if a = 0x03000003 then 0x08 else 0)

/-- Names of the handlers `executeArmInstruction` selects among. -/
inductive ArmHandlerName where
  | branchAndExchangeHandler
  | singleDataSwapHandler
  | psrHandler
  | multiplyHandler
  | halfWordDataTransHandler
  | dataProcHandler
  | blockDataTransHandler
  | branchHandler
  | swiHandler
  | singleDataTransHandler
  | undefinedOpHandler
deriving DecidableEq

/-- Every handler replaced by its name: `executeArmInstruction handlerNames`
is the name of the handler a word is dispatched to. -/
def handlerNames : ArmHandlers ArmHandlerName :=
  { branchAndExchangeHandler := fun _ => ArmHandlerName.branchAndExchangeHandler
    singleDataSwapHandler := fun _ => ArmHandlerName.singleDataSwapHandler
    psrHandler := fun _ => ArmHandlerName.psrHandler
    multiplyHandler := fun _ => ArmHandlerName.multiplyHandler
    halfWordDataTransHandler := fun _ => ArmHandlerName.halfWordDataTransHandler
    dataProcHandler := fun _ => ArmHandlerName.dataProcHandler
    blockDataTransHandler := fun _ => ArmHandlerName.blockDataTransHandler
    branchHandler := fun _ => ArmHandlerName.branchHandler
    swiHandler := fun _ => ArmHandlerName.swiHandler
    singleDataTransHandler := fun _ => ArmHandlerName.singleDataTransHandler
    undefinedOpHandler := fun _ => ArmHandlerName.undefinedOpHandler }

/-- The entries of `iORegisters` are bytes. -/
def BytesIO (cpu : ARM7TDMI) : Prop :=
  ∀ a : Nat, cpu.bus.iORegisters a < 256

/-- The 16-bit little-endian word formed from the bytes `iORegisters[index]`
and `iORegisters[index + 1]`. -/
def ioWord (cpu : ARM7TDMI) (index : Nat) : Nat :=
  cpu.bus.iORegisters index + 256 * cpu.bus.iORegisters (index + 1)

/-- The interrupt condition as the specification words it: bit 0 of IME is 1,
CPSR.I is 0, and `IE & IF & 0x3FFF` is not 0. -/
def interruptPendingSpec (env : Environment) (cpu : ARM7TDMI) : Bool :=
  (cpu.bus.iORegisters env.IME).testBit 0 && !cpu.cpsr.I &&
    ((ioWord cpu env.IE &&& ioWord cpu env.IF &&& 0x3FFF) != 0)

/-- The statements of `step()` that follow the interrupt test. -/
def stepAfterInterruptTest (env : Environment) (cpu : ARM7TDMI) : Option ARM7TDMI := do
  let cpu ←
    if !cpu.cpsr.T then do
      let cond := (cpu.currInstruction &&& 0xF0000000) >>> 28
      let cpu := cpu.setRegister PC_REGISTER ((cpu.getRegister PC_REGISTER + 4) % 2 ^ 32)
      if (← cpu.conditionalHolds cond) then
        env.executeArmInstruction cpu.currInstruction cpu
      else
        pure cpu
    else
      let cpu := cpu.setRegister PC_REGISTER ((cpu.getRegister PC_REGISTER + 2) % 2 ^ 32)
      env.executeThumbInstruction cpu.currInstruction cpu
  pure (getNextInstruction cpu)

/-- An environment of `step()` with the mode switch of the specification and
decoders that execute nothing. -/
def irqEnvironment : Environment :=
  { idleEnvironment with switchToMode := switchToMode }

/-- Interrupt scenario: SYSTEM mode with Z and C set (CPSR `0x6000001F`), every
saved status register holding `0x00000010`, `r15 = 0x08000100`, IME = 1,
IE = IF = `0x0001`, and the word `0xE1A00000` at `0x18`. -/
def irqScenario : ARM7TDMI :=
  { cells := fun c => if c = 15 then 0x08000100 else 0
    registers := fun i => i
    userRegisters := fun i => i
    cpsr := { Mode := 0x1F, T := false, F := false, I := false,
              V := false, C := true, Z := true, N := false }
    spsrCells := fun _ => { Mode := 0x10, T := false, F := false, I := false,
                            V := false, C := false, Z := false, N := false }
    currentSpsr := PsrRef.cpsr
    currInstruction := 0
    currInstrAddress := 0x08000100
    bus := { mem := fun a => if a = 0x1A then 0xA0 else if a = 0x1B then 0xE1 else 0
             iORegisters := fun a => if a = 0x208 then 1 else if a = 0x200 then 1
                                     else if a = 0x202 then 1 else 0 } }

/-- Interrupt scenario with only bit 14 set in IE and in IF. -/
def bit14Scenario : ARM7TDMI :=
  { irqScenario with
    bus := { mem := fun _ => 0
             iORegisters := fun a => if a = 0x208 then 1 else if a = 0x201 then 0x40
                                     else if a = 0x203 then 0x40 else 0 } }

/-- Names of the handlers `executeThumbInstruction` selects among. -/
inductive ThumbHandlerName where
  | addSubHandler
  | shiftHandler
  | immHandler
  | aluHandler
  | bxHandler
  | loadPcRelativeHandler
  | loadStoreSignExtendedByteHalfwordHandler
  | loadStoreRegOffsetHandler
  | loadStoreImmediateOffsetHandler
  | loadStoreSpRelativeHandler
  | loadStoreHalfwordHandler
  | multipleLoadStorePushPopHandler
  | addOffsetToSpHandler
  | getRelativeAddressHandler
  | softwareInterruptHandler
  | conditionalBranchHandler
  | multipleLoadStoreHandler
  | longBranchHandler
  | unconditionalBranchHandler
  | undefinedOpHandler
deriving DecidableEq

/-- Every THUMB handler replaced by its name: `executeThumbInstruction
thumbHandlerNames` is the name of the handler a word is dispatched to. -/
def thumbHandlerNames : ThumbHandlers ThumbHandlerName :=
  { addSubHandler := fun _ => ThumbHandlerName.addSubHandler
    shiftHandler := fun _ => ThumbHandlerName.shiftHandler
    immHandler := fun _ => ThumbHandlerName.immHandler
    aluHandler := fun _ => ThumbHandlerName.aluHandler
    bxHandler := fun _ => ThumbHandlerName.bxHandler
    loadPcRelativeHandler := fun _ => ThumbHandlerName.loadPcRelativeHandler
    loadStoreSignExtendedByteHalfwordHandler :=
      fun _ => ThumbHandlerName.loadStoreSignExtendedByteHalfwordHandler
    loadStoreRegOffsetHandler := fun _ => ThumbHandlerName.loadStoreRegOffsetHandler
    loadStoreImmediateOffsetHandler := fun _ => ThumbHandlerName.loadStoreImmediateOffsetHandler
    loadStoreSpRelativeHandler := fun _ => ThumbHandlerName.loadStoreSpRelativeHandler
    loadStoreHalfwordHandler := fun _ => ThumbHandlerName.loadStoreHalfwordHandler
    multipleLoadStorePushPopHandler := fun _ => ThumbHandlerName.multipleLoadStorePushPopHandler
    addOffsetToSpHandler := fun _ => ThumbHandlerName.addOffsetToSpHandler
    getRelativeAddressHandler := fun _ => ThumbHandlerName.getRelativeAddressHandler
    softwareInterruptHandler := fun _ => ThumbHandlerName.softwareInterruptHandler
    conditionalBranchHandler := fun _ => ThumbHandlerName.conditionalBranchHandler
    multipleLoadStoreHandler := fun _ => ThumbHandlerName.multipleLoadStoreHandler
    longBranchHandler := fun _ => ThumbHandlerName.longBranchHandler
    unconditionalBranchHandler := fun _ => ThumbHandlerName.unconditionalBranchHandler
    undefinedOpHandler := fun _ => ThumbHandlerName.undefinedOpHandler }

/-- The 19 bit patterns of the THUMB decoding table, each under the name of
the handler of its form: `thumbFormMatches form w` holds when the word `w`
matches the pattern of the form. "Other 000" and "other 1101" leave out the
words of the more specific pattern; no pattern belongs to
`undefinedOpHandler`. -/
def thumbFormMatches (form : ThumbHandlerName) (instruction : Nat) : Bool :=
  match form with
  | ThumbHandlerName.addSubHandler => instruction &&& 0xF800 == 0x1800 -- 00011
  | ThumbHandlerName.shiftHandler => -- other 000
    instruction &&& 0xE000 == 0x0000 && !(instruction &&& 0xF800 == 0x1800)
  | ThumbHandlerName.immHandler => instruction &&& 0xE000 == 0x2000 -- 001
  | ThumbHandlerName.aluHandler => instruction &&& 0xFC00 == 0x4000 -- 010000
  | ThumbHandlerName.bxHandler => instruction &&& 0xFC00 == 0x4400 -- 010001
  | ThumbHandlerName.loadPcRelativeHandler => instruction &&& 0xF800 == 0x4800 -- 01001
  | ThumbHandlerName.loadStoreRegOffsetHandler =>
    instruction &&& 0xF200 == 0x5000 -- 0101xx0
  | ThumbHandlerName.loadStoreSignExtendedByteHalfwordHandler =>
    instruction &&& 0xF200 == 0x5200 -- 0101xx1
  | ThumbHandlerName.loadStoreImmediateOffsetHandler => instruction &&& 0xE000 == 0x6000 -- 011
  | ThumbHandlerName.loadStoreHalfwordHandler => instruction &&& 0xF000 == 0x8000 -- 1000
  | ThumbHandlerName.loadStoreSpRelativeHandler => instruction &&& 0xF000 == 0x9000 -- 1001
  | ThumbHandlerName.getRelativeAddressHandler => instruction &&& 0xF000 == 0xA000 -- 1010
  | ThumbHandlerName.addOffsetToSpHandler => instruction &&& 0xFF00 == 0xB000 -- 10110000
  | ThumbHandlerName.multipleLoadStorePushPopHandler =>
    instruction &&& 0xF600 == 0xB400 -- 1011x10
  | ThumbHandlerName.multipleLoadStoreHandler => instruction &&& 0xF000 == 0xC000 -- 1100
  | ThumbHandlerName.softwareInterruptHandler => instruction &&& 0xFF00 == 0xDF00 -- 11011111
  | ThumbHandlerName.conditionalBranchHandler => -- other 1101
    instruction &&& 0xF000 == 0xD000 && !(instruction &&& 0xFF00 == 0xDF00)
  | ThumbHandlerName.unconditionalBranchHandler => instruction &&& 0xF800 == 0xE000 -- 11100
  | ThumbHandlerName.longBranchHandler => instruction &&& 0xF000 == 0xF000 -- 1111
  | ThumbHandlerName.undefinedOpHandler => false

/-- ROR-offset scenario: `r1 = 0x03000000`, `r2 = 0x00000400`. -/
def rorOffsetScenario : ARM7TDMI :=
  mkCpu (fun c => if c = 1 then 0x03000000 else if c = 2 then 0x00000400 else 0) (fun _ => 0)

/-- SWP-same-register scenario: `r0 = 0x55667788`, `r1 = 0x03000000`, the word
`0x11223344` at `0x03000000`. -/
def swpSameScenario : ARM7TDMI :=
  mkCpu (fun c => if c = 0 then 0x55667788 else if c = 1 then 0x03000000 else 0)
    (fun a =>
      if a = 0x03000000 then 0x44 else if a = 0x03000001 then 0x33
      else if a = 0x03000002 then 0x22 else if a = 0x03000003 then 0x11
      else 0)


/-- Compare scenario: `r0 = 0x80000000`, `r1 = 1`. -/
def cmpScenario : ARM7TDMI :=
  mkCpu (fun c => if c = 0 then 0x80000000 else if c = 1 then 1 else 0) (fun _ => 0)

/-- The compare scenario with the flags N = 0, Z = 0, C = 1, V = 1. -/
def cmpFlagsState : ARM7TDMI :=
  { cmpScenario with
    cpsr := { cmpScenario.cpsr with N := false, Z := false, C := true, V := true } }


end Notions

end ARM7TDMI

/-! ## Theorems -/

namespace ARM7TDMI
open ArmOpcodeHandlers

/-- C1 (failing input): `LDR r0, [r1]` (word `0xE5910000`) with
`r1 = 0x03000002` and `mem32(0x03000000) = 0xDEADBEEF`. The claimed result
`ROR(mem32(a & ~3), (a & 3) * 8)` is `0xBEEFDEAD`, but the handler, on an
address that is halfword- but not word-aligned, uses the assembled data as an
address: it leaves `r0 = ROR(mem32(0xBEEFDEAC), 8) = 0x44112233`. -/
theorem ldr_halfword_aligned_reads_wrong_address :
    ldrScenario.getRegister 1 = 0x03000002 ∧
    ldrScenario.bus.read32 0x03000000 = 0xDEADBEEF ∧
    aluShiftRor (ldrScenario.bus.read32 (0x03000002 &&& 0xFFFFFFFC))
      ((0x03000002 &&& 3) * 8) = 0xBEEFDEAD ∧
    ∀ uninitOffset,
      (singleDataTransHandler 0xE5910000 uninitOffset ldrScenario).map
        (fun cpu => cpu.getRegister 0) = some 0x44112233 := by
  refine ⟨by decide!, by decide!, by decide!, ?_⟩
  intro u
  rfl

/-- C8 (failing input): `MOVS r1, r2, LSR #32` (word `0xE1B01022`, encoded as
LSR #0) with `r2 = 0x80000001` and C initially 0. The shifter returns
carry-out 1, and the handler leaves `r1 = 0`, Z = 1, N = 0, V unchanged, but it
commits its local copy of the old C flag: C stays 0 where the claim says 1. -/
theorem movs_lsr32_keeps_old_carry :
    movsScenario.cpsr.C = false ∧
    (movsScenario.aluShift 0xE1B01022 false false).map (fun r => r.carry) = some 1 ∧
    (dataProcHandler 0xE1B01022 movsScenario).map
        (fun cpu => (cpu.getRegister 1, cpu.cpsr.Z, cpu.cpsr.N, cpu.cpsr.V, cpu.cpsr.C))
      = some (0, true, false, false, false) := by
  refine ⟨rfl, by decide!, by decide!⟩

/-- C9 (failing input): `ADCS r0, r1, r2` (word `0xE0B10002`) with
`r1 = 0xFFFFFFFF`, `r2 = 1`, carry-in 0: bit 32 of the 33-bit sum is 1 but the
handler commits C = 0; and `SBCS r0, r1, r2` (word `0xE0D10002`) with `r1 = 5`,
`r2 = 3`, carry-in 1: bit 32 of `a + ~b + Cin` is 1 but the handler commits
C = 0. The handler forms the sum in 32 bits before widening it. -/
theorem adcs_sbcs_carry_lost :
    ((0xFFFFFFFF + 1 + 0) >>> 32) % 2 = 1 ∧
    (dataProcHandler 0xE0B10002 adcScenario).map
        (fun cpu => (cpu.getRegister 0, cpu.cpsr.C)) = some (0, false) ∧
    ((5 + not32 3 + 1) >>> 32) % 2 = 1 ∧
    (dataProcHandler 0xE0D10002 sbcScenario).map
        (fun cpu => (cpu.getRegister 0, cpu.cpsr.C)) = some (2, false) := by
  refine ⟨by decide!, by decide!, by decide!, by decide!⟩

/-! ### Barrel shifter -/

/-- Bit 0 of a shifted value is the tested bit of the original. -/
theorem shiftRight_and_one (x k : Nat) : (x >>> k) &&& 1 = flagBit (x.testBit k) := by
  rw [Nat.and_one_is_mod]
  simp only [Nat.testBit, Nat.and_comm 1, Nat.and_one_is_mod, flagBit]
  rcases Nat.mod_two_eq_zero_or_one (x >>> k) with h | h <;> simp [h]

/-- C10: LSL by a register-specified amount `n` (low byte of `Rs`) of the `Rm`
value `x`: for `1 ≤ n ≤ 31` the value is `x << n` modulo `2 ^ 32` and the
carry-out is bit `32 - n` of `x`; for `n = 32` the value is 0 and the carry-out
is bit 0 of `x`; for `33 ≤ n ≤ 255` the value is 0 and the carry-out is 0. -/
theorem aluShift_lsl_by_register (cpu : ARM7TDMI) (instruction x n : Nat)
    (htype : (instruction &&& 0x00000060) >>> 5 = 0)
    (hrs : (instruction &&& 0x00000F00) >>> 8 ≠ 15)
    (hx : x = shifterRmByRegister cpu instruction)
    (hn : n = cpu.getRegister ((instruction &&& 0x00000F00) >>> 8) &&& 0x000000FF) :
    n ≤ 255 ∧
    (1 ≤ n ∧ n ≤ 31 →
      cpu.aluShift instruction false true
        = some { op2 := (x <<< n) % 2 ^ 32, carry := flagBit (x.testBit (32 - n)) }) ∧
    (n = 32 →
      cpu.aluShift instruction false true
        = some { op2 := 0, carry := flagBit (x.testBit 0) }) ∧
    (33 ≤ n →
      cpu.aluShift instruction false true = some { op2 := 0, carry := 0 }) := by
  have hle : n ≤ 255 := by
    rw [hn]; exact Nat.and_le_right
  have key : ∀ m : Nat, m = n → m ≠ 0 →
      cpu.aluShift instruction false true
        = some { op2 := aluShiftLsl x n,
                 carry := if n > 32 then 0 else (x >>> (32 - n)) &&& 1 } := by
    intro m hm hm0
    subst hm
    have hm0' : (cpu.getRegister ((instruction &&& 0x00000F00) >>> 8) &&& 0x000000FF) ≠ 0 := by
      rw [← hn]; exact hm0
    simp only [aluShift, htype, hx, shifterRmByRegister, ← hn, assert]
    simp [hrs, hm0, hm0', PC_REGISTER, hn]
  refine ⟨hle, ?_, ?_, ?_⟩
  · rintro ⟨h1, h2⟩
    rw [key n rfl (by omega)]
    have h3 : ¬ n > 32 := by omega
    have h4 : ¬ n ≥ 32 := by omega
    simp only [aluShiftLsl, h3, h4, if_false, shiftRight_and_one]
  · intro h
    subst h
    rw [key 32 rfl (by omega)]
    have h3 : ¬ (32 > 32) := by omega
    have h4 : (32 : Nat) ≥ 32 := by omega
    simp only [aluShiftLsl, h3, h4, if_false, if_true, shiftRight_and_one, Nat.sub_self]
  · intro h
    rw [key n rfl (by omega)]
    have h3 : n > 32 := by omega
    have h4 : n ≥ 32 := by omega
    simp only [aluShiftLsl, h3, h4, if_true]

/-! ### Block data transfer: concrete runs -/

/-- C3 (failing input): `STMDB sp!, {r0, r1, lr}` (word `0xE92D4003`) with
`sp = 0x03007F00`, `r0 = 1`, `r1 = 2`, `lr = 3`. The loops store 1, 2, 3 at
`0x03007EF4`, `0x03007EF8`, `0x03007EFC` and leave `rnVal = 0x03007EF4`, but
the test of the base rewrite holds (`0x4003 << 2 > 0x8000`) although `sp` is
not in the list, `addressRnStoredAt` is still 0, and the handler stops at
`assert(addressRnStoredAt != 0)` before it writes the base back. -/
theorem stmdb_sp_hits_assertion :
    (let st := blockTransferLoops true false false false 13 (0xE92D4003 % 2 ^ 16)
        { rnVal := stmdbScenario.getRegister 13, addressRnStoredAt := 0, cpu := stmdbScenario }
     (st.cpu.bus.read32 0x03007EF4, st.cpu.bus.read32 0x03007EF8, st.cpu.bus.read32 0x03007EFC,
        st.rnVal, st.addressRnStoredAt) = (1, 2, 3, 0x03007EF4, 0)) ∧
    decide (((0xE92D4003 % 2 ^ 16) <<< (15 - getRn 0xE92D4003)) > 0x8000) = true ∧
    (blockDataTransHandler 0xE92D4003 stmdbScenario).isNone = true := by
  refine ⟨by decide!, by decide!, by decide!⟩

/-- C4 (failing input): `STMIA r0!, {r0, r1}` (word `0xE8A00003`) with
`r0 = 0x03000000`. The base is the lowest register of the list, so the word
stored for it should be the original `0x03000000`; the handler rewrites it
with the written-back base `0x03000008`. -/
theorem stmia_base_first_stores_modified_base :
    stmiaScenario.getRegister 0 = 0x03000000 ∧
    (blockDataTransHandler 0xE8A00003 stmiaScenario).map
        (fun cpu => (cpu.bus.read32 0x03000000, cpu.bus.read32 0x03000004, cpu.getRegister 0))
      = some (0x03000008, 7, 0x03000008) := by
  refine ⟨by decide!, by decide!⟩

/-! ### Branches -/

/-- C5 (failing input): `B` with the offset field `0xFFFFFE` (word
`0xEAFFFFFE`) and `r15 = 0x08000004` at handler entry. The target with the
sign-extended offset is `0x08000004`; the handler does not sign-extend the
field and sets `r15 = 0x0C000004`, a forward branch. -/
theorem branch_offset_not_sign_extended :
    branchScenario.getRegister 15 = 0x08000004 ∧
    branchTargetSpec 0x08000004 0xEAFFFFFE = 0x08000004 ∧
    (branchHandler 0xEAFFFFFE branchScenario).map (fun cpu => cpu.getRegister 15)
      = some 0x0C000004 := by
  refine ⟨by decide!, by decide!, by decide!⟩

/-- A register reads back the value just written to it. -/
theorem getRegister_setRegister_same (cpu : ARM7TDMI) (index value : Nat) :
    (cpu.setRegister index value).getRegister index = value := by
  simp [getRegister, setRegister]

/-- C6: BX/BLX with operand register `Rn` (any register but r15, so also r14)
holding the target `t`: the handler completes, leaves `CPSR.T = t & 1`, and
`r15 = t & ~1` when `t` is odd, `r15 = t & ~3` when `t` is even. -/
theorem branchAndExchange_target (instruction : Nat) (cpu : ARM7TDMI)
    (hbits : (instruction &&& 0x0FFFFF00) >>> 8 = 0b00010010111111111111)
    (hrn : getRm instruction ≠ PC_REGISTER) :
    ∃ cpu2, branchAndExchangeHandler instruction cpu = some cpu2 ∧
      flagBit cpu2.cpsr.T = cpu.getRegister (getRm instruction) &&& 1 ∧
      (cpu.getRegister (getRm instruction) &&& 1 = 1 →
        cpu2.getRegister PC_REGISTER = cpu.getRegister (getRm instruction) &&& 0xFFFFFFFE) ∧
      (cpu.getRegister (getRm instruction) &&& 1 = 0 →
        cpu2.getRegister PC_REGISTER = cpu.getRegister (getRm instruction) &&& 0xFFFFFFFC) := by
  have hrun : ∃ c : ARM7TDMI, branchAndExchangeHandler instruction cpu = some
      ((({ c with cpsr := { c.cpsr with T := (cpu.getRegister (getRm instruction) &&& 1) != 0 } }
          : ARM7TDMI)).setRegister PC_REGISTER
        (if (cpu.getRegister (getRm instruction) &&& 1) != 0
          then cpu.getRegister (getRm instruction) &&& 0xFFFFFFFE
          else cpu.getRegister (getRm instruction) &&& 0xFFFFFFFC)) := by
    refine ⟨(match (instruction &&& 0x000000F0) >>> 4 with
      | 1 => cpu.setRegister 14 ((cpu.getRegister PC_REGISTER + 4) % 2 ^ 32)
      | 3 => cpu.setRegister 14 ((cpu.getRegister PC_REGISTER + 4) % 2 ^ 32)
      | _ => cpu), ?_⟩
    simp only [branchAndExchangeHandler, assert, hbits]
    simp [hrn]
  obtain ⟨c, hc⟩ := hrun
  refine ⟨_, hc, ?_, ?_, ?_⟩
  · rcases Nat.mod_two_eq_zero_or_one (cpu.getRegister (getRm instruction)) with h | h <;>
      simp [flagBit, setRegister, Nat.and_one_is_mod, h]
  · intro h1
    have h2 : (cpu.getRegister (getRm instruction) &&& 1 != 0) = true := by simp [h1]
    rw [getRegister_setRegister_same, if_pos h2]
  · intro h1
    have h2 : ¬ (cpu.getRegister (getRm instruction) &&& 1 != 0) = true := by simp [h1]
    rw [getRegister_setRegister_same, if_neg h2]

/-- Scenario S4 through `branchAndExchange_target`: `BX r0` (word
`0xE12FFF10`) with `r0 = 0x08000001` gives `PC = 0x08000000` and `T = 1`. -/
theorem branchAndExchange_target_witness :
    (0xE12FFF10 &&& 0x0FFFFF00) >>> 8 = 0b00010010111111111111 ∧
    getRm 0xE12FFF10 ≠ PC_REGISTER ∧
    ∃ cpu2, branchAndExchangeHandler 0xE12FFF10 bxScenario = some cpu2 ∧
      cpu2.cpsr.T = true ∧ cpu2.getRegister PC_REGISTER = 0x08000000 := by
  obtain ⟨cpu2, hrun, ht, hodd, _⟩ :=
    branchAndExchange_target 0xE12FFF10 bxScenario (by decide) (by decide)
  have hval : bxScenario.getRegister (getRm 0xE12FFF10) = 0x08000001 := by decide!
  rw [hval] at ht hodd
  refine ⟨by decide, by decide, cpu2, hrun, ?_, ?_⟩
  · cases hT : cpu2.cpsr.T
    · rw [hT] at ht; exact absurd ht (by decide)
    · rfl
  · rw [hodd (by decide)]
    decide

/-- Instance of `aluShift_lsl_by_register`: `MOV r1, r2, LSL r3` (word
`0xE1A01312`) with `r2 = 0x80000001` and `r3 = 1` yields operand 2 and
carry-out 1. -/
theorem aluShift_lsl_by_register_witness :
    (0xE1A01312 &&& 0x00000060) >>> 5 = 0 ∧
    (0xE1A01312 &&& 0x00000F00) >>> 8 ≠ 15 ∧
    lslScenario.aluShift 0xE1A01312 false true = some { op2 := 2, carry := 1 } := by
  have h := (aluShift_lsl_by_register lslScenario 0xE1A01312 0x80000001 1
    (by decide) (by decide) (by decide!) (by decide!)).2.1 ⟨by decide, by decide⟩
  refine ⟨by decide, by decide, ?_⟩
  rw [h]
  decide

/-! ### Execution loop -/

/-- The condition test reads the flags only. -/
theorem conditionalHolds_setRegister (cpu : ARM7TDMI) (index value cond : Nat) :
    (cpu.setRegister index value).conditionalHolds cond = cpu.conditionalHolds cond := rfl

/-- C7: in ARM state, when no interrupt is taken at the top of the step and the
condition field of the prefetched instruction evaluates to false, `step()`
completes, advances r15 by 4 (in 32-bit arithmetic) and changes no other
physical register cell (so none of r0..r14 and no banked register), nor the
register maps, the CPSR, the SPSRs or anything on the bus: no memory write. -/
theorem step_condition_false_skips (env : Environment) (cpu : ARM7TDMI)
    (hT : cpu.cpsr.T = false)
    (hirq : interruptTaken env cpu = false)
    (hcond : cpu.conditionalHolds ((cpu.currInstruction &&& 0xF0000000) >>> 28) = some false) :
    ∃ cpu2, step env cpu = some cpu2 ∧
      cpu2.getRegister PC_REGISTER = (cpu.getRegister PC_REGISTER + 4) % 2 ^ 32 ∧
      (cpu.getRegister PC_REGISTER + 4 < 2 ^ 32 →
        cpu2.getRegister PC_REGISTER = cpu.getRegister PC_REGISTER + 4) ∧
      (∀ c, c ≠ cpu.registers PC_REGISTER → cpu2.cells c = cpu.cells c) ∧
      (∀ i, cpu.registers i ≠ cpu.registers PC_REGISTER →
        cpu2.getRegister i = cpu.getRegister i) ∧
      cpu2.registers = cpu.registers ∧ cpu2.userRegisters = cpu.userRegisters ∧
      cpu2.cpsr = cpu.cpsr ∧ cpu2.spsrCells = cpu.spsrCells ∧
      cpu2.currentSpsr = cpu.currentSpsr ∧ cpu2.bus = cpu.bus := by
  have hrun : step env cpu = some (getNextInstruction
      (cpu.setRegister PC_REGISTER ((cpu.getRegister PC_REGISTER + 4) % 2 ^ 32))) := by
    simp only [step, hirq, hT]
    simp [conditionalHolds_setRegister, hcond, hT]
  have hnext : ∀ c : ARM7TDMI, (getNextInstruction c).cells = c.cells ∧
      (getNextInstruction c).registers = c.registers ∧
      (getNextInstruction c).userRegisters = c.userRegisters ∧
      (getNextInstruction c).cpsr = c.cpsr ∧
      (getNextInstruction c).spsrCells = c.spsrCells ∧
      (getNextInstruction c).currentSpsr = c.currentSpsr ∧
      (getNextInstruction c).bus = c.bus := by
    intro c
    unfold getNextInstruction
    split <;> simp
  obtain ⟨h1, h2, h3, h4, h5, h6, h7⟩ :=
    hnext (cpu.setRegister PC_REGISTER ((cpu.getRegister PC_REGISTER + 4) % 2 ^ 32))
  have hpc : (getNextInstruction (cpu.setRegister PC_REGISTER
      ((cpu.getRegister PC_REGISTER + 4) % 2 ^ 32))).getRegister PC_REGISTER
      = (cpu.getRegister PC_REGISTER + 4) % 2 ^ 32 := by
    show (getNextInstruction _).cells ((getNextInstruction _).registers PC_REGISTER) = _
    rw [h1, h2]
    simp [setRegister]
  refine ⟨_, hrun, hpc, ?_, ?_, ?_, h2, h3, h4, h5, h6, h7⟩
  · intro hlt
    rw [hpc, Nat.mod_eq_of_lt hlt]
  · intro c hc
    rw [h1]
    simp [setRegister, hc]
  · intro i hi
    show (getNextInstruction _).cells ((getNextInstruction _).registers i) = _
    rw [h1, h2]
    simp [setRegister, getRegister, hi]

/-- Instance of `step_condition_false_skips`: `MOVEQ r0, #1` with Z clear and
`r15 = 0x08000004` is skipped; r15 becomes `0x08000008`, `r0` and the CPSR are
unchanged, and the next word is fetched from the new r15. -/
theorem step_condition_false_skips_witness :
    skipScenario.cpsr.T = false ∧
    interruptTaken idleEnvironment skipScenario = false ∧
    skipScenario.conditionalHolds ((skipScenario.currInstruction &&& 0xF0000000) >>> 28)
      = some false ∧
    ∃ cpu2, step idleEnvironment skipScenario = some cpu2 ∧
      cpu2.getRegister PC_REGISTER = 0x08000008 ∧
      cpu2.getRegister 0 = skipScenario.getRegister 0 ∧
      cpu2.cpsr = skipScenario.cpsr ∧
      cpu2.currInstruction = 0xE1A00000 := by
  obtain ⟨cpu2, hrun, hpc, _, _, hreg, _, _, hcpsr, _, _, _⟩ :=
    step_condition_false_skips idleEnvironment skipScenario rfl (by decide!) (by decide!)
  refine ⟨rfl, by decide!, by decide!, cpu2, hrun, ?_, ?_, hcpsr, ?_⟩
  · rw [hpc]; decide!
  · exact hreg 0 (by decide!)
  · have h2 : step idleEnvironment skipScenario = some (getNextInstruction
        (skipScenario.setRegister PC_REGISTER 0x08000008)) := by rfl
    rw [h2] at hrun
    injection hrun with hrun
    rw [← hrun]
    decide!

/-! ### Bit and memory lemmas -/

/-- Masking with `0xFFFFFFFC` truncates to 32 bits and aligns to a word. -/
theorem and_align4 (x : Nat) : x &&& 0xFFFFFFFC = x % 2 ^ 32 / 4 * 4 := by
  apply Nat.eq_of_testBit_eq
  intro i
  have e1 : (0xFFFFFFFC : Nat) = 2 ^ 2 * (2 ^ 30 - 1) := by norm_num
  have e2 : x % 2 ^ 32 / 4 * 4 = 2 ^ 2 * ((x % 2 ^ 32) >>> 2) := by
    rw [Nat.shiftRight_eq_div_pow]; ring
  rw [Nat.testBit_and, e1, e2, Nat.testBit_mul_pow_two, Nat.testBit_mul_pow_two,
    Nat.testBit_two_pow_sub_one, Nat.testBit_shiftRight, Nat.testBit_mod_two_pow]
  by_cases h : 2 ≤ i
  · have h2 : 2 + (i - 2) = i := by omega
    rw [h2]
    by_cases h3 : i < 32
    · have h4 : i - 2 < 30 := by omega
      simp [h, h3, h4]
    · have h4 : ¬ (i - 2 < 30) := by omega
      simp [h, h3, h4]
  · simp [h]

/-- The test `regList & 1` of the up loop reads bit 0. -/
theorem and_one_ne_zero (R : Nat) : ((R &&& 1) != 0) = R.testBit 0 := by
  simp [Nat.testBit, Nat.and_comm]

/-- The test `regList & 0x8000` of the down loop reads bit 15. -/
theorem and_bit15_ne_zero (R : Nat) : ((R &&& 0x8000) != 0) = R.testBit 15 := by
  have e : (0x8000 : Nat) = 2 ^ 15 := by norm_num
  rw [e, Nat.and_two_pow]
  cases R.testBit 15 <;> simp

/-- A word read depends on the four bytes of the addressed word only. -/
theorem read32_congr (b1 b2 : Bus) (a : Nat)
    (h : ∀ x, x / 4 = a / 4 → b1.mem x = b2.mem x) : b1.read32 a = b2.read32 a := by
  unfold Bus.read32 Bus.read8
  rw [h (a / 4 * 4) (by omega), h (a / 4 * 4 + 1) (by omega), h (a / 4 * 4 + 2) (by omega),
    h (a / 4 * 4 + 3) (by omega)]

/-- A word written at an aligned address is read back from any address of that
word. -/
theorem read32_write32_same (bus : Bus) (a a2 v : Nat) (h : a2 / 4 * 4 = a) :
    (bus.write32 a v).read32 a2 = v % 2 ^ 32 := by
  unfold Bus.read32 Bus.read8 Bus.write32
  simp only [h]
  have h1 : ¬ (a + 1 = a) := by omega
  have h2 : ¬ (a + 2 = a) := by omega
  have h3 : ¬ (a + 2 = a + 1) := by omega
  have h4 : ¬ (a + 3 = a) := by omega
  have h5 : ¬ (a + 3 = a + 1) := by omega
  have h6 : ¬ (a + 3 = a + 2) := by omega
  simp only [if_true, h1, h2, h3, h4, h5, h6, if_false]
  omega

/-- A word write changes only bytes of the written word. -/
theorem write32_mem_other (bus : Bus) (a v x : Nat) (ha : a % 4 = 0) (h : x / 4 ≠ a / 4) :
    (bus.write32 a v).mem x = bus.mem x := by
  unfold Bus.write32
  have h1 : ¬ (x = a) := by intro e; apply h; rw [e]
  have h2 : ¬ (x = a + 1) := by intro e; apply h; omega
  have h3 : ¬ (x = a + 2) := by intro e; apply h; omega
  have h4 : ¬ (x = a + 3) := by intro e; apply h; omega
  simp only [h1, h2, h3, h4, if_false]

/-- At most `len` bits are set among `len` bits. -/
theorem countBits_le (R lo len : Nat) : countBits R lo len ≤ len := by
  induction len with
  | zero => simp [countBits]
  | succ k ih =>
    simp only [countBits]
    have : flagBit (R.testBit (lo + k)) ≤ 1 := by
      unfold flagBit; split <;> omega
    omega

/-- Counting over adjacent ranges adds up. -/
theorem countBits_add (R lo a b : Nat) :
    countBits R lo (a + b) = countBits R lo a + countBits R (lo + a) b := by
  induction b with
  | zero => simp [countBits]
  | succ k ih =>
    rw [← Nat.add_assoc]
    simp only [countBits, ih, Nat.add_assoc]

/-- Counting in `R >> 1` is counting in `R` one position higher. -/
theorem countBits_shiftRight (R lo len : Nat) :
    countBits (R >>> 1) lo len = countBits R (lo + 1) len := by
  induction len with
  | zero => simp [countBits]
  | succ k ih =>
    simp only [countBits, ih, Nat.testBit_shiftRight]
    have : 1 + (lo + k) = lo + 1 + k := by omega
    rw [this]

/-- Counting in the 16-bit `R << 1` is counting in `R` one position lower. -/
theorem countBits_shiftLeft16 (R lo len : Nat) (h : lo + 1 + len ≤ 16) :
    countBits ((R <<< 1) % 2 ^ 16) (lo + 1) len = countBits R lo len := by
  induction len with
  | zero => simp [countBits]
  | succ k ih =>
    simp only [countBits]
    rw [ih (by omega), Nat.testBit_mod_two_pow, Nat.testBit_shiftLeft]
    have h1 : lo + 1 + k < 16 := by omega
    have h2 : lo + 1 + k ≥ 1 := by omega
    have h3 : lo + 1 + k - 1 = lo + k := by omega
    simp [h1, h2, h3]

/-! ### Block data transfer: the loops -/

/-- The up loop of an STM changes no register cell and only bytes of the words
at `rnVal`, `rnVal + 4`, ..., one per remaining iteration. -/
theorem stmUp_frame (rn : Nat) : ∀ (count reg R : Nat) (st : BlockLocals),
    (blockTransferUp false false rn count reg R st).cpu.cells = st.cpu.cells ∧
    (blockTransferUp false false rn count reg R st).cpu.registers = st.cpu.registers ∧
    ∀ x, (∀ j, j < count → x / 4 ≠ ((st.rnVal + 4 * j) % 2 ^ 32) / 4) →
      (blockTransferUp false false rn count reg R st).cpu.bus.mem x = st.cpu.bus.mem x := by
  intro count
  induction count with
  | zero => intro reg R st; exact ⟨rfl, rfl, fun _ _ => rfl⟩
  | succ k ih =>
    intro reg R st
    simp only [blockTransferUp, and_one_ne_zero]
    cases hb : R.testBit 0
    · simp only [Bool.false_eq_true, if_false]
      obtain ⟨h1, h2, h3⟩ := ih (reg + 1) (R >>> 1) st
      refine ⟨h1, h2, ?_⟩
      intro x hx
      exact h3 x (fun j hj => hx j (by omega))
    · simp only [if_true]
      obtain ⟨h1, h2, h3⟩ := ih (reg + 1) (R >>> 1)
        { blockTransferRegister false false rn reg st with
          rnVal := ((blockTransferRegister false false rn reg st).rnVal + 4) % 2 ^ 32 }
      refine ⟨h1, h2, ?_⟩
      intro x hx
      rw [h3 x]
      · simp only [blockTransferRegister, Bool.false_eq_true, if_false]
        apply write32_mem_other
        · rw [and_align4]; omega
        · have := hx 0 (by omega)
          rw [and_align4]; omega
      · intro j hj
        have := hx (j + 1) (by omega)
        simp only [blockTransferRegister, Bool.false_eq_true, if_false]
        omega

/-- Storing a register does not change what is stored for any register. -/
theorem storedWord_stm (rn reg r : Nat) (st : BlockLocals) :
    storedWord (blockTransferRegister false false rn reg st).cpu r = storedWord st.cpu r := rfl

/-- The up loop of an STM leaves the word of the register at list position `j`
at `rnVal` plus four times the number of listed registers before it. -/
theorem stmUp_target (rn : Nat) : ∀ (count reg R : Nat) (st : BlockLocals), count ≤ 16 →
    ∀ j, j < count → R.testBit j = true →
      (blockTransferUp false false rn count reg R st).cpu.bus.read32
          ((st.rnVal + 4 * countBits R 0 j) % 2 ^ 32)
        = storedWord st.cpu (reg + j) := by
  intro count
  induction count with
  | zero => intro reg R st _ j hj; omega
  | succ k ih =>
    intro reg R st hk j hj hbit
    cases j with
    | zero =>
      simp only [blockTransferUp, and_one_ne_zero, hbit, if_true, countBits]
      obtain ⟨_, _, h3⟩ := stmUp_frame rn k (reg + 1) (R >>> 1)
        { blockTransferRegister false false rn reg st with
          rnVal := ((blockTransferRegister false false rn reg st).rnVal + 4) % 2 ^ 32 }
      rw [read32_congr _ (blockTransferRegister false false rn reg st).cpu.bus]
      · simp only [blockTransferRegister, Bool.false_eq_true, if_false]
        rw [read32_write32_same]
        · simp [storedWord]
        · rw [and_align4]; omega
      · intro x hx
        apply h3
        intro j hj2
        simp only [blockTransferRegister, Bool.false_eq_true, if_false]
        omega
    | succ j2 =>
      have hbit2 : (R >>> 1).testBit j2 = true := by
        rw [Nat.testBit_shiftRight, Nat.add_comm]; exact hbit
      have hc : countBits R 0 (j2 + 1) = flagBit (R.testBit 0) + countBits (R >>> 1) 0 j2 := by
        rw [Nat.add_comm j2 1, countBits_add, countBits_shiftRight]
        simp [countBits]
      simp only [blockTransferUp, and_one_ne_zero]
      cases hb : R.testBit 0
      · simp only [Bool.false_eq_true, if_false]
        have := ih (reg + 1) (R >>> 1) st (by omega) j2 (by omega) hbit2
        rw [hc, hb]
        have e : reg + (j2 + 1) = reg + 1 + j2 := by omega
        rw [e, ← this]
        simp [flagBit]
      · simp only [if_true]
        have := ih (reg + 1) (R >>> 1)
          { blockTransferRegister false false rn reg st with
            rnVal := ((blockTransferRegister false false rn reg st).rnVal + 4) % 2 ^ 32 }
          (by omega) j2 (by omega) hbit2
        rw [hc, hb]
        have e : reg + (j2 + 1) = reg + 1 + j2 := by omega
        rw [e, ← storedWord_stm rn reg (reg + 1 + j2) st, ← this]
        congr 1
        simp only [blockTransferRegister, Bool.false_eq_true, if_false, flagBit, if_true]
        omega

/-- Reading at the masked address is reading at the address. -/
theorem read32_align (bus : Bus) (x : Nat) :
    bus.read32 (x &&& 0xFFFFFFFC) = bus.read32 (x % 2 ^ 32) := by
  unfold Bus.read32
  rw [and_align4]
  have : x % 2 ^ 32 / 4 * 4 / 4 * 4 = x % 2 ^ 32 / 4 * 4 := by omega
  rw [this]

/-- The up loop of an LDM leaves the bus and the register maps alone and
changes only cells of the registers still to be visited. -/
theorem ldmUp_frame (rn : Nat) : ∀ (count reg R : Nat) (st : BlockLocals),
    (blockTransferUp true false rn count reg R st).cpu.bus = st.cpu.bus ∧
    (blockTransferUp true false rn count reg R st).cpu.registers = st.cpu.registers ∧
    ∀ c, (∀ j, j < count → c ≠ st.cpu.registers (reg + j)) →
      (blockTransferUp true false rn count reg R st).cpu.cells c = st.cpu.cells c := by
  intro count
  induction count with
  | zero => intro reg R st; exact ⟨rfl, rfl, fun _ _ => rfl⟩
  | succ k ih =>
    intro reg R st
    simp only [blockTransferUp, and_one_ne_zero]
    cases hb : R.testBit 0
    · simp only [Bool.false_eq_true, if_false]
      obtain ⟨h1, h2, h3⟩ := ih (reg + 1) (R >>> 1) st
      refine ⟨h1, h2, ?_⟩
      intro c hc
      apply h3 c
      intro j hj
      have := hc (j + 1) (by omega)
      rwa [Nat.add_assoc, Nat.add_comm 1 j]
    · simp only [if_true]
      obtain ⟨h1, h2, h3⟩ := ih (reg + 1) (R >>> 1)
        { blockTransferRegister true false rn reg st with
          rnVal := ((blockTransferRegister true false rn reg st).rnVal + 4) % 2 ^ 32 }
      refine ⟨h1, h2, ?_⟩
      intro c hc
      rw [h3 c]
      · have := hc 0 (by omega)
        simp only [Nat.add_zero] at this
        simp [blockTransferRegister, setRegister, this]
      · intro j hj
        have := hc (j + 1) (by omega)
        rw [Nat.add_assoc, Nat.add_comm 1 j]
        exact this

/-- The up loop of an LDM loads the register at list position `j` from `rnVal`
plus four times the number of listed registers before it. -/
theorem ldmUp_target (rn : Nat) : ∀ (count reg R : Nat) (st : BlockLocals),
    ∀ j, j < count → R.testBit j = true →
      (∀ j2, j < j2 → j2 < count → st.cpu.registers (reg + j2) ≠ st.cpu.registers (reg + j)) →
      (blockTransferUp true false rn count reg R st).cpu.cells (st.cpu.registers (reg + j))
        = st.cpu.bus.read32 ((st.rnVal + 4 * countBits R 0 j) % 2 ^ 32) := by
  intro count
  induction count with
  | zero => intro reg R st j hj; omega
  | succ k ih =>
    intro reg R st j hj hbit hd
    cases j with
    | zero =>
      simp only [blockTransferUp, and_one_ne_zero, hbit, if_true, countBits]
      obtain ⟨_, _, h3⟩ := ldmUp_frame rn k (reg + 1) (R >>> 1)
        { blockTransferRegister true false rn reg st with
          rnVal := ((blockTransferRegister true false rn reg st).rnVal + 4) % 2 ^ 32 }
      rw [h3]
      · simp [blockTransferRegister, setRegister, read32_align]
      · intro j2 hj2
        have := hd (j2 + 1) (by omega) (by omega)
        rw [Nat.add_assoc, Nat.add_comm 1 j2]
        exact fun e => this e.symm
    | succ j2 =>
      have hbit2 : (R >>> 1).testBit j2 = true := by
        rw [Nat.testBit_shiftRight, Nat.add_comm]; exact hbit
      have hc : countBits R 0 (j2 + 1) = flagBit (R.testBit 0) + countBits (R >>> 1) 0 j2 := by
        rw [Nat.add_comm j2 1, countBits_add, countBits_shiftRight]
        simp [countBits]
      have e : reg + (j2 + 1) = reg + 1 + j2 := by omega
      have hd2 : ∀ j3, j2 < j3 → j3 < k →
          st.cpu.registers (reg + 1 + j3) ≠ st.cpu.registers (reg + 1 + j2) := by
        intro j3 h1 h2
        have := hd (j3 + 1) (by omega) (by omega)
        rw [e] at this
        have e3 : reg + (j3 + 1) = reg + 1 + j3 := by omega
        rw [e3] at this
        exact this
      simp only [blockTransferUp, and_one_ne_zero]
      cases hb : R.testBit 0
      · simp only [Bool.false_eq_true, if_false]
        have := ih (reg + 1) (R >>> 1) st j2 (by omega) hbit2 hd2
        rw [hc, hb, e, this]
        simp [flagBit]
      · simp only [if_true]
        have := ih (reg + 1) (R >>> 1)
          { blockTransferRegister true false rn reg st with
            rnVal := ((blockTransferRegister true false rn reg st).rnVal + 4) % 2 ^ 32 }
          j2 (by omega) hbit2 hd2
        rw [hc, hb, e]
        rw [show st.cpu.registers = (blockTransferRegister true false rn reg st).cpu.registers
          from rfl]
        rw [this]
        show st.cpu.bus.read32 _ = st.cpu.bus.read32 _
        congr 1
        simp only [blockTransferRegister, flagBit, if_true]
        omega

/-- Decrement of `rnVal` by 4 in 32-bit arithmetic. -/
theorem sub32_four (x : Nat) : sub32 x 4 = (x + 4294967292) % 4294967296 := by
  simp [sub32]

/-- Bits of the 16-bit `R << 1`. -/
theorem testBit_shiftLeft16 (R p : Nat) (h1 : 1 ≤ p) (h2 : p < 16) :
    ((R <<< 1) % 2 ^ 16).testBit p = R.testBit (p - 1) := by
  rw [Nat.testBit_mod_two_pow, Nat.testBit_shiftLeft]
  simp [h1, h2]

/-- The down loop of an STM changes no register cell and only bytes of the
words at `rnVal`, `rnVal - 4`, ..., one per remaining iteration. -/
theorem stmDown_frame (rn : Nat) : ∀ (k R : Nat) (st : BlockLocals), k ≤ 16 →
    (blockTransferDown false false rn k R st).cpu.cells = st.cpu.cells ∧
    (blockTransferDown false false rn k R st).cpu.registers = st.cpu.registers ∧
    ∀ x, (∀ j, j < k → x / 4 ≠ ((st.rnVal + (4294967296 - 4 * j)) % 2 ^ 32) / 4) →
      (blockTransferDown false false rn k R st).cpu.bus.mem x = st.cpu.bus.mem x := by
  intro k
  induction k with
  | zero => intro R st _; exact ⟨rfl, rfl, fun _ _ => rfl⟩
  | succ k ih =>
    intro R st hk
    simp only [blockTransferDown, and_bit15_ne_zero]
    cases hb : R.testBit 15
    · simp only [Bool.false_eq_true, if_false]
      obtain ⟨h1, h2, h3⟩ := ih ((R <<< 1) % 2 ^ 16) st (by omega)
      refine ⟨h1, h2, ?_⟩
      intro x hx
      exact h3 x (fun j hj => hx j (by omega))
    · simp only [if_true]
      obtain ⟨h1, h2, h3⟩ := ih ((R <<< 1) % 2 ^ 16)
        { blockTransferRegister false false rn k st with
          rnVal := sub32 (blockTransferRegister false false rn k st).rnVal 4 } (by omega)
      refine ⟨h1, h2, ?_⟩
      intro x hx
      rw [h3 x]
      · simp only [blockTransferRegister, Bool.false_eq_true, if_false]
        apply write32_mem_other
        · rw [and_align4]; omega
        · have := hx 0 (by omega)
          rw [and_align4]; omega
      · intro j hj
        have := hx (j + 1) (by omega)
        simp only [blockTransferRegister, Bool.false_eq_true, if_false, sub32_four]
        omega

/-- The down loop of an STM leaves the word of the `j`-th register from the top
at `rnVal` minus four times the number of listed registers above it. -/
theorem stmDown_target (rn : Nat) : ∀ (k R : Nat) (st : BlockLocals), k ≤ 16 →
    ∀ j, j < k → R.testBit (15 - j) = true →
      (blockTransferDown false false rn k R st).cpu.bus.read32
          ((st.rnVal + (4294967296 - 4 * countBits R (16 - j) j)) % 2 ^ 32)
        = storedWord st.cpu (k - 1 - j) := by
  intro k
  induction k with
  | zero => intro R st _ j hj; omega
  | succ k ih =>
    intro R st hk j hj hbit
    cases j with
    | zero =>
      simp only [Nat.sub_zero] at hbit
      simp only [blockTransferDown, and_bit15_ne_zero, hbit, if_true, countBits]
      obtain ⟨_, _, h3⟩ := stmDown_frame rn k ((R <<< 1) % 2 ^ 16)
        { blockTransferRegister false false rn k st with
          rnVal := sub32 (blockTransferRegister false false rn k st).rnVal 4 } (by omega)
      rw [read32_congr _ (blockTransferRegister false false rn k st).cpu.bus]
      · simp only [blockTransferRegister, Bool.false_eq_true, if_false]
        rw [read32_write32_same]
        · simp [storedWord]
        · rw [and_align4]; omega
      · intro x hx
        apply h3
        intro j hj2
        simp only [blockTransferRegister, Bool.false_eq_true, if_false, sub32_four]
        omega
    | succ j2 =>
      have hbit2 : ((R <<< 1) % 2 ^ 16).testBit (15 - j2) = true := by
        rw [testBit_shiftLeft16 R (15 - j2) (by omega) (by omega)]
        have : 15 - j2 - 1 = 15 - (j2 + 1) := by omega
        rw [this]; exact hbit
      have hc : countBits R (16 - (j2 + 1)) (j2 + 1)
          = countBits ((R <<< 1) % 2 ^ 16) (16 - j2) j2 + flagBit (R.testBit 15) := by
        have e1 : 16 - (j2 + 1) = 15 - j2 := by omega
        have e2 : 16 - j2 = 15 - j2 + 1 := by omega
        have e3 : 15 - j2 + j2 = 15 := by omega
        rw [e1, e2, countBits_shiftLeft16 R (15 - j2) j2 (by omega)]
        simp only [countBits, e3]
      have e : k + 1 - 1 - (j2 + 1) = k - 1 - j2 := by omega
      simp only [blockTransferDown, and_bit15_ne_zero]
      cases hb : R.testBit 15
      · simp only [Bool.false_eq_true, if_false]
        have := ih ((R <<< 1) % 2 ^ 16) st (by omega) j2 (by omega) hbit2
        rw [hc, hb, e, ← this]
        simp [flagBit]
      · simp only [if_true]
        have := ih ((R <<< 1) % 2 ^ 16)
          { blockTransferRegister false false rn k st with
            rnVal := sub32 (blockTransferRegister false false rn k st).rnVal 4 }
          (by omega) j2 (by omega) hbit2
        have hle := countBits_le ((R <<< 1) % 2 ^ 16) (16 - j2) j2
        have haddr : (st.rnVal + (4294967296
              - 4 * (countBits ((R <<< 1) % 2 ^ 16) (16 - j2) j2 + 1))) % 2 ^ 32
            = (sub32 st.rnVal 4
                + (4294967296 - 4 * countBits ((R <<< 1) % 2 ^ 16) (16 - j2) j2)) % 2 ^ 32 := by
          rw [sub32_four]; omega
        rw [hc, hb, e]
        simp only [flagBit, if_true]
        rw [haddr]
        exact this

/-- The down loop of an LDM leaves the bus and the register maps alone and
changes only cells of the registers still to be visited. -/
theorem ldmDown_frame (rn : Nat) : ∀ (k R : Nat) (st : BlockLocals),
    (blockTransferDown true false rn k R st).cpu.bus = st.cpu.bus ∧
    (blockTransferDown true false rn k R st).cpu.registers = st.cpu.registers ∧
    ∀ c, (∀ i, i < k → c ≠ st.cpu.registers i) →
      (blockTransferDown true false rn k R st).cpu.cells c = st.cpu.cells c := by
  intro k
  induction k with
  | zero => intro R st; exact ⟨rfl, rfl, fun _ _ => rfl⟩
  | succ k ih =>
    intro R st
    simp only [blockTransferDown, and_bit15_ne_zero]
    cases hb : R.testBit 15
    · simp only [Bool.false_eq_true, if_false]
      obtain ⟨h1, h2, h3⟩ := ih ((R <<< 1) % 2 ^ 16) st
      refine ⟨h1, h2, ?_⟩
      intro c hc
      exact h3 c (fun i hi => hc i (by omega))
    · simp only [if_true]
      obtain ⟨h1, h2, h3⟩ := ih ((R <<< 1) % 2 ^ 16)
        { blockTransferRegister true false rn k st with
          rnVal := sub32 (blockTransferRegister true false rn k st).rnVal 4 }
      refine ⟨h1, h2, ?_⟩
      intro c hc
      rw [h3 c]
      · have := hc k (by omega)
        simp [blockTransferRegister, setRegister, this]
      · intro i hi
        exact hc i (by omega)

/-- The down loop of an LDM loads the `j`-th register from the top from `rnVal`
minus four times the number of listed registers above it. -/
theorem ldmDown_target (rn : Nat) : ∀ (k R : Nat) (st : BlockLocals), k ≤ 16 →
    ∀ j, j < k → R.testBit (15 - j) = true →
      (∀ i, i < k - 1 - j → st.cpu.registers i ≠ st.cpu.registers (k - 1 - j)) →
      (blockTransferDown true false rn k R st).cpu.cells (st.cpu.registers (k - 1 - j))
        = st.cpu.bus.read32
            ((st.rnVal + (4294967296 - 4 * countBits R (16 - j) j)) % 2 ^ 32) := by
  intro k
  induction k with
  | zero => intro R st _ j hj; omega
  | succ k ih =>
    intro R st hk j hj hbit hd
    cases j with
    | zero =>
      simp only [Nat.sub_zero] at hbit
      simp only [blockTransferDown, and_bit15_ne_zero, hbit, if_true, countBits]
      obtain ⟨_, _, h3⟩ := ldmDown_frame rn k ((R <<< 1) % 2 ^ 16)
        { blockTransferRegister true false rn k st with
          rnVal := sub32 (blockTransferRegister true false rn k st).rnVal 4 }
      rw [h3]
      · simp [blockTransferRegister, setRegister, read32_align]
      · intro i hi
        have := hd i (by omega)
        simp only [Nat.add_sub_cancel, Nat.sub_zero] at this ⊢
        exact fun e => this e.symm
    | succ j2 =>
      have hbit2 : ((R <<< 1) % 2 ^ 16).testBit (15 - j2) = true := by
        rw [testBit_shiftLeft16 R (15 - j2) (by omega) (by omega)]
        have : 15 - j2 - 1 = 15 - (j2 + 1) := by omega
        rw [this]; exact hbit
      have hc : countBits R (16 - (j2 + 1)) (j2 + 1)
          = countBits ((R <<< 1) % 2 ^ 16) (16 - j2) j2 + flagBit (R.testBit 15) := by
        have e1 : 16 - (j2 + 1) = 15 - j2 := by omega
        have e2 : 16 - j2 = 15 - j2 + 1 := by omega
        have e3 : 15 - j2 + j2 = 15 := by omega
        rw [e1, e2, countBits_shiftLeft16 R (15 - j2) j2 (by omega)]
        simp only [countBits, e3]
      have e : k + 1 - 1 - (j2 + 1) = k - 1 - j2 := by omega
      rw [e] at hd ⊢
      have hle := countBits_le ((R <<< 1) % 2 ^ 16) (16 - j2) j2
      simp only [blockTransferDown, and_bit15_ne_zero]
      cases hb : R.testBit 15
      · simp only [Bool.false_eq_true, if_false]
        have := ih ((R <<< 1) % 2 ^ 16) st (by omega) j2 (by omega) hbit2 hd
        rw [hc, hb, this]
        simp [flagBit]
      · simp only [if_true]
        have := ih ((R <<< 1) % 2 ^ 16)
          { blockTransferRegister true false rn k st with
            rnVal := sub32 (blockTransferRegister true false rn k st).rnVal 4 }
          (by omega) j2 (by omega) hbit2 hd
        have haddr : (st.rnVal + (4294967296
              - 4 * (countBits ((R <<< 1) % 2 ^ 16) (16 - j2) j2 + 1))) % 2 ^ 32
            = (sub32 st.rnVal 4
                + (4294967296 - 4 * countBits ((R <<< 1) % 2 ^ 16) (16 - j2) j2)) % 2 ^ 32 := by
          rw [sub32_four]; omega
        rw [hc, hb]
        simp only [flagBit, if_true]
        rw [haddr]
        exact this

/-! ### Block data transfer: register order and addresses (C2) -/

/-- The listed registers are those below `reg`, `reg` itself and those above. -/
theorem countBits_split (R reg : Nat) (h : reg < 16) (hbit : R.testBit reg = true) :
    countBits R 0 16 = countBits R 0 reg + 1 + countBits R (reg + 1) (15 - reg) := by
  have e1 : (16 : Nat) = reg + (1 + (15 - reg)) := by omega
  have e2 : countBits R reg 1 = 1 := by simp [countBits, hbit, flagBit]
  rw [e1, countBits_add, Nat.zero_add, countBits_add, e2]
  omega

/-- C2: for every register list, base and addressing mode (P, U) with S = 0,
the loops of `blockDataTransHandler` transfer the listed register with `i`
listed registers below it at word `i` of the block that starts at `base` (IA),
`base + 4` (IB), `base - 4 (n - 1)` (DA) or `base - 4 n` (DB): after the loops
an STM has stored the register there and an LDM has loaded it from there, and
`i < n`. Without writeback the handler returns the state the loops leave. -/
theorem blockTransfer_ascending_order (instruction : Nat) (cpu : ARM7TDMI)
    (hbits : instruction &&& 0x0E000000 = 0x08000000)
    (hrn : getRn instruction ≠ 15)
    (hs : dataTransGetB instruction = false) :
    (dataTransGetW instruction = false →
      blockDataTransHandler instruction cpu = some (blockAfterLoops instruction cpu).cpu) ∧
    ∀ reg, reg < 16 → (instruction % 2 ^ 16).testBit reg = true →
      countBits (instruction % 2 ^ 16) 0 reg < countBits (instruction % 2 ^ 16) 0 16 ∧
      (dataTransGetL instruction = false →
        (blockAfterLoops instruction cpu).cpu.bus.read32 (blockAddress instruction cpu reg)
          = storedWord cpu reg) ∧
      (dataTransGetL instruction = true → RegistersDistinct cpu →
        (blockAfterLoops instruction cpu).cpu.getRegister reg
          = cpu.bus.read32 (blockAddress instruction cpu reg)) := by
  refine ⟨?_, ?_⟩
  · intro hw
    simp [blockDataTransHandler, blockAfterLoops, assert, hbits, hrn, hs, hw]
  · intro reg hreg hbit
    have hsplit := countBits_split (instruction % 2 ^ 16) reg hreg hbit
    have hle := countBits_le (instruction % 2 ^ 16) (reg + 1) (15 - reg)
    have hle2 := countBits_le (instruction % 2 ^ 16) 0 reg
    have hj : 15 - (15 - reg) = reg := by omega
    have hj2 : 16 - (15 - reg) = reg + 1 := by omega
    have hj3 : 16 - 1 - (15 - reg) = reg := by omega
    refine ⟨by omega, ?_, ?_⟩
    · intro hl
      simp only [blockAfterLoops, blockAddress, blockTransferLoops, hl, hs, blockStart]
      cases hu : dataTransGetU instruction <;> cases hp : dataTransGetP instruction
      · -- DA
        simp only [Bool.false_eq_true, if_false]
        have := stmDown_target (getRn instruction) 16 (instruction % 2 ^ 16)
          { rnVal := cpu.getRegister (getRn instruction), addressRnStoredAt := 0, cpu := cpu }
          (by omega) (15 - reg) (by omega) (by rw [hj]; exact hbit)
        rw [hj2, hj3] at this
        dsimp only at this
        have haddr : (sub32 (cpu.getRegister (getRn instruction))
              (4 * (countBits (instruction % 2 ^ 16) 0 16 - 1))
              + 4 * countBits (instruction % 2 ^ 16) 0 reg) % 2 ^ 32
            = (cpu.getRegister (getRn instruction) + (4294967296
                - 4 * countBits (instruction % 2 ^ 16) (reg + 1) (15 - reg))) % 2 ^ 32 := by
          simp only [sub32]; omega
        rw [haddr]
        exact this
      · -- DB
        simp only [Bool.false_eq_true, if_false, if_true]
        have := stmDown_target (getRn instruction) 16 (instruction % 2 ^ 16)
          { rnVal := sub32 (cpu.getRegister (getRn instruction)) 4, addressRnStoredAt := 0,
            cpu := cpu }
          (by omega) (15 - reg) (by omega) (by rw [hj]; exact hbit)
        rw [hj2, hj3] at this
        dsimp only at this
        have haddr : (sub32 (cpu.getRegister (getRn instruction))
              (4 * countBits (instruction % 2 ^ 16) 0 16)
              + 4 * countBits (instruction % 2 ^ 16) 0 reg) % 2 ^ 32
            = (sub32 (cpu.getRegister (getRn instruction)) 4 + (4294967296
                - 4 * countBits (instruction % 2 ^ 16) (reg + 1) (15 - reg))) % 2 ^ 32 := by
          simp only [sub32]; omega
        rw [haddr]
        exact this
      · -- IA
        simp only [Bool.false_eq_true, if_false, if_true]
        have := stmUp_target (getRn instruction) 16 0 (instruction % 2 ^ 16)
          { rnVal := cpu.getRegister (getRn instruction), addressRnStoredAt := 0, cpu := cpu }
          (by omega) reg hreg hbit
        rw [Nat.zero_add] at this
        dsimp only at this
        have haddr : (cpu.getRegister (getRn instruction) % 2 ^ 32
              + 4 * countBits (instruction % 2 ^ 16) 0 reg) % 2 ^ 32
            = (cpu.getRegister (getRn instruction)
              + 4 * countBits (instruction % 2 ^ 16) 0 reg) % 2 ^ 32 := by
          omega
        rw [haddr]
        exact this
      · -- IB
        simp only [if_true]
        have := stmUp_target (getRn instruction) 16 0 (instruction % 2 ^ 16)
          { rnVal := (cpu.getRegister (getRn instruction) + 4) % 2 ^ 32, addressRnStoredAt := 0,
            cpu := cpu }
          (by omega) reg hreg hbit
        rw [Nat.zero_add] at this
        exact this
    · intro hl hdist
      have hget : ∀ (c : ARM7TDMI) (v : Nat), c.registers = cpu.registers →
          c.cells (cpu.registers reg) = v → c.getRegister reg = v := by
        intro c v hr hc
        simp [getRegister, hr, hc]
      simp only [blockAfterLoops, blockAddress, blockTransferLoops, hl, hs, blockStart]
      cases hu : dataTransGetU instruction <;> cases hp : dataTransGetP instruction
      · -- DA
        simp only [Bool.false_eq_true, if_false]
        have := ldmDown_target (getRn instruction) 16 (instruction % 2 ^ 16)
          { rnVal := cpu.getRegister (getRn instruction), addressRnStoredAt := 0, cpu := cpu }
          (by omega) (15 - reg) (by omega) (by rw [hj]; exact hbit)
          (by
            rw [hj3]
            intro i hi e
            have := hdist i reg (by omega) hreg e
            omega)
        rw [hj2, hj3] at this
        dsimp only at this
        have haddr : (sub32 (cpu.getRegister (getRn instruction))
              (4 * (countBits (instruction % 2 ^ 16) 0 16 - 1))
              + 4 * countBits (instruction % 2 ^ 16) 0 reg) % 2 ^ 32
            = (cpu.getRegister (getRn instruction) + (4294967296
                - 4 * countBits (instruction % 2 ^ 16) (reg + 1) (15 - reg))) % 2 ^ 32 := by
          simp only [sub32]; omega
        rw [haddr]
        exact hget _ _ (ldmDown_frame _ _ _ _).2.1 this
      · -- DB
        simp only [Bool.false_eq_true, if_false, if_true]
        have := ldmDown_target (getRn instruction) 16 (instruction % 2 ^ 16)
          { rnVal := sub32 (cpu.getRegister (getRn instruction)) 4, addressRnStoredAt := 0,
            cpu := cpu }
          (by omega) (15 - reg) (by omega) (by rw [hj]; exact hbit)
          (by
            rw [hj3]
            intro i hi e
            have := hdist i reg (by omega) hreg e
            omega)
        rw [hj2, hj3] at this
        dsimp only at this
        have haddr : (sub32 (cpu.getRegister (getRn instruction))
              (4 * countBits (instruction % 2 ^ 16) 0 16)
              + 4 * countBits (instruction % 2 ^ 16) 0 reg) % 2 ^ 32
            = (sub32 (cpu.getRegister (getRn instruction)) 4 + (4294967296
                - 4 * countBits (instruction % 2 ^ 16) (reg + 1) (15 - reg))) % 2 ^ 32 := by
          simp only [sub32]; omega
        rw [haddr]
        exact hget _ _ (ldmDown_frame _ _ _ _).2.1 this
      · -- IA
        simp only [Bool.false_eq_true, if_false, if_true]
        have := ldmUp_target (getRn instruction) 16 0 (instruction % 2 ^ 16)
          { rnVal := cpu.getRegister (getRn instruction), addressRnStoredAt := 0, cpu := cpu }
          reg hreg hbit
          (by
            intro j2 h1 h2 e
            simp only [Nat.zero_add] at e
            have := hdist j2 reg h2 hreg e
            omega)
        rw [Nat.zero_add] at this
        dsimp only at this
        have haddr : (cpu.getRegister (getRn instruction) % 2 ^ 32
              + 4 * countBits (instruction % 2 ^ 16) 0 reg) % 2 ^ 32
            = (cpu.getRegister (getRn instruction)
              + 4 * countBits (instruction % 2 ^ 16) 0 reg) % 2 ^ 32 := by
          omega
        rw [haddr]
        exact hget _ _ (ldmUp_frame _ _ _ _ _).2.1 this
      · -- IB
        simp only [if_true]
        have := ldmUp_target (getRn instruction) 16 0 (instruction % 2 ^ 16)
          { rnVal := (cpu.getRegister (getRn instruction) + 4) % 2 ^ 32, addressRnStoredAt := 0,
            cpu := cpu }
          reg hreg hbit
          (by
            intro j2 h1 h2 e
            simp only [Nat.zero_add] at e
            have := hdist j2 reg h2 hreg e
            omega)
        rw [Nat.zero_add] at this
        exact hget _ _ (ldmUp_frame _ _ _ _ _).2.1 this

/-- Instances of `blockTransfer_ascending_order`: `STMDB sp, {r0, r1, lr}`
(word `0xE90D4003`, no writeback) with `sp = 0x03007F00` and `lr = 3` completes
and stores `lr`, the third listed register, in the third word of the block, at
`0x03007EFC`; `LDMIA r0, {r1, r2}` (word `0xE8900006`) with `r0 = 0x03000000`
loads `r2`, the second listed register, from the second word, `0x03000004`. -/
theorem blockTransfer_ascending_order_witness :
    0xE90D4003 &&& 0x0E000000 = 0x08000000 ∧
    getRn 0xE90D4003 ≠ 15 ∧
    dataTransGetB 0xE90D4003 = false ∧
    blockAddress 0xE90D4003 stmdbScenario 14 = 0x03007EFC ∧
    (blockDataTransHandler 0xE90D4003 stmdbScenario).map
      (fun cpu => cpu.bus.read32 0x03007EFC) = some 3 ∧
    RegistersDistinct ldmiaScenario ∧
    blockAddress 0xE8900006 ldmiaScenario 2 = 0x03000004 ∧
    (blockDataTransHandler 0xE8900006 ldmiaScenario).map
      (fun cpu => cpu.getRegister 2) = some 0x22 := by
  have h := blockTransfer_ascending_order 0xE90D4003 stmdbScenario
    (by decide) (by decide) (by decide)
  have h1 := h.1 (by decide)
  have h2 := (h.2 14 (by omega) (by decide)).2.1 (by decide)
  have ha : blockAddress 0xE90D4003 stmdbScenario 14 = 0x03007EFC := by decide!
  have hv : storedWord stmdbScenario 14 = 3 := by decide!
  rw [ha, hv] at h2
  have hd : RegistersDistinct ldmiaScenario := fun i j _ _ e => e
  have g := blockTransfer_ascending_order 0xE8900006 ldmiaScenario
    (by decide) (by decide) (by decide)
  have g1 := g.1 (by decide)
  have g2 := (g.2 2 (by omega) (by decide)).2.2 (by decide) hd
  have ga : blockAddress 0xE8900006 ldmiaScenario 2 = 0x03000004 := by decide!
  have gv : ldmiaScenario.bus.read32 0x03000004 = 0x22 := by decide!
  rw [ga, gv] at g2
  refine ⟨by decide, by decide, by decide, ha, ?_, hd, ga, ?_⟩
  · rw [h1]
    simp [h2]
  · rw [g1]
    simp [g2]

/-! ### Data processing: first operand -/

/-- C17 (failing input): `ADD r0, pc, #0` (word `0xE28F0000`) with
`r15 = 0x08000008` at handler entry. The biased first operand `rnValue` is
`r15 + 8 = 0x08000010`, but the `switch` adds operand 2 to the unbiased `rnVal`
and leaves `r0 = 0x08000008`. -/
theorem add_from_pc_ignores_bias :
    addPcScenario.getRegister 15 = 0x08000008 ∧
    getRn 0xE28F0000 = PC_REGISTER ∧
    (addPcScenario.aluShift 0xE28F0000 true false).map (fun r => r.op2) = some 0 ∧
    (dataProcHandler 0xE28F0000 addPcScenario).map (fun cpu => cpu.getRegister 0)
      = some 0x08000008 := by
  refine ⟨by decide!, by decide!, by decide!, by decide!⟩

/-! ### PSR transfer -/

/-- C20 (failing input): `MRS r0, CPSR` (word `0xE10F0000`, bit 22 = 0) in a
state whose CPSR packs to `0x40000012` and whose current-mode SPSR packs to
`0x80000010`: the handler writes the SPSR into `r0`; `MRS r0, SPSR` (word
`0xE14F0000`, bit 22 = 1) writes the CPSR. Likewise `MSR CPSR_fc, r1` (word
`0xE129F001`, bit 22 = 0) hands the pointer to the current-mode SPSR to
`transferToPsr`, and `MSR SPSR_fc, r1` (word `0xE169F001`) the CPSR. -/
theorem psr_select_bit_inverted :
    psrToInt mrsScenario.cpsr = 0x40000012 ∧
    psrToInt mrsScenario.getCurrentModeSpsr = 0x80000010 ∧
    (∀ f, (psrHandler f 0xE10F0000 mrsScenario).map (fun cpu => cpu.getRegister 0)
      = some 0x80000010) ∧
    (∀ f, (psrHandler f 0xE14F0000 mrsScenario).map (fun cpu => cpu.getRegister 0)
      = some 0x40000012) ∧
    (∀ f cpu, psrHandler f 0xE129F001 cpu
      = some (f (cpu.getRegister 1) 9 cpu.currentSpsr cpu)) ∧
    (∀ f cpu, psrHandler f 0xE169F001 cpu
      = some (f (cpu.getRegister 1) 9 PsrRef.cpsr cpu)) := by
  refine ⟨by decide!, by decide!, fun _ => rfl, fun _ => rfl, fun _ _ => rfl, fun _ _ => rfl⟩


/-! ### Barrel shifter: the remaining corner cases -/

/-- A contiguous mask keeps the masked bit field in place. -/
theorem and_mask (x k n : Nat) :
    x &&& (2 ^ k * (2 ^ n - 1)) = x % 2 ^ (k + n) / 2 ^ k * 2 ^ k := by
  apply Nat.eq_of_testBit_eq
  intro i
  have e2 : x % 2 ^ (k + n) / 2 ^ k * 2 ^ k = 2 ^ k * ((x % 2 ^ (k + n)) >>> k) := by
    rw [Nat.shiftRight_eq_div_pow]; ring
  rw [Nat.testBit_and, e2, Nat.testBit_mul_pow_two, Nat.testBit_mul_pow_two,
    Nat.testBit_two_pow_sub_one, Nat.testBit_shiftRight, Nat.testBit_mod_two_pow]
  by_cases h : k ≤ i
  · have h2 : k + (i - k) = i := by omega
    rw [h2]
    by_cases h3 : i < k + n
    · have h4 : i - k < n := by omega
      simp [h, h3, h4]
    · have h4 : ¬ (i - k < n) := by omega
      simp [h, h3, h4]
  · simp [h]

/-- Bit 31 of a 32-bit value is the value shifted right by 31. -/
theorem shiftRight_31 (x : Nat) (h : x < 2 ^ 32) : x >>> 31 = flagBit (x.testBit 31) := by
  rw [Nat.testBit_to_div_mod, Nat.shiftRight_eq_div_pow]
  have : x / 2 ^ 31 < 2 := by omega
  unfold flagBit
  split <;> simp_all <;> omega

/-- The 5-bit immediate shift amount is at most 31. -/
theorem shiftAmount_le (instruction : Nat) : (instruction &&& 0x00000F80) >>> 7 ≤ 31 := by
  have h : instruction &&& 0x00000F80 ≤ 0x00000F80 := Nat.and_le_right
  rw [Nat.shiftRight_eq_div_pow]
  omega

/-- C11: LSR of the `Rm` value `x`. Immediate form with amount field 0
(LSR #32): value 0 and carry-out bit 31 of `x`. Register amount `n = 32`:
value 0 and carry-out bit 31 of `x`; register amount `33 ≤ n ≤ 255`: value 0
and carry-out 0. Any amount `1 ≤ n ≤ 31`, immediate or from a register: value
`x >> n` and carry-out bit `n - 1` of `x`. -/
theorem aluShift_lsr (cpu : ARM7TDMI) (instruction : Nat)
    (htype : (instruction &&& 0x00000060) >>> 5 = 1) :
    ((instruction &&& 0x00000F80) >>> 7 = 0 → shifterRmByImmediate cpu instruction < 2 ^ 32 →
      cpu.aluShift instruction false false
        = some { op2 := 0,
                 carry := flagBit ((shifterRmByImmediate cpu instruction).testBit 31) }) ∧
    (∀ n, n = (instruction &&& 0x00000F80) >>> 7 → 1 ≤ n →
      n ≤ 31 ∧
      cpu.aluShift instruction false false
        = some { op2 := shifterRmByImmediate cpu instruction >>> n,
                 carry := flagBit ((shifterRmByImmediate cpu instruction).testBit (n - 1)) }) ∧
    ((instruction &&& 0x00000F00) >>> 8 ≠ 15 →
      ∀ n, n = cpu.getRegister ((instruction &&& 0x00000F00) >>> 8) &&& 0x000000FF →
        n ≤ 255 ∧
        (1 ≤ n ∧ n ≤ 31 →
          cpu.aluShift instruction false true
            = some { op2 := shifterRmByRegister cpu instruction >>> n,
                     carry := flagBit ((shifterRmByRegister cpu instruction).testBit (n - 1)) }) ∧
        (n = 32 →
          cpu.aluShift instruction false true
            = some { op2 := 0,
                     carry := flagBit ((shifterRmByRegister cpu instruction).testBit 31) }) ∧
        (33 ≤ n →
          cpu.aluShift instruction false true = some { op2 := 0, carry := 0 })) := by
  refine ⟨?_, ?_, ?_⟩
  · intro h0 hx
    rw [← shiftRight_31 _ hx]
    simp only [aluShift, htype, h0, shifterRmByImmediate]
    simp [PC_REGISTER]
  · intro n hn h1
    have hle : n ≤ 31 := by rw [hn]; exact shiftAmount_le instruction
    refine ⟨hle, ?_⟩
    have hne : ¬ ((instruction &&& 0x00000F80) >>> 7 = 0) := by rw [← hn]; omega
    have h3 : ¬ n > 32 := by omega
    have h4 : ¬ n ≥ 32 := by omega
    rw [← shiftRight_and_one]
    simp only [aluShift, htype, shifterRmByImmediate, ← hn]
    simp [PC_REGISTER, hn, hne, aluShiftLsr]
    rw [← hn]
    simp [h3, h4]
  · intro hrs n hn
    have hle : n ≤ 255 := by rw [hn]; exact Nat.and_le_right
    have key : n ≠ 0 →
        cpu.aluShift instruction false true
          = some { op2 := aluShiftLsr (shifterRmByRegister cpu instruction) n,
                   carry := if n > 32 then 0
                            else (shifterRmByRegister cpu instruction >>> (n - 1)) &&& 1 } := by
      intro hm0
      have hm0' : (cpu.getRegister ((instruction &&& 0x00000F00) >>> 8) &&& 0x000000FF) ≠ 0 := by
        rw [← hn]; exact hm0
      simp only [aluShift, htype, shifterRmByRegister, ← hn, assert]
      simp [hrs, hm0, hm0', PC_REGISTER, hn]
    refine ⟨hle, ?_, ?_, ?_⟩
    · rintro ⟨h1, h2⟩
      rw [key (by omega)]
      have h3 : ¬ n > 32 := by omega
      have h4 : ¬ n ≥ 32 := by omega
      simp only [aluShiftLsr, h3, h4, if_false, shiftRight_and_one]
    · intro h
      subst h
      rw [key (by omega)]
      have h3 : ¬ (32 > 32) := by omega
      have h4 : (32 : Nat) ≥ 32 := by omega
      simp only [aluShiftLsr, h3, h4, if_false, if_true, shiftRight_and_one]
    · intro h
      rw [key (by omega)]
      have h3 : n > 32 := by omega
      have h4 : n ≥ 32 := by omega
      simp only [aluShiftLsr, h3, h4, if_true]

/-- Instance of `aluShift_lsr`: `MOVS r1, r2, LSR #32` (word `0xE1B01022`,
amount field 0) with `r2 = 0x80000001` yields operand 0 and carry-out 1. -/
theorem aluShift_lsr_witness :
    (0xE1B01022 &&& 0x00000060) >>> 5 = 1 ∧
    (0xE1B01022 &&& 0x00000F80) >>> 7 = 0 ∧
    shifterRmByImmediate movsScenario 0xE1B01022 = 0x80000001 ∧
    movsScenario.aluShift 0xE1B01022 false false = some { op2 := 0, carry := 1 } := by
  have hx : shifterRmByImmediate movsScenario 0xE1B01022 = 0x80000001 := by decide!
  have h := (aluShift_lsr movsScenario 0xE1B01022 (by decide)).1 (by decide)
    (by rw [hx]; decide)
  rw [hx] at h
  refine ⟨by decide, by decide, hx, ?_⟩
  rw [h]
  decide

/-- C13: ROR in the immediate form with amount field 0 (RRX) of the `Rm`
value `x` with carry flag `c`: value `(x >> 1) | (c << 31)` and carry-out
bit 0 of `x`. -/
theorem aluShift_rrx (cpu : ARM7TDMI) (instruction : Nat)
    (htype : (instruction &&& 0x00000060) >>> 5 = 3)
    (hamount : (instruction &&& 0x00000F80) >>> 7 = 0) :
    cpu.aluShift instruction false false
      = some { op2 := (shifterRmByImmediate cpu instruction >>> 1)
                        ||| (flagBit cpu.cpsr.C <<< 31),
               carry := flagBit ((shifterRmByImmediate cpu instruction).testBit 0) } := by
  have h := shiftRight_and_one (shifterRmByImmediate cpu instruction) 0
  rw [Nat.shiftRight_zero] at h
  rw [← h]
  simp only [aluShift, htype, hamount, shifterRmByImmediate]
  simp [PC_REGISTER]

/-- Instance of `aluShift_rrx`: `MOV r1, r2, RRX` (word `0xE1A01062`) with
`r2 = 0x80000001` and C clear yields `0x40000000` and carry-out 1. -/
theorem aluShift_rrx_witness :
    (0xE1A01062 &&& 0x00000060) >>> 5 = 3 ∧
    (0xE1A01062 &&& 0x00000F80) >>> 7 = 0 ∧
    movsScenario.aluShift 0xE1A01062 false false
      = some { op2 := 0x40000000, carry := 1 } := by
  have h := aluShift_rrx movsScenario 0xE1A01062 (by decide) (by decide)
  refine ⟨by decide, by decide, ?_⟩
  rw [h]
  decide!

/-- The rotate field, read with a shift by 7, is twice the 4-bit field. -/
theorem rotate_field_double (instruction : Nat) :
    (instruction &&& 0x00000F00) >>> 7 = 2 * ((instruction &&& 0x00000F00) >>> 8) ∧
    (instruction &&& 0x00000F00) >>> 8 ≤ 15 := by
  have h := and_mask instruction 8 4
  norm_num at h
  rw [h, Nat.shiftRight_eq_div_pow, Nat.shiftRight_eq_div_pow]
  omega

/-- Bit 31 of an 8-bit value rotated right by `s` (0 < s < 32) is bit `s - 1`
of the value. -/
theorem ror_testBit_31 (imm s : Nat) (himm : imm < 256) (h0 : 0 < s) (h1 : s < 32) :
    (aluShiftRor imm s).testBit 31 = imm.testBit (s - 1) := by
  unfold aluShiftRor
  have hs : s % 32 = s := Nat.mod_eq_of_lt h1
  rw [hs, Nat.testBit_mod_two_pow, Nat.testBit_or, Nat.testBit_shiftRight,
    Nat.testBit_shiftLeft]
  have hz : imm.testBit (s + 31) = false := by
    apply Nat.testBit_lt_two_pow
    calc imm < 256 := himm
      _ = 2 ^ 8 := by norm_num
      _ ≤ 2 ^ (s + 31) := Nat.pow_le_pow_right (by omega) (by omega)
  have e : 31 - (32 - s) = s - 1 := by omega
  have hge : 31 ≥ 32 - s := by omega
  simp [hz, e, hge]

/-- C16: immediate operand form (`i = true`) with 8-bit immediate `imm` and
rotate field `rot`: the value is `imm` rotated right by `2 * rot`; the
carry-out is `CPSR.C` when `rot = 0` and bit 31 of the returned value when
`rot ≠ 0`. -/
theorem aluShift_immediate (cpu : ARM7TDMI) (instruction : Nat) (r : Bool) :
    cpu.aluShift instruction true r
      = some { op2 := aluShiftRor (instruction &&& 0x000000FF)
                        (2 * ((instruction &&& 0x00000F00) >>> 8)),
               carry :=
                 if (instruction &&& 0x00000F00) >>> 8 = 0 then flagBit cpu.cpsr.C
                 else flagBit ((aluShiftRor (instruction &&& 0x000000FF)
                        (2 * ((instruction &&& 0x00000F00) >>> 8))).testBit 31) } := by
  obtain ⟨hd, hle⟩ := rotate_field_double instruction
  have himm : instruction &&& 0x000000FF < 256 := by
    have : instruction &&& 0x000000FF ≤ 0x000000FF := Nat.and_le_right
    omega
  have hror : ∀ v s, aluShiftRor v (s % 32) = aluShiftRor v s := by
    intro v s
    simp [aluShiftRor]
  simp only [aluShift, if_true, hror, hd]
  by_cases h0 : (instruction &&& 0x00000F00) >>> 8 = 0
  · simp [h0]
  · have hpos : 2 * ((instruction &&& 0x00000F00) >>> 8) > 0 := by omega
    rw [ror_testBit_31 _ _ himm (by omega) (by omega), ← shiftRight_and_one]
    simp [h0, hpos]

/-- With a register-specified amount the shifter reads the state through the
`Rm` operand, the low byte of `Rs` and the carry flag only. -/
theorem aluShift_register_form (cpu : ARM7TDMI) (instruction : Nat)
    (hrs : (instruction &&& 0x00000F00) >>> 8 ≠ 15) :
    cpu.aluShift instruction false true
      = some (registerShiftedOperand instruction (shifterRmByRegister cpu instruction)
          (cpu.getRegister ((instruction &&& 0x00000F00) >>> 8) &&& 0x000000FF) cpu.cpsr.C) := by
  simp only [aluShift, shifterRmByRegister, registerShiftedOperand, assert]
  by_cases h0 : cpu.getRegister ((instruction &&& 0x00000F00) >>> 8) &&& 0x000000FF = 0
  · simp [hrs, h0, PC_REGISTER]
  · by_cases t0 : (instruction &&& 0x00000060) >>> 5 = 0
    · simp [hrs, h0, PC_REGISTER, t0]
    · by_cases t1 : (instruction &&& 0x00000060) >>> 5 = 1
      · simp [hrs, h0, PC_REGISTER, t1]
      · by_cases t2 : (instruction &&& 0x00000060) >>> 5 = 2
        · simp [hrs, h0, PC_REGISTER, t2]
        · simp [hrs, h0, PC_REGISTER, t0, t1, t2]

/-- C15: in the register-shifted-register form the shifter depends on `Rs`
only through its low byte: two states with the same `Rm` operand, the same
carry flag and the same low byte of `Rs` give the same value and carry-out,
whatever bits 31:8 of `Rs` are; and when the low byte is 0 the value is `Rm`
unchanged and the carry-out is `CPSR.C`, for all four shift types. -/
theorem aluShift_register_amount_low_byte (cpu : ARM7TDMI) (instruction : Nat)
    (hrs : (instruction &&& 0x00000F00) >>> 8 ≠ 15) :
    (∀ cpu2 : ARM7TDMI,
      shifterRmByRegister cpu2 instruction = shifterRmByRegister cpu instruction →
      cpu2.cpsr.C = cpu.cpsr.C →
      cpu2.getRegister ((instruction &&& 0x00000F00) >>> 8) &&& 0x000000FF
        = cpu.getRegister ((instruction &&& 0x00000F00) >>> 8) &&& 0x000000FF →
      cpu2.aluShift instruction false true = cpu.aluShift instruction false true) ∧
    (cpu.getRegister ((instruction &&& 0x00000F00) >>> 8) &&& 0x000000FF = 0 →
      cpu.aluShift instruction false true
        = some { op2 := shifterRmByRegister cpu instruction, carry := flagBit cpu.cpsr.C }) := by
  refine ⟨?_, ?_⟩
  · intro cpu2 hrm hc hlow
    rw [aluShift_register_form cpu2 instruction hrs, aluShift_register_form cpu instruction hrs,
      hrm, hc, hlow]
  · intro h0
    rw [aluShift_register_form cpu instruction hrs, h0]
    simp [registerShiftedOperand]

/-- Instance of `aluShift_register_amount_low_byte`: for `MOV r1, r2, LSL r3`
(word `0xE1A01312`) the states with `r3 = 1` and `r3 = 0x101` give the same
result, and with `r3 = 0x100` the value is `r2` unchanged and the carry-out is
the (clear) carry flag. -/
theorem aluShift_register_amount_low_byte_witness :
    (0xE1A01312 &&& 0x00000F00) >>> 8 ≠ 15 ∧
    lslScenario.getRegister 3 = 1 ∧ lslHighScenario.getRegister 3 = 0x101 ∧
    lslHighScenario.aluShift 0xE1A01312 false true
      = lslScenario.aluShift 0xE1A01312 false true ∧
    lslZeroScenario.getRegister 3 = 0x100 ∧
    lslZeroScenario.aluShift 0xE1A01312 false true
      = some { op2 := 0x80000001, carry := 0 } := by
  have h1 := (aluShift_register_amount_low_byte lslScenario 0xE1A01312 (by decide)).1
    lslHighScenario (by decide!) (by decide!) (by decide!)
  have h2 := (aluShift_register_amount_low_byte lslZeroScenario 0xE1A01312 (by decide)).2
    (by decide!)
  refine ⟨by decide, by decide!, by decide!, h1, by decide!, ?_⟩
  rw [h2]
  decide!

/-! ### Multiply -/

/-- A 64-bit value is its high word times `2 ^ 32` plus its low word. -/
theorem hi_lo_recombine (L : Nat) (h : L < 2 ^ 64) :
    (L >>> 32) % 2 ^ 32 * 2 ^ 32 + L % 2 ^ 32 = L ∧
    (L >>> 32) % 2 ^ 32 < 2 ^ 32 ∧ L % 2 ^ 32 < 2 ^ 32 := by
  rw [Nat.shiftRight_eq_div_pow]
  omega

/-- The accumulator `(hi << 32) | lo` of two 32-bit words. -/
theorem accumulator_eq (hi lo : Nat) (hhi : hi < 2 ^ 32) (hlo : lo < 2 ^ 32) :
    ((hi <<< 32) % 2 ^ 64) ||| lo = hi * 2 ^ 32 + lo := by
  rw [Nat.shiftLeft_eq, Nat.mod_eq_of_lt (by omega), Nat.mul_comm,
    ← Nat.mul_add_lt_is_or hlo]

/-- The encoding of an `int64_t` value is a 64-bit word. -/
theorem ofSigned64_lt (z : Int) : ofSigned64 z < 2 ^ 64 := by
  unfold ofSigned64
  have h1 : 0 ≤ z % 2 ^ 64 := Int.emod_nonneg _ (by norm_num)
  have h2 : z % 2 ^ 64 < 2 ^ 64 := Int.emod_lt_of_pos _ (by norm_num)
  omega

/-- Reading a 64-bit word as `int64_t` does not change it modulo `2 ^ 64`. -/
theorem add_toSigned64_emod (p : Int) (acc : Nat) (h : acc < 2 ^ 64) :
    (p + toSigned64 acc) % 2 ^ 64 = (p + (acc : Int)) % 2 ^ 64 := by
  unfold toSigned64
  rw [Nat.mod_eq_of_lt h]
  split
  · rfl
  · omega

/-- The long multiplies run to completion and leave `afterLongMultiply`. -/
theorem multiplyHandler_long_run (instruction uninit : Nat) (cpu : ARM7TDMI)
    (hbits : instruction &&& 0x000000F0 = 0x00000090)
    (hop : 4 ≤ getOpcode instruction ∧ getOpcode instruction ≤ 7)
    (hrd : (instruction &&& 0x000F0000) >>> 16 ≠ getRm instruction)
    (hpc : (instruction &&& 0x000F0000) >>> 16 ≠ PC_REGISTER ∧ getRm instruction ≠ PC_REGISTER
      ∧ getRs instruction ≠ PC_REGISTER) :
    multiplyHandler instruction uninit cpu
      = some (afterLongMultiply instruction cpu (longResultOf instruction cpu)) := by
  obtain ⟨h4, h7⟩ := hop
  obtain ⟨hp1, hp2, hp3⟩ := hpc
  have hcases : getOpcode instruction = 4 ∨ getOpcode instruction = 5
      ∨ getOpcode instruction = 6 ∨ getOpcode instruction = 7 := by omega
  rcases hcases with h | h | h | h
  all_goals
    cases hs : sFlagSet instruction
    all_goals
      simp only [multiplyHandler, assert, h, hs, hbits, afterLongMultiply, longResultOf]
      simp [hrd, hp1, hp2, hp3, setRegister]

/-- On 32-bit register contents the value the source forms is the specified
one, and it is a 64-bit word. -/
theorem longResultOf_eq_spec (instruction : Nat) (cpu : ARM7TDMI)
    (hop : 4 ≤ getOpcode instruction ∧ getOpcode instruction ≤ 7) (h32 : Cells32 cpu) :
    longResultOf instruction cpu = longMultiplySpec instruction cpu ∧
    longResultOf instruction cpu < 2 ^ 64 := by
  obtain ⟨h4, h7⟩ := hop
  have hm : cpu.getRegister (getRm instruction) < 2 ^ 32 := h32 _
  have hs : cpu.getRegister (getRs instruction) < 2 ^ 32 := h32 _
  have hhi : cpu.getRegister ((instruction &&& 0x000F0000) >>> 16) < 2 ^ 32 := h32 _
  have hlo : cpu.getRegister ((instruction &&& 0x0000F000) >>> 12) < 2 ^ 32 := h32 _
  have hprod : cpu.getRegister (getRm instruction) * cpu.getRegister (getRs instruction)
      < 2 ^ 64 := by
    calc cpu.getRegister (getRm instruction) * cpu.getRegister (getRs instruction)
        < 2 ^ 32 * 2 ^ 32 := Nat.mul_lt_mul'' hm hs
      _ = 2 ^ 64 := by norm_num
  have hacc := accumulator_eq _ _ hhi hlo
  have hcases : getOpcode instruction = 4 ∨ getOpcode instruction = 5
      ∨ getOpcode instruction = 6 ∨ getOpcode instruction = 7 := by omega
  rcases hcases with h | h | h | h
  · simp only [longResultOf, longMultiplySpec, h]
    rw [Nat.mod_eq_of_lt hprod]
    exact ⟨rfl, hprod⟩
  · refine ⟨?_, ?_⟩
    · simp only [longResultOf, longMultiplySpec, h, hacc]
    · simp only [longResultOf, h]
      exact Nat.mod_lt _ (by norm_num)
  · refine ⟨?_, ?_⟩
    · simp only [longResultOf, longMultiplySpec, h]
      rfl
    · simp only [longResultOf, h]
      exact ofSigned64_lt _
  · refine ⟨?_, ?_⟩
    · simp only [longResultOf, longMultiplySpec, h, hacc]
      unfold ofSigned64
      rw [add_toSigned64_emod _ _ (by omega)]
    · simp only [longResultOf, h]
      exact ofSigned64_lt _

/-- C18: for the long multiplies (opcode field 4 to 7: UMULL, UMLAL, SMULL,
SMLAL) with 32-bit register contents and `RdHi`, `RdLo` designating different
cells, `multiplyHandler` completes and leaves `RdHi * 2 ^ 32 + RdLo` equal to
the unsigned product, the two's-complement encoding of the signed product, or
these plus the previous `RdHi:RdLo` modulo `2 ^ 64`. -/
theorem multiplyLong_value (instruction uninit : Nat) (cpu : ARM7TDMI)
    (hbits : instruction &&& 0x000000F0 = 0x00000090)
    (hop : 4 ≤ getOpcode instruction ∧ getOpcode instruction ≤ 7)
    (hrd : (instruction &&& 0x000F0000) >>> 16 ≠ getRm instruction)
    (hpc : (instruction &&& 0x000F0000) >>> 16 ≠ PC_REGISTER ∧ getRm instruction ≠ PC_REGISTER
      ∧ getRs instruction ≠ PC_REGISTER)
    (hdist : cpu.registers ((instruction &&& 0x000F0000) >>> 16)
      ≠ cpu.registers ((instruction &&& 0x0000F000) >>> 12))
    (h32 : Cells32 cpu) :
    ∃ cpu2, multiplyHandler instruction uninit cpu = some cpu2 ∧
      cpu2.getRegister ((instruction &&& 0x000F0000) >>> 16) * 2 ^ 32
        + cpu2.getRegister ((instruction &&& 0x0000F000) >>> 12)
        = longMultiplySpec instruction cpu ∧
      cpu2.getRegister ((instruction &&& 0x000F0000) >>> 16) < 2 ^ 32 ∧
      cpu2.getRegister ((instruction &&& 0x0000F000) >>> 12) < 2 ^ 32 := by
  obtain ⟨hspec, hlt⟩ := longResultOf_eq_spec instruction cpu hop h32
  obtain ⟨hrec, hhi, hlo⟩ := hi_lo_recombine _ hlt
  refine ⟨_, multiplyHandler_long_run instruction uninit cpu hbits hop hrd hpc, ?_⟩
  have hget : ∀ L : Nat,
      (afterLongMultiply instruction cpu L).getRegister ((instruction &&& 0x000F0000) >>> 16)
        = (L >>> 32) % 2 ^ 32 ∧
      (afterLongMultiply instruction cpu L).getRegister ((instruction &&& 0x0000F000) >>> 12)
        = L % 2 ^ 32 := by
    intro L
    unfold afterLongMultiply
    cases sFlagSet instruction <;> simp [getRegister, setRegister, hdist]
  rw [(hget _).1, (hget _).2, ← hspec]
  exact ⟨hrec, hhi, hlo⟩

/-- Scenario S6 through `multiplyLong_value`: `UMULL r0, r1, r2, r3` (word
`0xE0810392`) with `r2 = r3 = 0xFFFFFFFF` gives `r0 = 1` and
`r1 = 0xFFFFFFFE`. -/
theorem multiplyLong_value_witness :
    0xE0810392 &&& 0x000000F0 = 0x00000090 ∧
    getOpcode 0xE0810392 = 4 ∧
    Cells32 umullScenario ∧
    ∃ cpu2, multiplyHandler 0xE0810392 0 umullScenario = some cpu2 ∧
      cpu2.getRegister 0 = 1 ∧ cpu2.getRegister 1 = 0xFFFFFFFE := by
  have h32 : Cells32 umullScenario := by
    intro c
    simp only [umullScenario, mkCpu]
    split_ifs <;> norm_num
  obtain ⟨cpu2, hrun, hval, hhi, hlo⟩ := multiplyLong_value 0xE0810392 0 umullScenario
    (by decide) (by decide) (by decide) (by decide) (by decide) h32
  have e1 : (0xE0810392 &&& 0x000F0000) >>> 16 = 1 := by decide
  have e2 : (0xE0810392 &&& 0x0000F000) >>> 12 = 0 := by decide
  have e3 : longMultiplySpec 0xE0810392 umullScenario = 0xFFFFFFFE00000001 := by decide!
  rw [e1, e2, e3] at hval
  rw [e1] at hhi
  rw [e2] at hlo
  refine ⟨by decide, by decide, h32, cpu2, hrun, ?_, ?_⟩ <;> omega

/-- MUL and MLA run to completion and leave `afterShortMultiply`. -/
theorem multiplyHandler_short_run (instruction uninit : Nat) (cpu : ARM7TDMI)
    (hbits : instruction &&& 0x000000F0 = 0x00000090)
    (hop : getOpcode instruction ≤ 1)
    (hrd : (instruction &&& 0x000F0000) >>> 16 ≠ getRm instruction)
    (hpc : (instruction &&& 0x000F0000) >>> 16 ≠ PC_REGISTER ∧ getRm instruction ≠ PC_REGISTER
      ∧ getRs instruction ≠ PC_REGISTER)
    (hrn : getOpcode instruction = 1 → (instruction &&& 0x0000F000) >>> 12 ≠ PC_REGISTER) :
    multiplyHandler instruction uninit cpu
      = some (afterShortMultiply instruction cpu (multiplySpec instruction cpu)) := by
  obtain ⟨hp1, hp2, hp3⟩ := hpc
  have hmod : ∀ x : Nat, x % 18446744073709551616 % 4294967296 = x % 4294967296 := by
    intro x; omega
  have hcases : getOpcode instruction = 0 ∨ getOpcode instruction = 1 := by omega
  rcases hcases with h | h
  · cases hs : sFlagSet instruction
    all_goals
      simp only [multiplyHandler, assert, h, hs, hbits, afterShortMultiply, multiplySpec]
      simp [hrd, hp1, hp2, hp3, setRegister, hmod]
  · have hrn2 := hrn h
    cases hs : sFlagSet instruction
    all_goals
      simp only [multiplyHandler, assert, h, hs, hbits, afterShortMultiply, multiplySpec]
      simp [hrd, hp1, hp2, hp3, hrn2, setRegister, hmod]

/-- The sign test of the flag helpers reads bit 31. -/
theorem aluSetsSignBit_eq (x : Nat) : aluSetsSignBit x = x.testBit 31 := by
  unfold aluSetsSignBit
  have e : (0x80000000 : Nat) = 2 ^ 31 := by norm_num
  rw [e, Nat.and_two_pow]
  cases x.testBit 31 <;> simp

/-- The sign test of the long multiplies reads bit 63. -/
theorem shiftRight_63_eq (L : Nat) : ((L >>> 63) % 2 == 1) = L.testBit 63 := by
  rw [Nat.testBit_to_div_mod, Nat.shiftRight_eq_div_pow]
  exact Bool.eq_iff_iff.2 (by simp)

/-- C19: for the multiplies (opcode field 0, 1: MUL, MLA; 4 to 7: the long
forms) on 32-bit register contents, `multiplyHandler` completes; with S = 1 it
leaves N = bit 31 of the 32-bit result (MUL, MLA) or bit 63 of the 64-bit
result (long forms), Z = (that result is 0), C = 0, and V and the control bits
unchanged; with S = 0 it leaves the CPSR unchanged. -/
theorem multiply_flags (instruction uninit : Nat) (cpu : ARM7TDMI)
    (hbits : instruction &&& 0x000000F0 = 0x00000090)
    (hop : getOpcode instruction ≤ 1 ∨ (4 ≤ getOpcode instruction ∧ getOpcode instruction ≤ 7))
    (hrd : (instruction &&& 0x000F0000) >>> 16 ≠ getRm instruction)
    (hpc : (instruction &&& 0x000F0000) >>> 16 ≠ PC_REGISTER ∧ getRm instruction ≠ PC_REGISTER
      ∧ getRs instruction ≠ PC_REGISTER)
    (hrn : getOpcode instruction = 1 → (instruction &&& 0x0000F000) >>> 12 ≠ PC_REGISTER)
    (h32 : Cells32 cpu) :
    ∃ cpu2, multiplyHandler instruction uninit cpu = some cpu2 ∧
      (sFlagSet instruction = false → cpu2.cpsr = cpu.cpsr) ∧
      (sFlagSet instruction = true →
        cpu2.cpsr.C = false ∧ cpu2.cpsr.V = cpu.cpsr.V ∧
        cpu2.cpsr.I = cpu.cpsr.I ∧ cpu2.cpsr.F = cpu.cpsr.F ∧ cpu2.cpsr.T = cpu.cpsr.T ∧
        cpu2.cpsr.Mode = cpu.cpsr.Mode ∧
        (getOpcode instruction ≤ 1 →
          cpu2.cpsr.N = (multiplySpec instruction cpu).testBit 31 ∧
          cpu2.cpsr.Z = decide (multiplySpec instruction cpu = 0)) ∧
        (4 ≤ getOpcode instruction →
          cpu2.cpsr.N = (longMultiplySpec instruction cpu).testBit 63 ∧
          cpu2.cpsr.Z = decide (longMultiplySpec instruction cpu = 0))) := by
  rcases hop with hop | hop
  · refine ⟨_, multiplyHandler_short_run instruction uninit cpu hbits hop hrd hpc hrn, ?_, ?_⟩
    · intro hs
      simp [afterShortMultiply, hs, setRegister]
    · intro hs
      unfold afterShortMultiply
      rw [if_pos hs]
      refine ⟨rfl, rfl, rfl, rfl, rfl, rfl, ?_, ?_⟩
      · intro _
        exact ⟨aluSetsSignBit_eq _, Bool.eq_iff_iff.2 (by simp [aluSetsZeroBit])⟩
      · intro h4; omega
  · obtain ⟨hspec, _⟩ := longResultOf_eq_spec instruction cpu hop h32
    refine ⟨_, multiplyHandler_long_run instruction uninit cpu hbits hop hrd hpc, ?_, ?_⟩
    · intro hs
      simp [afterLongMultiply, hs, setRegister]
    · intro hs
      unfold afterLongMultiply
      rw [if_pos hs]
      refine ⟨rfl, rfl, rfl, rfl, rfl, rfl, ?_, ?_⟩
      · intro h1; omega
      · intro _
        rw [← hspec]
        exact ⟨shiftRight_63_eq _, Bool.eq_iff_iff.2 (by simp)⟩

/-- Instance of `multiply_flags`: `UMULLS r0, r1, r2, r3` (word `0xE0910392`)
with `r2 = r3 = 0xFFFFFFFF` and C, V set beforehand leaves N = 1 (bit 63 of
`0xFFFFFFFE00000001`), Z = 0, C = 0 and V = 1. -/
theorem multiply_flags_witness :
    0xE0910392 &&& 0x000000F0 = 0x00000090 ∧
    getOpcode 0xE0910392 = 4 ∧
    sFlagSet 0xE0910392 = true ∧
    Cells32 umullFlagsScenario ∧
    umullFlagsScenario.cpsr.C = true ∧
    ∃ cpu2, multiplyHandler 0xE0910392 0 umullFlagsScenario = some cpu2 ∧
      cpu2.cpsr.N = true ∧ cpu2.cpsr.Z = false ∧ cpu2.cpsr.C = false ∧
      cpu2.cpsr.V = true := by
  have h32 : Cells32 umullFlagsScenario := by
    intro c
    simp only [umullFlagsScenario, umullScenario, mkCpu]
    split_ifs <;> norm_num
  obtain ⟨cpu2, hrun, _, hflags⟩ := multiply_flags 0xE0910392 0 umullFlagsScenario
    (by decide) (Or.inr (by decide)) (by decide) (by decide) (by decide) h32
  obtain ⟨hC, hV, _, _, _, _, _, hlong⟩ := hflags (by decide)
  obtain ⟨hN, hZ⟩ := hlong (by decide)
  have e3 : longMultiplySpec 0xE0910392 umullFlagsScenario = 0xFFFFFFFE00000001 := by decide!
  rw [e3] at hN hZ
  refine ⟨by decide, by decide, by decide, h32, rfl, cpu2, hrun, ?_, ?_, hC, ?_⟩
  · rw [hN]; decide
  · rw [hZ]; decide
  · rw [hV]; rfl


/-! ### Swap and halfword transfers -/

/-- C21 (failing input): word SWP applies the rotation to the address,
not to the loaded word. For every state `SWP r0, r2, [r1]` leaves in r0 the
word read at `ROR(r1 & ~3, (r1 & 3) * 8)`; with `r1 = 0x03000001` that is the
word `0xAABBCCDD` at `0x00030000`, while the rotated word of `0x03000000` is
`0x44112233`. The store goes unrotated to `r1 & ~3`. -/
theorem swp_word_rotates_the_address :
    (∀ cpu : ARM7TDMI,
      (singleDataSwapHandler 0xE1010092 cpu).map (fun c => c.getRegister 0) =
        some (cpu.bus.read32
          (aluShiftRor (cpu.getRegister 1 &&& 0xFFFFFFFC) ((cpu.getRegister 1 &&& 3) * 8)))) ∧
    aluShiftRor (swpScenario.getRegister 1 &&& 0xFFFFFFFC) ((swpScenario.getRegister 1 &&& 3) * 8)
      = 0x00030000 ∧
    (singleDataSwapHandler 0xE1010092 swpScenario).map (fun c => c.getRegister 0)
      = some 0xAABBCCDD ∧
    aluShiftRor (swpScenario.bus.read32 (0x03000001 &&& 0xFFFFFFFC)) ((0x03000001 &&& 3) * 8)
      = 0x44112233 ∧
    (singleDataSwapHandler 0xE1010092 swpScenario).map (fun c => c.bus.read32 0x03000000)
      = some 0x55667788 := by
  refine ⟨fun cpu => ?_, by decide!, by decide!, by decide!, by decide!⟩
  show some ((cpu.setRegister 0 _).getRegister 0) = _
  rw [getRegister_setRegister_same]
  rfl

/-- With the load bit set, the statements of the labels 2 and 3 write the
sign-extended byte at `address` to `rd`. -/
theorem loadSignedByteCase_load (rd address : Nat) (cpu : ARM7TDMI) :
    loadSignedByteCase true rd address cpu
      = some (cpu.setRegister rd (signExtendByte (cpu.bus.read8 address))) := by
  unfold loadSignedByteCase signExtendByte
  by_cases h : (cpu.bus.read8 address &&& 0x00000080) != 0
  · simp only [h, if_true]; rfl
  · simp only [h]; rfl

/-- With the load bit clear, the statements of the labels 2 and 3 stop at
`assert(l)`. -/
theorem loadSignedByteCase_store (rd address : Nat) (cpu : ARM7TDMI) :
    loadSignedByteCase false rd address cpu = none := rfl

/-- C22 (failing input): the halfword loaded by LDRH is overwritten. The
label 1 of the opcode switch has no `break`, so the statements of the labels 2
and 3 run as well: for every state `LDRH r0, [r1]` leaves in r0 the
sign-extended byte at the address, not the halfword. With the halfword
`0x1234` at `0x03000000` the result is `0x34`. -/
theorem ldrh_overwritten_by_signed_byte :
    (∀ cpu : ARM7TDMI,
      (halfWordDataTransHandler 0xE1D100B0 cpu).map (fun c => c.getRegister 0) =
        some (signExtendByte (cpu.bus.read8 (cpu.getRegister 1 % 2 ^ 32)))) ∧
    (halfWordDataTransHandler 0xE1D100B0 ldrhScenario).map (fun c => c.getRegister 0)
      = some 0x34 ∧
    aluShiftRor (ldrhScenario.bus.read16 (0x03000000 &&& 0xFFFFFFFE)) ((0x03000000 &&& 1) * 8)
      = 0x1234 := by
  refine ⟨fun cpu => ?_, by decide!, by decide!⟩
  simp +decide only [halfWordDataTransHandler, assert, getRd, getRn, getRm, dataTransGetL,
    dataTransGetP, dataTransGetU, dataTransGetW, Option.pure_def, Option.bind_eq_bind,
    Option.some_bind, if_true, if_false]
  show Option.map _ ((loadSignedByteCase true 0 _ _).bind fun c1 =>
      (loadSignedByteCase true 0 _ c1).bind fun y => some y) = _
  simp only [loadSignedByteCase_load, Option.some_bind, Option.map_some',
    getRegister_setRegister_same]
  rfl

/-- C23 (failing input): LDRSH never reads a halfword. For every state
`LDRSH r0, [r1]` leaves in r0 the sign-extended byte at the address, for even
addresses as for odd ones. With the halfword `0x8001` at the even address
`0x03000000` the result is `0x00000001`, not `0xFFFF8001`. -/
theorem ldrsh_even_address_loads_byte :
    (∀ cpu : ARM7TDMI,
      (halfWordDataTransHandler 0xE1D100F0 cpu).map (fun c => c.getRegister 0) =
        some (signExtendByte (cpu.bus.read8 (cpu.getRegister 1 % 2 ^ 32)))) ∧
    ldrshScenario.getRegister 1 = 0x03000000 ∧
    (halfWordDataTransHandler 0xE1D100F0 ldrshScenario).map (fun c => c.getRegister 0)
      = some 0x00000001 ∧
    signExtendHalfword (ldrshScenario.bus.read16 0x03000000) = 0xFFFF8001 := by
  refine ⟨fun cpu => ?_, by decide!, by decide!, by decide!⟩
  simp +decide only [halfWordDataTransHandler, assert, getRd, getRn, getRm, dataTransGetL,
    dataTransGetP, dataTransGetU, dataTransGetW, Option.pure_def, Option.bind_eq_bind,
    Option.some_bind, if_true, if_false]
  show Option.map _ ((loadSignedByteCase true 0 _ _).bind fun y => some y) = _
  simp only [loadSignedByteCase_load, Option.some_bind, Option.map_some',
    getRegister_setRegister_same]
  rfl

/-- C24 (failing input): STRH stops at an assertion. After the store
under the label 1 the statements of the label 2 run and begin with
`assert(l)`, which fails for a store: `STRH r0, [r1]` violates the assertion
in every state, and so does every instruction word with the load bit clear. -/
theorem strh_hits_assertion :
    (∀ cpu : ARM7TDMI, halfWordDataTransHandler 0xE1C100B0 cpu = none) ∧
    (∀ (instruction : Nat) (cpu : ARM7TDMI),
      dataTransGetL instruction = true ∨ halfWordDataTransHandler instruction cpu = none) := by
  have key : ∀ (instruction : Nat) (cpu : ARM7TDMI),
      dataTransGetL instruction = true ∨ halfWordDataTransHandler instruction cpu = none := by
    intro instruction cpu
    rcases Bool.eq_false_or_eq_true (dataTransGetL instruction) with h | h
    · exact Or.inl h
    · right
      have hop : (instruction &&& 0x00000060) >>> 5 < 4 := by
        have := @Nat.and_le_right instruction 0x00000060
        rw [Nat.shiftRight_eq_div_pow]
        omega
      unfold halfWordDataTransHandler
      generalize (instruction &&& 0x00000060) >>> 5 = op at hop
      interval_cases op <;> simp [h, loadSignedByteCase_store]
  refine ⟨fun cpu => ?_, key⟩
  rcases key 0xE1C100B0 cpu with h | h
  · exact absurd h (by decide)
  · exact h


/-! ### Writes to r15 -/

/-- C28 (failing input): a write to r15 is not aligned. `setRegister`
stores the value as it is, and `dataProcHandler` passes the result on: for
every state `MOV pc, r0` leaves r15 equal to r0, so with `r0 = 1` in ARM state
r15 is 1. `LDR pc, [r1]` likewise leaves the loaded word `0x08000002` in
r15. -/
theorem mov_pc_leaves_r15_unaligned :
    (∀ cpu : ARM7TDMI, dataProcHandler 0xE1A0F000 cpu
      = some (cpu.setRegister PC_REGISTER (cpu.getRegister 0))) ∧
    (dataProcHandler 0xE1A0F000 movPcScenario).map
      (fun c => (c.getRegister PC_REGISTER, c.cpsr.T)) = some (1, false) ∧
    (∀ u : Nat, (singleDataTransHandler 0xE591F000 u ldrPcScenario).map
      (fun c => (c.getRegister PC_REGISTER, c.cpsr.T)) = some (0x08000002, false)) := by
  refine ⟨fun cpu => rfl, by decide!, fun u => rfl⟩

/-! ### ARM decoder -/

/-- A mask contained in a tested mask sees the tested value. -/
theorem and_submask {i m v : Nat} (h : i &&& m = v) (m' : Nat) (hm : m &&& m' = m') :
    i &&& m' = v &&& m' := by
  rw [← h, Nat.and_assoc, hm]

/-- Two tests that disagree on a common part of their masks cannot both
succeed. -/
theorem and_ne_of_submask {i m v : Nat} (h : i &&& m = v) (M V m' : Nat)
    (hm : m &&& m' = m') (hM : M &&& m' = m') (hne : v &&& m' ≠ V &&& m') :
    i &&& M ≠ V := by
  intro hMV
  exact hne ((and_submask h m' hm).symm.trans (and_submask hMV m' hM))

/-- The decoder on the long multiplies: a word with bits 27:23 = 00001 and
bits 7:4 = 1001 reaches `multiplyHandler` unless bit 22 and bits 11:8 are all
clear, in which case the earlier test for the register halfword transfers
takes it. -/
theorem executeArmInstruction_mulLong {α : Type} (h : ArmHandlers α) (i : Nat)
    (h1 : i &&& 0x0F8000F0 = 0x00800090) :
    executeArmInstruction h i =
      if i &&& 0x00400F00 = 0 then h.halfWordDataTransHandler i else h.multiplyHandler i := by
  have e0 : i &&& 0b00001110000000000000000000000000 = 0 :=
    and_submask h1 0b00001110000000000000000000000000 (by decide)
  have n1 : i &&& 0b00001111111111111111111111010000 ≠ 0b00000001001011111111111100010000 :=
    and_ne_of_submask h1 _ _ 0x0F8000D0 (by decide) (by decide) (by decide)
  have n2 : i &&& 0b00001111101100000000111111110000 ≠ 0b00000001000000000000000010010000 :=
    and_ne_of_submask h1 _ _ 0x0F8000F0 (by decide) (by decide) (by decide)
  have n3 : i &&& 0b00001111100100000000111111110000 ≠ 0b00000001000000000000000000000000 :=
    and_ne_of_submask h1 _ _ 0x0F8000F0 (by decide) (by decide) (by decide)
  have n4 : i &&& 0b00001111110000000000000011110000 ≠ 0b00000000000000000000000010010000 :=
    and_ne_of_submask h1 _ _ 0x0F8000F0 (by decide) (by decide) (by decide)
  have e6 : i &&& 0b00001111100000000000000011110000 = 0b00000000100000000000000010010000 := h1
  have h5 : i &&& 0b00001110010000000000111110010000 = 0b00000000000000000000000010010000
      ↔ i &&& 0x00400F00 = 0 := by
    constructor
    · intro h5
      exact and_submask h5 0x00400F00 (by decide)
    · intro h5
      have ha : i &&& 0x0E000090 = 0x90 := and_submask h1 0x0E000090 (by decide)
      have hor : i &&& (0x0E000090 ||| 0x00400F00) = (i &&& 0x0E000090) ||| (i &&& 0x00400F00) :=
        Nat.and_or_distrib_left _ _ _
      rw [ha, h5] at hor
      exact hor
  unfold executeArmInstruction
  simp only [e0, Nat.zero_shiftRight, beq_iff_eq, n1, n2, n3, n4, e6, h5, if_false, if_true]

/-- The decoder on MUL and MLA: a word with bits 27:22 = 000000 and bits
7:4 = 1001 reaches `multiplyHandler`. -/
theorem executeArmInstruction_multiply {α : Type} (h : ArmHandlers α) (i : Nat)
    (h1 : i &&& 0x0FC000F0 = 0x00000090) :
    executeArmInstruction h i = h.multiplyHandler i := by
  have e0 : i &&& 0b00001110000000000000000000000000 = 0 :=
    and_submask h1 0b00001110000000000000000000000000 (by decide)
  have n1 : i &&& 0b00001111111111111111111111010000 ≠ 0b00000001001011111111111100010000 :=
    and_ne_of_submask h1 _ _ 0x0FC000D0 (by decide) (by decide) (by decide)
  have n2 : i &&& 0b00001111101100000000111111110000 ≠ 0b00000001000000000000000010010000 :=
    and_ne_of_submask h1 _ _ 0x0F8000F0 (by decide) (by decide) (by decide)
  have n3 : i &&& 0b00001111100100000000111111110000 ≠ 0b00000001000000000000000000000000 :=
    and_ne_of_submask h1 _ _ 0x0F8000F0 (by decide) (by decide) (by decide)
  have e4 : i &&& 0b00001111110000000000000011110000 = 0b00000000000000000000000010010000 := h1
  unfold executeArmInstruction
  simp only [e0, Nat.zero_shiftRight, beq_iff_eq, n1, n2, n3, e4, if_false, if_true]

/-- C29 (failing input): a long multiply with Rs = r0 and bit 22 clear
is not dispatched to `multiplyHandler`. The test for the register halfword
transfers comes before the test for the long multiplies and matches every
word with bits 27:25 = 000, bit 22 = 0, bits 11:8 = 0000, bit 7 = 1 and
bit 4 = 1: a word `i` with bits 27:23 = 00001 and bits 7:4 = 1001 goes to
`halfWordDataTransHandler` when its bit 22 and bits 11:8 are clear (UMULL and
UMLAL with Rs = r0) and to `multiplyHandler` otherwise; `UMULL r0, r1, r2, r0`
(`0xE0810092`) is such a word, and `halfWordDataTransHandler` stops at its
`assert(false)` on it. A word `j` with bits 27:22 = 000000 and
bits 7:4 = 1001 (MUL, MLA) always goes to `multiplyHandler`. -/
theorem decoder_long_multiply_rs_r0 {α : Type} (h : ArmHandlers α) (i j : Nat)
    (hi : i &&& 0x0F8000F0 = 0x00800090) (hj : j &&& 0x0FC000F0 = 0x00000090) :
    executeArmInstruction h i =
      (if i &&& 0x00400F00 = 0 then h.halfWordDataTransHandler i else h.multiplyHandler i) ∧
    executeArmInstruction h j = h.multiplyHandler j ∧
    executeArmInstruction h 0xE0810092 = h.halfWordDataTransHandler 0xE0810092 ∧
    (∀ cpu : ARM7TDMI, halfWordDataTransHandler 0xE0810092 cpu = none) :=
  ⟨executeArmInstruction_mulLong h i hi, executeArmInstruction_multiply h j hj, rfl,
   fun _ => rfl⟩

/-- Witness of `decoder_long_multiply_rs_r0`: `UMULL r0, r1, r2, r0` and
`UMLAL r0, r1, r2, r0` are dispatched to `halfWordDataTransHandler`;
`MUL r0, r1, r2` is dispatched to `multiplyHandler`. -/
theorem decoder_long_multiply_rs_r0_witness :
    0xE0810092 &&& 0x0F8000F0 = 0x00800090 ∧ 0xE0000291 &&& 0x0FC000F0 = 0x00000090 ∧
    executeArmInstruction handlerNames 0xE0810092 = ArmHandlerName.halfWordDataTransHandler ∧
    executeArmInstruction handlerNames 0xE0A10092 = ArmHandlerName.halfWordDataTransHandler ∧
    executeArmInstruction handlerNames 0xE0000291 = ArmHandlerName.multiplyHandler :=
  ⟨by decide, by decide,
   (decoder_long_multiply_rs_r0 handlerNames 0xE0810092 0xE0000291 (by decide) (by decide)).1,
   by decide,
   (decoder_long_multiply_rs_r0 handlerNames 0xE0810092 0xE0000291 (by decide) (by decide)).2.1⟩

/-- C30 (failing input): the decoder switches on bits 27:25 only, and its
label for SWI is `0b111`. A word is dispatched to `swiHandler` exactly when
its bits 27:25 are 111, so the words with bits 27:24 = 1110 are dispatched to
`swiHandler` too; `0xEE000000` is one. -/
theorem swi_dispatch_ignores_bit_24 :
    (∀ i : Nat, executeArmInstruction handlerNames i = ArmHandlerName.swiHandler
      ↔ (i &&& 0x0E000000) >>> 25 = 7) ∧
    (∀ (α : Type) (h : ArmHandlers α),
      executeArmInstruction h 0xEE000000 = h.swiHandler 0xEE000000) ∧
    (0xEE000000 &&& 0x0F000000) >>> 24 = 0b1110 := by
  refine ⟨fun i => ?_, fun _ _ => rfl, by decide⟩
  have hx : (i &&& 0x0E000000) >>> 25 < 8 := by
    have := @Nat.and_le_right i 0x0E000000
    rw [Nat.shiftRight_eq_div_pow]
    omega
  unfold executeArmInstruction
  generalize (i &&& 0x0E000000) >>> 25 = x at hx
  interval_cases x <;> simp only [handlerNames] <;> (try split_ifs) <;> decide


/-! ### Interrupt entry -/

/-- `step()` is its interrupt test followed by the remaining statements. -/
theorem step_eq_stepAfterInterruptTest (env : Environment) (cpu : ARM7TDMI) :
    step env cpu
      = stepAfterInterruptTest env (if interruptTaken env cpu then irq env cpu else cpu) := rfl

/-- The masked conjunction of two 16-bit words, byte by byte. -/
theorem ioWord_and (a b c d : Nat) (ha : a < 256) (hc : c < 256) :
    (a + 256 * b) &&& (c + 256 * d) &&& 0x3FFF
      = (a &&& c) + 256 * ((b &&& 0x3F) &&& (d &&& 0x3F)) := by
  have hac : a &&& c < 2 ^ 8 := Nat.and_lt_two_pow a (by omega)
  have e1 : a + 256 * b = 2 ^ 8 * b + a := by omega
  have e2 : c + 256 * d = 2 ^ 8 * d + c := by omega
  have e3 : (a &&& c) + 256 * ((b &&& 0x3F) &&& (d &&& 0x3F))
      = 2 ^ 8 * ((b &&& 0x3F) &&& (d &&& 0x3F)) + (a &&& c) := by omega
  have m1 : (0x3FFF : Nat) = 2 ^ 14 - 1 := by norm_num
  have m2 : (0x3F : Nat) = 2 ^ 6 - 1 := by norm_num
  rw [e1, e2, e3, m1, m2]
  apply Nat.eq_of_testBit_eq
  intro j
  rw [Nat.testBit_mul_pow_two_add _ hac]
  simp only [Nat.testBit_and, Nat.testBit_two_pow_sub_one,
    Nat.testBit_mul_pow_two_add _ (show a < 2 ^ 8 by omega),
    Nat.testBit_mul_pow_two_add _ (show c < 2 ^ 8 by omega)]
  by_cases hj : j < 8
  · have : j < 14 := by omega
    simp [hj, this]
  · by_cases hj2 : j < 14
    · have : j - 8 < 6 := by omega
      simp [hj, hj2, this]
    · have : ¬ (j - 8 < 6) := by omega
      simp [hj, hj2, this]

/-- C25: `step()` enters `irq()` exactly when bit 0 of IME is 1, CPSR.I is 0
and `IE & IF & 0x3FFF` is not 0, with IE and IF the 16-bit little-endian words
of the byte array `iORegisters`; bits 14 and 15 play no part. -/
theorem step_interrupt_test (env : Environment) (cpu : ARM7TDMI) (hb : BytesIO cpu) :
    interruptTaken env cpu = interruptPendingSpec env cpu ∧
    step env cpu
      = stepAfterInterruptTest env (if interruptPendingSpec env cpu then irq env cpu else cpu) := by
  have key : interruptTaken env cpu = interruptPendingSpec env cpu := by
    unfold interruptTaken interruptPendingSpec ioWord
    rw [ioWord_and _ _ _ _ (hb _) (hb _)]
    have h0 : ((cpu.bus.iORegisters env.IME &&& 0x1) != 0)
        = (cpu.bus.iORegisters env.IME).testBit 0 := by
      rw [Nat.testBit_zero, Nat.and_one_is_mod]
      apply Bool.eq_iff_iff.2
      simp
    rw [h0]
    congr 1
    apply Bool.eq_iff_iff.2
    simp only [Bool.or_eq_true, bne_iff_ne, ne_eq]
    omega
  exact ⟨key, by rw [← key]; rfl⟩

/-- Witness of `step_interrupt_test`: with IME = 1, I clear and bit 0 set in
IE and IF the interrupt is taken; with only bit 14 set in both it is not. -/
theorem step_interrupt_test_witness :
    BytesIO irqScenario ∧ BytesIO bit14Scenario ∧
    interruptTaken irqEnvironment irqScenario = interruptPendingSpec irqEnvironment irqScenario ∧
    interruptTaken irqEnvironment irqScenario = true ∧
    interruptTaken irqEnvironment bit14Scenario
      = interruptPendingSpec irqEnvironment bit14Scenario ∧
    interruptTaken irqEnvironment bit14Scenario = false := by
  have h1 : BytesIO irqScenario := by
    intro a
    show (if a = 0x208 then 1 else if a = 0x200 then 1 else if a = 0x202 then 1 else 0) < 256
    split_ifs <;> omega
  have h2 : BytesIO bit14Scenario := by
    intro a
    show (if a = 0x208 then 1 else if a = 0x201 then 0x40 else if a = 0x203 then 0x40 else 0)
      < 256
    split_ifs <;> omega
  exact ⟨h1, h2, (step_interrupt_test irqEnvironment irqScenario h1).1, by decide,
    (step_interrupt_test irqEnvironment bit14Scenario h2).1, by decide⟩

/-- The condition field of a word is one of the sixteen condition codes. -/
theorem conditionalHolds_total (cpu : ARM7TDMI) (w : Nat) :
    ∃ holds : Bool, cpu.conditionalHolds ((w &&& 0xF0000000) >>> 28) = some holds := by
  have hx : (w &&& 0xF0000000) >>> 28 < 16 := by
    have := @Nat.and_le_right w 0xF0000000
    rw [Nat.shiftRight_eq_div_pow]
    omega
  generalize (w &&& 0xF0000000) >>> 28 = x at hx
  interval_cases x <;> exact ⟨_, rfl⟩

/-- C26: with the mode switch of the specification, `irq()` leaves the mode
IRQ, T clear, I set, r15 = `0x18`, the link register designating `r14_irq`
with `r14_irq` = r15 + 4 (entry value, 32-bit arithmetic), and the prefetched
instruction equal to the word at `0x18`; when the interrupt is taken the rest
of the same `step()` sets r15 to `0x1C`, evaluates the condition field of that
word and dispatches the word through the ARM decoder. -/
theorem irq_entry (env : Environment) (cpu : ARM7TDMI)
    (hsw : env.switchToMode = switchToMode) (htaken : interruptTaken env cpu = true) :
    (irq env cpu).cpsr.Mode = IRQ ∧ (irq env cpu).cpsr.T = false ∧
    (irq env cpu).cpsr.I = true ∧
    (irq env cpu).getRegister PC_REGISTER = 0x18 ∧
    (irq env cpu).registers LINK_REGISTER = bankedCell IRQ LINK_REGISTER ∧
    (irq env cpu).cells (bankedCell IRQ LINK_REGISTER)
      = (cpu.getRegister PC_REGISTER + 4) % 2 ^ 32 ∧
    (irq env cpu).currInstruction = cpu.bus.read32 0x18 ∧
    ∃ holds : Bool,
      (irq env cpu).conditionalHolds ((cpu.bus.read32 0x18 &&& 0xF0000000) >>> 28)
        = some holds ∧
      step env cpu =
        (if holds then
          env.executeArmInstruction (cpu.bus.read32 0x18)
            ((irq env cpu).setRegister PC_REGISTER 0x1C)
        else some ((irq env cpu).setRegister PC_REGISTER 0x1C)).map getNextInstruction := by
  have hT : (irq env cpu).cpsr.T = false := by
    unfold irq getNextInstruction; rw [hsw]; rfl
  have hpc : (irq env cpu).getRegister PC_REGISTER = 0x18 := by
    unfold irq getNextInstruction; rw [hsw]; rfl
  have hw : (irq env cpu).currInstruction = cpu.bus.read32 0x18 := by
    unfold irq getNextInstruction; rw [hsw]; rfl
  refine ⟨?_, hT, ?_, hpc, ?_, ?_, hw, ?_⟩
  · unfold irq getNextInstruction; rw [hsw]; rfl
  · unfold irq getNextInstruction; rw [hsw]; rfl
  · unfold irq getNextInstruction; rw [hsw]; rfl
  · unfold irq getNextInstruction; rw [hsw]; rfl
  · obtain ⟨holds, hh⟩ := conditionalHolds_total (irq env cpu) (cpu.bus.read32 0x18)
    refine ⟨holds, hh, ?_⟩
    rw [step_eq_stepAfterInterruptTest, htaken, if_pos rfl]
    unfold stepAfterInterruptTest
    simp only [hT, hpc, hw, conditionalHolds_setRegister, hh, Bool.not_false, if_true]
    cases holds
    · rfl
    · have hc : ((irq env cpu).setRegister PC_REGISTER 0x1C).currInstruction
          = cpu.bus.read32 0x18 := hw
      show (env.executeArmInstruction ((irq env cpu).setRegister PC_REGISTER 0x1C).currInstruction
          ((irq env cpu).setRegister PC_REGISTER 0x1C)).bind (fun y => some y.getNextInstruction)
        = Option.map getNextInstruction
          (env.executeArmInstruction (cpu.bus.read32 0x18)
            ((irq env cpu).setRegister PC_REGISTER 0x1C))
      rw [hc]
      cases env.executeArmInstruction (cpu.bus.read32 0x18)
        ((irq env cpu).setRegister PC_REGISTER 0x1C) <;> rfl

/-- Witness of `irq_entry`: in the interrupt scenario (`r15 = 0x08000100`) the
step leaves `r14_irq = 0x08000104`, the mode IRQ, I set, and, the word
`0xE1A00000` at `0x18` dispatched, r15 at `0x1C`. -/
theorem irq_entry_witness :
    irqEnvironment.switchToMode = switchToMode ∧
    interruptTaken irqEnvironment irqScenario = true ∧
    (irq irqEnvironment irqScenario).cells (bankedCell IRQ LINK_REGISTER) = 0x08000104 ∧
    (irq irqEnvironment irqScenario).currInstruction = 0xE1A00000 ∧
    (step irqEnvironment irqScenario).map
      (fun c => (c.cpsr.Mode, c.cpsr.I, c.getRegister PC_REGISTER, c.getRegister LINK_REGISTER))
      = some (0x12, true, 0x1C, 0x08000104) := by
  have h := irq_entry irqEnvironment irqScenario rfl (by decide)
  refine ⟨rfl, by decide, h.2.2.2.2.2.1.trans (by decide), h.2.2.2.2.2.2.1.trans (by decide!),
    by decide!⟩

/-- The statements of `irq()` assign no saved status register: after `irq()`
the saved status registers are those the mode switch leaves, whatever the
mode switch does. -/
theorem irq_spsrCells (env : Environment) (cpu : ARM7TDMI) :
    (irq env cpu).spsrCells = (env.switchToMode IRQ cpu).spsrCells := rfl

/-! ### THUMB decoder -/

/-- The THUMB decoder reads bits 15:8 of the word only. -/
theorem executeThumbInstruction_top_byte (i : Nat) :
    executeThumbInstruction thumbHandlerNames i
      = executeThumbInstruction thumbHandlerNames (i &&& 0xFF00) := by
  unfold executeThumbInstruction
  simp only [Nat.and_assoc, thumbHandlerNames,
    (by decide : 0xFF00 &&& 0b1110000000000000 = 0b1110000000000000),
    (by decide : 0xFF00 &&& 0b0001100000000000 = 0b0001100000000000),
    (by decide : 0xFF00 &&& 0b0001000000000000 = 0b0001000000000000),
    (by decide : 0xFF00 &&& 0b0001110000000000 = 0b0001110000000000),
    (by decide : 0xFF00 &&& 0b0000001000000000 = 0b0000001000000000),
    (by decide : 0xFF00 &&& 0b0000010000000000 = 0b0000010000000000),
    (by decide : 0xFF00 &&& 0b0001111100000000 = 0b0001111100000000)]

/-- The patterns of the THUMB decoding table read bits 15:8 of the word only. -/
theorem thumbFormMatches_top_byte (form : ThumbHandlerName) (i : Nat) :
    thumbFormMatches form i = thumbFormMatches form (i &&& 0xFF00) := by
  cases form <;>
    simp only [thumbFormMatches, Nat.and_assoc,
      (by decide : 0xFF00 &&& 0xF800 = 0xF800), (by decide : 0xFF00 &&& 0xE000 = 0xE000),
      (by decide : 0xFF00 &&& 0xFC00 = 0xFC00), (by decide : 0xFF00 &&& 0xF200 = 0xF200),
      (by decide : 0xFF00 &&& 0xF000 = 0xF000), (by decide : 0xFF00 &&& 0xFF00 = 0xFF00),
      (by decide : 0xFF00 &&& 0xF600 = 0xF600)]

/-- Bits 15:8 of a word, in place. -/
theorem and_top_byte (i : Nat) : ∃ k, k < 256 ∧ i &&& 0xFF00 = 256 * k := by
  refine ⟨i / 256 % 256, Nat.mod_lt _ (by norm_num), ?_⟩
  have e1 : (0xFF00 : Nat) = 2 ^ 8 * (2 ^ 8 - 1) := by norm_num
  have e2 : 256 * (i / 256 % 256) = 2 ^ 8 * ((i >>> 8) % 2 ^ 8) := by
    rw [Nat.shiftRight_eq_div_pow]; norm_num
  rw [e1, e2]
  apply Nat.eq_of_testBit_eq
  intro j
  simp only [Nat.testBit_and, Nat.testBit_mul_pow_two, Nat.testBit_two_pow_sub_one,
    Nat.testBit_mod_two_pow, Nat.testBit_shiftRight]
  by_cases hj : 8 ≤ j
  · have h2 : 8 + (j - 8) = j := by omega
    rw [h2]
    by_cases h3 : j - 8 < 8 <;> simp [hj, h3]
  · simp [hj]

/-- The THUMB decoding table on the 256 values of bits 15:8: a word that
matches the pattern of a form is dispatched to the handler of that form. -/
theorem thumb_table (k : Nat) (hk : k < 256) (form : ThumbHandlerName)
    (h : thumbFormMatches form (256 * k) = true) :
    executeThumbInstruction thumbHandlerNames (256 * k) = form := by
  revert h
  interval_cases k <;> cases form <;> decide

/-- C31: every word that matches one of the 19 patterns of the THUMB decoding
table is dispatched by `executeThumbInstruction` to the handler named for
that form, and it matches the pattern of no other form. -/
theorem thumb_forms_dispatch (i : Nat) (form : ThumbHandlerName)
    (h : thumbFormMatches form i = true) :
    executeThumbInstruction thumbHandlerNames i = form ∧
    ∀ other : ThumbHandlerName, thumbFormMatches other i = true → other = form := by
  obtain ⟨k, hk, hik⟩ := and_top_byte i
  have hrun : executeThumbInstruction thumbHandlerNames i = form := by
    rw [executeThumbInstruction_top_byte, hik]
    rw [thumbFormMatches_top_byte, hik] at h
    exact thumb_table k hk form h
  refine ⟨hrun, fun other ho => ?_⟩
  rw [thumbFormMatches_top_byte, hik] at ho
  rw [← thumb_table k hk other ho, ← hik, ← executeThumbInstruction_top_byte, hrun]

/-- Witness of `thumb_forms_dispatch`: `ADD r0, r1, #0` (`0x1C08`, form 2)
matches the pattern 00011 and is dispatched to `addSubHandler`; it does not
match "other 000". -/
theorem thumb_forms_dispatch_witness :
    thumbFormMatches ThumbHandlerName.addSubHandler 0x1C08 = true ∧
    executeThumbInstruction thumbHandlerNames 0x1C08 = ThumbHandlerName.addSubHandler ∧
    thumbFormMatches ThumbHandlerName.shiftHandler 0x1C08 = false :=
  ⟨by decide,
   (thumb_forms_dispatch 0x1C08 ThumbHandlerName.addSubHandler (by decide)).1,
   by decide⟩

/-- No value of bits 15:8 leads the THUMB decoder to `undefinedOpHandler`. -/
theorem thumb_table_defined (k : Nat) (hk : k < 256) :
    executeThumbInstruction thumbHandlerNames (256 * k) ≠ ThumbHandlerName.undefinedOpHandler := by
  interval_cases k <;> decide

/-- C35 (failing input): no word reaches `undefinedOpHandler`. Under
`case 0b101` a word with bit 12 set goes to `addOffsetToSpHandler` whenever its
bit 10 is clear, and under `case 0b111` a word with bit 12 clear goes to
`unconditionalBranchHandler` whatever its bit 11: `0xB100` (1011 0001 ...) and
`0xE800` (11101 ...) match none of the 19 patterns and are dispatched to those
handlers. -/
theorem thumb_unmatched_word_not_undefined :
    (∀ i : Nat,
      executeThumbInstruction thumbHandlerNames i ≠ ThumbHandlerName.undefinedOpHandler) ∧
    (∀ form : ThumbHandlerName, thumbFormMatches form 0xB100 = false) ∧
    (∀ (α : Type) (h : ThumbHandlers α),
      executeThumbInstruction h 0xB100 = h.addOffsetToSpHandler 0xB100) ∧
    (∀ form : ThumbHandlerName, thumbFormMatches form 0xE800 = false) ∧
    (∀ (α : Type) (h : ThumbHandlers α),
      executeThumbInstruction h 0xE800 = h.unconditionalBranchHandler 0xE800) := by
  refine ⟨fun i => ?_, fun form => by cases form <;> decide, fun _ _ => rfl,
    fun form => by cases form <;> decide, fun _ _ => rfl⟩
  obtain ⟨k, hk, hik⟩ := and_top_byte i
  rw [executeThumbInstruction_top_byte, hik]
  exact thumb_table_defined k hk


/-! ### Branch and exchange, register offsets, block stores, swap -/

/-- C32 (failing input): BX writes the link register. The label `0x1` of the
switch has no statement and no `break`, so BX runs the statement of the label
`0x3`: in every state `BX r0` (`0xE12FFF10`) has the effect of `BLX r0`
(`0xE12FFF30`); with `r14 = 0x08000100` and `r15 = 0x08000204` it leaves
`r14 = 0x08000208`. -/
theorem bx_writes_link_register :
    (∀ cpu : ARM7TDMI,
      branchAndExchangeHandler 0xE12FFF10 cpu = branchAndExchangeHandler 0xE12FFF30 cpu) ∧
    bxScenario.getRegister 14 = 0x08000100 ∧
    (branchAndExchangeHandler 0xE12FFF10 bxScenario).map (fun c => c.getRegister 14)
      = some 0x08000208 := by
  refine ⟨fun cpu => rfl, by decide!, by decide!⟩

/-- C33 (failing input): with shift type ROR the offset does not come from
Rm. The shift-type switch has the labels 0, 1, 2 and 4, so the type 3 matches
none and `offset` keeps its indeterminate value `u`: in every state
`STR r0, [r1, r2, ROR #8]!` (`0xE7A10462`) leaves `r1 + u` in r1, and
`STR r0, [r1, r2, ROR #0]!` (`0xE7A10062`, RRX) does the same. With
`r2 = 0x400` the claimed offset is `ROR(r2, 8) = 4`. -/
theorem ror_register_offset_uninitialised :
    (∀ (u : Nat) (cpu : ARM7TDMI),
      (singleDataTransHandler 0xE7A10462 u cpu).map (fun c => c.getRegister 1)
        = some ((cpu.getRegister 1 + u) % 2 ^ 32)) ∧
    (∀ (u : Nat) (cpu : ARM7TDMI),
      (singleDataTransHandler 0xE7A10062 u cpu).map (fun c => c.getRegister 1)
        = some ((cpu.getRegister 1 + u) % 2 ^ 32)) ∧
    aluShiftRor (rorOffsetScenario.getRegister 2) 8 = 4 ∧
    (singleDataTransHandler 0xE7A10462 0 rorOffsetScenario).map (fun c => c.getRegister 1)
      = some 0x03000000 ∧
    (singleDataTransHandler 0xE7A10462 0x100 rorOffsetScenario).map (fun c => c.getRegister 1)
      = some 0x03000100 := by
  refine ⟨fun u cpu => ?_, fun u cpu => ?_, by decide!, by decide!, by decide!⟩
  · show some (({ (cpu.setRegister 1 _) with bus := _ } : ARM7TDMI).getRegister 1) = _
    exact congrArg some (getRegister_setRegister_same cpu 1 _)
  · show some (({ (cpu.setRegister 1 _) with bus := _ } : ARM7TDMI).getRegister 1) = _
    exact congrArg some (getRegister_setRegister_same cpu 1 _)

/-- C37 (failing input): a STM with writeback whose list does not contain the
base reaches the base rewrite. `STMDB sp!, {lr}` (`0xE92D4000`) and
`STMDB sp!, {r0, r1, lr}` (`0xE92D4003`) stop at
`assert(addressRnStoredAt != 0)` in every state: the test
`((uint16_t)instruction << (15 - rn)) > 0x8000` holds for them, `0x4000 << 2`
being `0x10000`. -/
theorem stm_base_not_in_list_hits_assertion :
    (∀ cpu : ARM7TDMI, blockDataTransHandler 0xE92D4000 cpu = none) ∧
    (∀ cpu : ARM7TDMI, blockDataTransHandler 0xE92D4003 cpu = none) ∧
    (0xE92D4000 % 2 ^ 16) <<< (15 - getRn 0xE92D4000) = 0x10000 ∧
    (0xE92D4000 &&& (1 <<< getRn 0xE92D4000)) = 0 := by
  refine ⟨fun cpu => rfl, fun cpu => rfl, by decide, by decide⟩

/-- C38 (failing input): with Rd = Rm the swap stores the loaded value. The
handler writes Rd before it reads Rm: in every state `SWP r0, r0, [r1]`
(`0xE1010090`) writes to memory the word it has just loaded into r0, and
`SWPB r0, r0, [r1]` (`0xE1410090`) the byte it has just loaded. With
`r0 = 0x55667788` and the word `0x11223344` at the aligned address in r1,
the memory word is `0x11223344` afterwards, not `0x55667788`. -/
theorem swp_same_register_stores_loaded_value :
    (∀ cpu : ARM7TDMI,
      (singleDataSwapHandler 0xE1010090 cpu).map (fun c => c.bus) =
        some (cpu.bus.write32 (cpu.getRegister 1 &&& 0xFFFFFFFC)
          (cpu.bus.read32
            (aluShiftRor (cpu.getRegister 1 &&& 0xFFFFFFFC) ((cpu.getRegister 1 &&& 3) * 8))))) ∧
    (∀ cpu : ARM7TDMI,
      (singleDataSwapHandler 0xE1410090 cpu).map (fun c => c.bus) =
        some (cpu.bus.write8 (cpu.getRegister 1) (cpu.bus.read8 (cpu.getRegister 1) % 256))) ∧
    swpSameScenario.getRegister 0 = 0x55667788 ∧
    (singleDataSwapHandler 0xE1010090 swpSameScenario).map
      (fun c => (c.getRegister 0, c.bus.read32 0x03000000)) = some (0x11223344, 0x11223344) := by
  refine ⟨fun cpu => ?_, fun cpu => ?_, by decide!, by decide!⟩
  · show some (Bus.write32 cpu.bus _ (getRegister (cpu.setRegister 0 _) 0)) = _
    rw [getRegister_setRegister_same]
    rfl
  · show some (Bus.write8 cpu.bus _ (getRegister (cpu.setRegister 0 _) 0 % 256)) = _
    rw [getRegister_setRegister_same]
    rfl


/-! ### ARM decoder and the lookup index -/

/-- The ARM decoder reads bits 27:4 of the word only. -/
theorem executeArmInstruction_bits_27_4 (i : Nat) :
    executeArmInstruction handlerNames i
      = executeArmInstruction handlerNames (i &&& 0x0FFFFFF0) := by
  unfold executeArmInstruction
  simp only [Nat.and_assoc, handlerNames,
    (by decide : 0x0FFFFFF0 &&& 0b00001110000000000000000000000000
      = 0b00001110000000000000000000000000),
    (by decide : 0x0FFFFFF0 &&& 0b00001111111111111111111111010000
      = 0b00001111111111111111111111010000),
    (by decide : 0x0FFFFFF0 &&& 0b00001111101100000000111111110000
      = 0b00001111101100000000111111110000),
    (by decide : 0x0FFFFFF0 &&& 0b00001111100100000000111111110000
      = 0b00001111100100000000111111110000),
    (by decide : 0x0FFFFFF0 &&& 0b00001111110000000000000011110000
      = 0b00001111110000000000000011110000),
    (by decide : 0x0FFFFFF0 &&& 0b00001110010000000000111110010000
      = 0b00001110010000000000111110010000),
    (by decide : 0x0FFFFFF0 &&& 0b00001111100000000000000011110000
      = 0b00001111100000000000000011110000),
    (by decide : 0x0FFFFFF0 &&& 0b00001110010000000000000010010000
      = 0b00001110010000000000000010010000),
    (by decide : 0x0FFFFFF0 &&& 0b00001111101100000000000000000000
      = 0b00001111101100000000000000000000),
    (by decide : 0x0FFFFFF0 &&& 0b00001110000000000000000000010000
      = 0b00001110000000000000000000010000)]

/-- C34 (counterexample): `BX r0` (`0xE12FFF10`) and the word `0xE1200010` agree
on bits 27:20 and on bits 7:4, so they have the same lookup index `0x121`, and
the cascading decoder dispatches the first to `branchAndExchangeHandler` and
the second to `dataProcHandler`: its test for BX reads bits 19:8 as well. -/
theorem decoder_reads_bits_19_8 :
    0xE12FFF10 &&& 0x0FF000F0 = 0xE1200010 &&& 0x0FF000F0 ∧
    armLutIndex 0xE12FFF10 = 0x121 ∧ armLutIndex 0xE1200010 = 0x121 ∧
    executeArmInstruction handlerNames 0xE12FFF10 = ArmHandlerName.branchAndExchangeHandler ∧
    executeArmInstruction handlerNames 0xE1200010 = ArmHandlerName.dataProcHandler ∧
    ¬ (∀ i j : Nat, i &&& 0x0FF000F0 = j &&& 0x0FF000F0 →
        executeArmInstruction handlerNames i = executeArmInstruction handlerNames j) := by
  refine ⟨by decide, by decide, by decide, by decide, by decide, fun h => ?_⟩
  exact absurd (h 0xE12FFF10 0xE1200010 (by decide)) (by decide)

/-- C34 (amended): the handler selected by `executeArmInstruction` is a
function of bits 27:4 of the instruction: two words that agree on bits 27:4
are dispatched to the same handler. The lookup index of `step()` is below
4096 for every word. -/
theorem decoder_function_of_bits_27_4 (i j : Nat)
    (h : i &&& 0x0FFFFFF0 = j &&& 0x0FFFFFF0) :
    executeArmInstruction handlerNames i = executeArmInstruction handlerNames j ∧
    armLutIndex i < 4096 ∧ armLutIndex j < 4096 := by
  have hidx : ∀ w : Nat, armLutIndex w < 4096 := by
    intro w
    unfold armLutIndex
    have h1 : (w &&& 0x0FF00000) >>> 16 < 2 ^ 12 := by
      have := @Nat.and_le_right w 0x0FF00000
      rw [Nat.shiftRight_eq_div_pow]
      omega
    have h2 : (w &&& 0x0F0) >>> 4 < 2 ^ 12 := by
      have := @Nat.and_le_right w 0x0F0
      rw [Nat.shiftRight_eq_div_pow]
      omega
    exact Nat.or_lt_two_pow h1 h2
  refine ⟨?_, hidx i, hidx j⟩
  rw [executeArmInstruction_bits_27_4 i, executeArmInstruction_bits_27_4 j, h]

/-- Witness of `decoder_function_of_bits_27_4`: `BXNE r5` (`0x112FFF15`) agrees
with `BX r0` (`0xE12FFF10`) on bits 27:4 and goes to the same handler. -/
theorem decoder_function_of_bits_27_4_witness :
    0xE12FFF10 &&& 0x0FFFFFF0 = 0x112FFF15 &&& 0x0FFFFFF0 ∧
    executeArmInstruction handlerNames 0xE12FFF10
      = executeArmInstruction handlerNames 0x112FFF15 ∧
    armLutIndex 0xE12FFF10 < 4096 :=
  ⟨by decide, (decoder_function_of_bits_27_4 0xE12FFF10 0x112FFF15 (by decide)).1,
   (decoder_function_of_bits_27_4 0xE12FFF10 0x112FFF15 (by decide)).2.1⟩


/-! ### Condition codes after a comparison -/

/-- A 32-bit word read as a signed number, by cases on its bit 31. -/
theorem toSigned32_cases (a : Nat) (ha : a < 2 ^ 32) :
    (a < 2147483648 ∧ toSigned32 a = (a : Int)) ∨
    (2147483648 ≤ a ∧ toSigned32 a = (a : Int) - 4294967296) := by
  unfold toSigned32
  rw [Nat.mod_eq_of_lt ha]
  by_cases h : a < 2 ^ 31
  · left
    exact ⟨by omega, by rw [if_pos h]⟩
  · right
    exact ⟨by omega, by rw [if_neg h]; norm_num⟩

/-- C36: with the flags of a comparison of the 32-bit values `a` and `b` (N
bit 31 and Z the zero test of the 32-bit difference, C set when `a >= b`
unsigned, V the signed overflow of `a - b`), `conditionalHolds` returns EQ iff
`a = b`, NE iff `a != b`, CS iff `a >= b`, CC iff `a < b`, HI iff `a > b`,
LS iff `a <= b` (unsigned), GE, LT, GT, LE iff the same comparisons of the
signed values, AL always and NV never. -/
theorem conditionalHolds_after_compare (cpu : ARM7TDMI) (a b : Nat)
    (ha : a < 2 ^ 32) (hb : b < 2 ^ 32)
    (hN : cpu.cpsr.N = (sub32 a b).testBit 31)
    (hZ : cpu.cpsr.Z = decide (sub32 a b = 0))
    (hC : cpu.cpsr.C = decide (b ≤ a))
    (hV : cpu.cpsr.V = decide (toSigned32 a - toSigned32 b < -2147483648 ∨
                               2147483648 ≤ toSigned32 a - toSigned32 b)) :
    cpu.conditionalHolds 0 = some (decide (a = b)) ∧
    cpu.conditionalHolds 1 = some (decide (a ≠ b)) ∧
    cpu.conditionalHolds 2 = some (decide (b ≤ a)) ∧
    cpu.conditionalHolds 3 = some (decide (a < b)) ∧
    cpu.conditionalHolds 8 = some (decide (b < a)) ∧
    cpu.conditionalHolds 9 = some (decide (a ≤ b)) ∧
    cpu.conditionalHolds 10 = some (decide (toSigned32 b ≤ toSigned32 a)) ∧
    cpu.conditionalHolds 11 = some (decide (toSigned32 a < toSigned32 b)) ∧
    cpu.conditionalHolds 12 = some (decide (toSigned32 b < toSigned32 a)) ∧
    cpu.conditionalHolds 13 = some (decide (toSigned32 a ≤ toSigned32 b)) ∧
    cpu.conditionalHolds 14 = some true ∧
    cpu.conditionalHolds 15 = some false := by
  have ha' : a < 4294967296 := ha
  have hb' : b < 4294967296 := hb
  have hr : sub32 a b = if b ≤ a then a - b else a + 4294967296 - b := by
    unfold sub32
    rw [Nat.mod_eq_of_lt hb]
    show (a + (4294967296 - b)) % 4294967296 = _
    split_ifs with hba
    · have e : a + (4294967296 - b) = (a - b) + 4294967296 := by omega
      rw [e, Nat.add_mod_right, Nat.mod_eq_of_lt (by omega)]
    · rw [Nat.mod_eq_of_lt (by omega)]
      omega
  have hsa := toSigned32_cases a ha
  have hsb := toSigned32_cases b hb
  have eZ : cpu.cpsr.Z = decide (a = b) := by
    rw [hZ, hr]
    apply Bool.eq_iff_iff.2
    simp only [decide_eq_true_eq]
    split_ifs <;> omega
  have eN : cpu.cpsr.N = decide (2147483648 ≤ sub32 a b) := by
    rw [hN, Nat.testBit_to_div_mod]
    apply Bool.eq_iff_iff.2
    simp only [decide_eq_true_eq]
    have hlt : sub32 a b < 4294967296 := by
      rw [hr]
      split_ifs <;> omega
    omega
  have eNV : (cpu.cpsr.N == cpu.cpsr.V) = decide (toSigned32 b ≤ toSigned32 a) := by
    rw [eN, hV, hr]
    apply Bool.eq_iff_iff.2
    simp only [beq_iff_eq, decide_eq_true_eq, decide_eq_decide]
    generalize toSigned32 a = sa at *
    generalize toSigned32 b = sb at *
    split_ifs <;> omega
  have eNV2 : (cpu.cpsr.N != cpu.cpsr.V) = !decide (toSigned32 b ≤ toSigned32 a) := by
    show (!(cpu.cpsr.N == cpu.cpsr.V)) = _
    rw [eNV]
  show some cpu.cpsr.Z = _ ∧ some (!cpu.cpsr.Z) = _ ∧ some cpu.cpsr.C = _ ∧
    some (!cpu.cpsr.C) = _ ∧ some (cpu.cpsr.C && !cpu.cpsr.Z) = _ ∧
    some (!cpu.cpsr.C || cpu.cpsr.Z) = _ ∧ some (cpu.cpsr.N == cpu.cpsr.V) = _ ∧
    some (cpu.cpsr.N != cpu.cpsr.V) = _ ∧
    some (!cpu.cpsr.Z && (cpu.cpsr.N == cpu.cpsr.V)) = _ ∧
    some (cpu.cpsr.Z || (cpu.cpsr.N != cpu.cpsr.V)) = _ ∧ some true = _ ∧ some false = _
  rw [eNV, eNV2, eZ, hC]
  clear hN hZ hC hV hr eZ eN eNV eNV2
  generalize toSigned32 a = sa at *
  generalize toSigned32 b = sb at *
  refine ⟨rfl, ?_, rfl, ?_, ?_, ?_, rfl, ?_, ?_, ?_, rfl, rfl⟩ <;>
    (congr 1; apply Bool.eq_iff_iff.2;
     simp only [decide_eq_true_eq, Bool.and_eq_true, Bool.or_eq_true, Bool.not_eq_true',
       decide_eq_false_iff_not, ne_eq] <;>
     omega)

/-- Witness of `conditionalHolds_after_compare`: `CMP r0, r1` (`0xE1500001`)
with `r0 = 0x80000000` and `r1 = 1` leaves N = 0, Z = 0, C = 1, V = 1, the
flags of the comparison; HI holds (`a > b` unsigned), LT holds and GE does not
(`a < b` signed). -/
theorem conditionalHolds_after_compare_witness :
    dataProcHandler 0xE1500001 cmpScenario = some cmpFlagsState ∧
    cmpFlagsState.conditionalHolds 8 = some true ∧
    cmpFlagsState.conditionalHolds 10 = some false ∧
    cmpFlagsState.conditionalHolds 11 = some true := by
  have h := conditionalHolds_after_compare cmpFlagsState 0x80000000 1 (by norm_num)
    (by norm_num) (by decide!) (by decide!) (by decide) (by decide!)
  exact ⟨rfl, h.2.2.2.2.1.trans (by decide), h.2.2.2.2.2.2.1.trans (by decide!),
    h.2.2.2.2.2.2.2.1.trans (by decide!)⟩


/-! ### Barrel shifter: ASR by 32 or more, ROR by a register amount -/

/-- A rotation by 0 leaves a 32-bit value unchanged. -/
theorem aluShiftRor_zero (x : Nat) (hx : x < 2 ^ 32) : aluShiftRor x 0 = x := by
  unfold aluShiftRor
  apply Nat.eq_of_testBit_eq
  intro j
  rw [Nat.testBit_mod_two_pow, Nat.testBit_or, Nat.testBit_shiftRight, Nat.testBit_shiftLeft]
  by_cases hj : j < 32
  · have h1 : ¬ (32 - 0 % 32 ≤ j) := by omega
    simp [hj, h1]
  · have h2 : x.testBit j = false := Nat.testBit_lt_two_pow (by
      calc x < 2 ^ 32 := hx
        _ ≤ 2 ^ j := Nat.pow_le_pow_right (by norm_num) (by omega))
    simp [hj, h2]

/-- Bit 31 of a 32-bit value decides whether the value reaches `0x80000000`. -/
theorem testBit_31_iff (x : Nat) (hx : x < 2 ^ 32) :
    x.testBit 31 = decide (0x80000000 ≤ x) := by
  rw [Nat.testBit_to_div_mod]
  apply Bool.eq_iff_iff.2
  simp only [decide_eq_true_eq]
  omega

/-- C12: ASR of the 32-bit `Rm` value `x` by 32 or more. In the immediate form
with amount field 0 (ASR #32) and for a register amount `32 ≤ n ≤ 255` the
value is `0xFFFFFFFF` when bit 31 of `x` is set and 0 otherwise, and the
carry-out is bit 31 of `x`, which is 1 exactly when `x ≥ 0x80000000`. -/
theorem aluShift_asr_32 (cpu : ARM7TDMI) (instruction : Nat)
    (htype : (instruction &&& 0x00000060) >>> 5 = 2) :
    ((instruction &&& 0x00000F80) >>> 7 = 0 → shifterRmByImmediate cpu instruction < 2 ^ 32 →
      cpu.aluShift instruction false false
        = some { op2 := if (shifterRmByImmediate cpu instruction).testBit 31
                        then 0xFFFFFFFF else 0,
                 carry := flagBit ((shifterRmByImmediate cpu instruction).testBit 31) } ∧
      (shifterRmByImmediate cpu instruction).testBit 31
        = decide (0x80000000 ≤ shifterRmByImmediate cpu instruction)) ∧
    ((instruction &&& 0x00000F00) >>> 8 ≠ 15 →
      ∀ n, n = cpu.getRegister ((instruction &&& 0x00000F00) >>> 8) &&& 0x000000FF →
        32 ≤ n → shifterRmByRegister cpu instruction < 2 ^ 32 →
        n ≤ 255 ∧
        cpu.aluShift instruction false true
          = some { op2 := if (shifterRmByRegister cpu instruction).testBit 31
                          then 0xFFFFFFFF else 0,
                   carry := flagBit ((shifterRmByRegister cpu instruction).testBit 31) } ∧
        (shifterRmByRegister cpu instruction).testBit 31
          = decide (0x80000000 ≤ shifterRmByRegister cpu instruction)) := by
  refine ⟨?_, ?_⟩
  · intro h0 hx
    refine ⟨?_, testBit_31_iff _ hx⟩
    rw [← shiftRight_31 _ hx, ← aluSetsSignBit_eq]
    simp only [aluShift, htype, h0, shifterRmByImmediate, aluShiftAsr, aluSetsSignBit]
    simp [PC_REGISTER]
  · intro hrs n hn h32 hx
    have hle : n ≤ 255 := by rw [hn]; exact Nat.and_le_right
    refine ⟨hle, ?_, testBit_31_iff _ hx⟩
    have hm0 : n ≠ 0 := by omega
    rw [aluShift_register_form cpu instruction hrs, ← hn, ← aluSetsSignBit_eq]
    simp only [registerShiftedOperand, htype, aluShiftAsr, boolOfInt, aluSetsSignBit]
    simp [hm0, h32]

/-- Instance of `aluShift_asr_32`: `MOV r1, r2, ASR r3` (word `0xE1A01352`)
with `r2 = 0x80000000`, `r3 = 32` and `MOV r1, r2, ASR #32` (word
`0xE1A01042`) both yield the operand `0xFFFFFFFF` and carry-out 1. -/
theorem aluShift_asr_32_witness :
    (0xE1A01352 &&& 0x00000060) >>> 5 = 2 ∧ (0xE1A01352 &&& 0x00000F00) >>> 8 ≠ 15 ∧
    shiftBy32Scenario.getRegister 3 &&& 0x000000FF = 32 ∧
    shifterRmByRegister shiftBy32Scenario 0xE1A01352 = 0x80000000 ∧
    shiftBy32Scenario.aluShift 0xE1A01352 false true
      = some { op2 := 0xFFFFFFFF, carry := 1 } ∧
    (0xE1A01042 &&& 0x00000F80) >>> 7 = 0 ∧
    shiftBy32Scenario.aluShift 0xE1A01042 false false
      = some { op2 := 0xFFFFFFFF, carry := 1 } := by
  have hx : shifterRmByRegister shiftBy32Scenario 0xE1A01352 = 0x80000000 := by decide!
  have hy : shifterRmByImmediate shiftBy32Scenario 0xE1A01042 = 0x80000000 := by decide!
  have h1 := ((aluShift_asr_32 shiftBy32Scenario 0xE1A01352 (by decide)).2 (by decide) 32
    (by decide!) (by decide) (by rw [hx]; decide)).2.1
  have h2 := ((aluShift_asr_32 shiftBy32Scenario 0xE1A01042 (by decide)).1 (by decide)
    (by rw [hy]; decide)).1
  rw [hx] at h1
  rw [hy] at h2
  refine ⟨by decide, by decide, by decide!, hx, ?_, by decide, ?_⟩
  · rw [h1]; decide
  · rw [h2]; decide

/-- C14: ROR of the 32-bit `Rm` value `x` by a non-zero register amount `n`
(low byte of `Rs`). When `n` is a multiple of 32 the value is `x` unchanged
and the carry-out is bit 31 of `x`; otherwise the value is `x` rotated right
by `n mod 32` and the carry-out is bit `(n mod 32) - 1` of `x`. -/
theorem aluShift_ror_by_register (cpu : ARM7TDMI) (instruction : Nat)
    (htype : (instruction &&& 0x00000060) >>> 5 = 3)
    (hrs : (instruction &&& 0x00000F00) >>> 8 ≠ 15)
    (hx : shifterRmByRegister cpu instruction < 2 ^ 32) (n : Nat)
    (hn : n = cpu.getRegister ((instruction &&& 0x00000F00) >>> 8) &&& 0x000000FF)
    (h1 : 1 ≤ n) :
    n ≤ 255 ∧
    (n % 32 = 0 →
      cpu.aluShift instruction false true
        = some { op2 := shifterRmByRegister cpu instruction,
                 carry := flagBit ((shifterRmByRegister cpu instruction).testBit 31) }) ∧
    (n % 32 ≠ 0 →
      cpu.aluShift instruction false true
        = some { op2 := aluShiftRor (shifterRmByRegister cpu instruction) (n % 32),
                 carry := flagBit
                   ((shifterRmByRegister cpu instruction).testBit (n % 32 - 1)) }) := by
  have hle : n ≤ 255 := by rw [hn]; exact Nat.and_le_right
  have hm0 : n ≠ 0 := by omega
  have key : cpu.aluShift instruction false true
      = some { op2 := aluShiftRor (shifterRmByRegister cpu instruction) (n % 32),
               carry := (shiftRight32 (shifterRmByRegister cpu instruction)
                          (sub32 (n % 32) 1)) &&& 1 } := by
    rw [aluShift_register_form cpu instruction hrs, ← hn]
    simp only [registerShiftedOperand, htype]
    simp [hm0]
  refine ⟨hle, ?_, ?_⟩
  · intro h0
    rw [key, h0, aluShiftRor_zero _ hx]
    have hc : sub32 0 1 % 32 = 31 := by decide
    unfold shiftRight32
    rw [hc, shiftRight_and_one]
  · intro h0
    rw [key]
    have hlt : n % 32 < 32 := Nat.mod_lt _ (by norm_num)
    have hc : sub32 (n % 32) 1 % 32 = n % 32 - 1 := by
      unfold sub32
      have e : (n % 32 + (2 ^ 32 - 1 % 2 ^ 32)) % 2 ^ 32 = n % 32 - 1 := by
        norm_num
        omega
      rw [e]
      omega
    unfold shiftRight32
    rw [hc, shiftRight_and_one]

/-- Instance of `aluShift_ror_by_register`: `MOV r1, r2, ROR r3` (word
`0xE1A01372`) with `r2 = 0x80000000` and `r3 = 32` yields the operand
`0x80000000` and carry-out 1, bit 31 of the operand. -/
theorem aluShift_ror_by_register_witness :
    (0xE1A01372 &&& 0x00000060) >>> 5 = 3 ∧ (0xE1A01372 &&& 0x00000F00) >>> 8 ≠ 15 ∧
    shiftBy32Scenario.getRegister 3 &&& 0x000000FF = 32 ∧
    shifterRmByRegister shiftBy32Scenario 0xE1A01372 = 0x80000000 ∧
    shiftBy32Scenario.aluShift 0xE1A01372 false true
      = some { op2 := 0x80000000, carry := 1 } := by
  have hx : shifterRmByRegister shiftBy32Scenario 0xE1A01372 = 0x80000000 := by decide!
  have h := (aluShift_ror_by_register shiftBy32Scenario 0xE1A01372 (by decide) (by decide)
    (by rw [hx]; decide) 32 (by decide!) (by decide)).2.1 (by decide)
  rw [hx] at h
  refine ⟨by decide, by decide, by decide!, hx, ?_⟩
  rw [h]
  decide

end ARM7TDMI
